import Mathlib

/-! ArmPlugin: control loop and reward state machine of the robotic arm plugin

Shallow embedding of `src/gazebo/ArmPlugin.cpp`.

Modelling conventions.

* `float` and `double` values are rationals (`ℚ`).  The `float` arithmetic of
  the scripted trajectory of `updateJoints` is rounded to binary32 as the
  hardware does (`roundF32`: round to nearest, ties to even): the local `step`
  is the binary32 value `11811161 / 2 ^ 32`, and every `ref[n] += step` and
  `ref[n] -= step` is rounded.  The local constant `groundContact = 0.05f` is
  the binary32 value `13421773 / 2 ^ 28`, which the comparison with the `double`
  `gripBBox.min.z` uses exactly.  `-0.75f`, `2.0f`, `1.0f`, `-1.0f`, `0.0f` and
  `0.25` are binary32 values as they stand.  The remaining arithmetic (the
  step `ref[a/2] ± actionJointDelta` of `updateAgent`, the product
  `REWARD_LOSS * fabs(...)`, `rewardHistory += 0`) is exact, and `0.15f` and
  `0.1f` are the decimals they denote.  Infinities and NaN are not modelled:
  `roundF32` rounds within the binary32 range, which the values of the
  trajectory, of magnitude below 4, do not leave.
* The arrays `ref`, `vel` and `resetPos` (`float x[DOF]`) are functions from
  the index to the value; only the indices `n < DOF` are meaningful.
* `DOF` and the types of the members are declared in `ArmPlugin.h`, which is
  not part of the sources at hand.  `DOF` is therefore a parameter of every
  operation that uses it, and the integer members (`episodeFrames`,
  `maxEpisodeLength`, `animationStep`, `successfulGrabs`, `totalRuns`, the
  buffer sizes) are natural numbers without a declared width.
* Pointers are modelled by their being non-null: `agent`, `inputState` and
  `inputBuffer` are booleans.
* Calls into the simulator and into the DQN agent are recorded, in program
  order, as a list of `Event`s; what those calls return is part of the input
  of the operation (`UpdateInfo`, `ImageStamped`).
* Dereferencing a null pointer and dividing by zero are faults: an operation
  that can run into one returns an `Outcome`, whose `fault` case carries the
  events emitted before the fault.
* The preprocessor configuration is the one of the source: `VELOCITY_CONTROL 0`,
  `LOCKBASE true`, `DEBUG false`, and the `#if 0` branch of `updateJoints` is
  compiled out.
-/

namespace gazebo

/-! ## Constants -/

def JOINT_MIN : ℚ := -3/4

def JOINT_MAX : ℚ := 2

def REWARD_WIN : ℚ := 1

def REWARD_LOSS : ℚ := -1

def COLLISION_FILTER : String := "ground_plane::link::collision"

def COLLISION_ITEM : String := "tube::tube_link::tube_collision"

def COLLISION_POINT : String := "arm::gripperbase::gripper_link"

def ANIMATION_STEPS : Nat := 1000

/-- The value of the enumerator `NUM_ACTIONS` of `enum action`. -/
def NUM_ACTIONS : Nat := 6

/-! ## Binary32 arithmetic -/

/-- Rounding of a rational to the nearest integer, a tie going to the even
neighbour. -/
def roundNE (r : ℚ) : ℤ :=
  let f : ℤ := ⌊r⌋
  if r - f < 1 / 2 then f
  else if 1 / 2 < r - f then f + 1
  else if f % 2 = 0 then f else f + 1

/-- The spacing of the `float` (binary32) values around a magnitude `a`: the
search starts at the spacing `q` and doubles it, at most `fuel` times, until
`a < 2 ^ 24 * q`. -/
def quantum : Nat → ℚ → ℚ → ℚ
  | 0, _, q => q
  | fuel + 1, a, q => if a < 2 ^ 24 * q then q else quantum fuel a (2 * q)

/-- The `float` (binary32) value nearest to `x`, a tie going to the even
significand: the result of a `float` operation whose exact result is `x`.  The
spacing is `2 ^ (-149)` for the subnormal values and the first binade and
doubles with every binade up to `2 ^ 104`. -/
def roundF32 (x : ℚ) : ℚ :=
  let q : ℚ := quantum 253 |x| (1 / 2 ^ 149)
  (roundNE (x / q) : ℚ) * q

/-- A bound on the rounding error of `roundF32` on values of magnitude below 4. -/
def roundingError : ℚ := 1 / 2 ^ 23

/-- The conversion of a `uint32` value to `int` and then to the 64-bit `size_t`
of the members `inputRawWidth` and `inputRawHeight` (printed with `%zu` by
`updateAgent`): a value from `2 ^ 31` on becomes a negative `int`, which is
sign-extended. -/
def narrowToInt (n : Nat) : Nat :=
  if n % 2 ^ 32 < 2 ^ 31 then n % 2 ^ 32 else n % 2 ^ 32 + (2 ^ 64 - 2 ^ 32)

/-! ## Data model -/

/-- Calls that leave the plugin, in the order in which they are made. -/
inductive Event where
  /-- The call `dqnAgent::Create(...)` of `createAgent`. -/
  | Create
  /-- The call `Tensor::Alloc(...)` of `createAgent`. -/
  | Alloc
  /-- The call `agent->NextAction(inputState, &action)`. -/
  | NextAction
  /-- The call `agent->NextReward(reward, endEpisode)`. -/
  | NextReward (reward : ℚ) (endEpisode : Bool)
  /-- The call `j2_controller->SetJointPosition(model->GetJoint(joint), position)`. -/
  | SetJointPosition (joint : String) (position : ℚ)
  /-- The call `ResetPropDynamics()`. -/
  | ResetPropDynamics
  deriving DecidableEq

/-- The members of `ArmPlugin` that the control loop reads or writes. -/
structure ArmPlugin where
  ref : Nat → ℚ
  vel : Nat → ℚ
  resetPos : Nat → ℚ
  agent : Bool
  inputState : Bool
  inputBuffer : Bool
  inputBufferSize : Nat
  inputRawWidth : Nat
  inputRawHeight : Nat
  actionJointDelta : ℚ
  actionVelDelta : ℚ
  maxEpisodeLength : Nat
  episodeFrames : Nat
  newState : Bool
  newReward : Bool
  endEpisode : Bool
  rewardHistory : ℚ
  testAnimation : Bool
  loopAnimation : Bool
  animationStep : Nat
  lastGoalDistance : ℚ
  avgGoalDelta : ℚ
  successfulGrabs : Nat
  totalRuns : Nat

/-- One entry of a contacts message: the names of the two colliding surfaces. -/
structure Contact where
  collision1 : String
  collision2 : String
  deriving DecidableEq

/-- A camera message: `present` is false for a null message pointer; `width`,
`height` and `step` are the `uint32` fields of the image, `size` is the length
of its data, and `allocOk` is what `cudaAllocMapped` returns if it is called. -/
structure ImageStamped where
  present : Bool
  width : Nat
  height : Nat
  step : Nat
  size : Nat
  allocOk : Bool

/-- What one tick reads from outside the plugin: the simulation time, the
results of the calls made while creating and querying the agent, and the
geometry of the scene. -/
structure UpdateInfo where
  /-- The value of `updateInfo.simTime.Float()`. -/
  simTime : ℚ
  /-- Whether `dqnAgent::Create` returns an agent. -/
  agentCreated : Bool
  /-- Whether `Tensor::Alloc` returns a tensor. -/
  tensorAllocated : Bool
  /-- Whether `cudaPackedToPlanarBGR` succeeds. -/
  cudaOk : Bool
  /-- The action written by `agent->NextAction`, or `none` if the call fails. -/
  nextAction : Option Int
  /-- Whether `GetPropByName(PROP_NAME)` finds the prop. -/
  propFound : Bool
  /-- Whether `model->GetLink(GRIP_NAME)` finds the gripper. -/
  gripperFound : Bool
  /-- The value of `gripBBox.min.z`. -/
  gripMinZ : ℚ
  /-- The value of `gripper_pos.x`. -/
  gripperX : ℚ
  /-- The value of `goal_pos.x`. -/
  goalX : ℚ

/-- The result of an operation that may fault: either it returns `ret` in
state `s` after the calls `log`, or it faults after the calls `log`. -/
inductive Outcome (α : Type) where
  | done (ret : α) (s : ArmPlugin) (log : List Event)
  | fault (log : List Event)

/-! ## Operations -/

/-- The constructor `ArmPlugin::ArmPlugin()`. -/
def ArmPlugin.new : ArmPlugin :=
  let resetPos : Nat → ℚ := Function.update (fun _ => 0) 1 (1/4)
  { ref := resetPos
    vel := fun _ => 0
    resetPos := resetPos
    agent := false
    inputState := false
    inputBuffer := false
    inputBufferSize := 0
    inputRawWidth := 0
    inputRawHeight := 0
    actionJointDelta := 3/20
    actionVelDelta := 1/10
    maxEpisodeLength := 20
    episodeFrames := 0
    newState := false
    newReward := false
    endEpisode := false
    rewardHistory := 0
    testAnimation := true
    loopAnimation := false
    animationStep := 0
    lastGoalDistance := 0
    avgGoalDelta := 0
    successfulGrabs := 0
    totalRuns := 0 }

/-- The method `createAgent`: the returned boolean, the state and the calls made. -/
def ArmPlugin.createAgent (s : ArmPlugin) (i : UpdateInfo) : Bool × ArmPlugin × List Event :=
  if s.agent then (true, s, [])
  else
    let s1 := { s with agent := i.agentCreated }
    if !s1.agent then (false, s1, [Event.Create])
    else
      let s2 := { s1 with inputState := i.tensorAllocated }
      if !s2.inputState then (false, s2, [Event.Create, Event.Alloc])
      else (true, s2, [Event.Create, Event.Alloc])

/-- The method `onCameraMsg`; `none` is the division by zero in
`step() / width()`.  The product `(step / width) * 8` is computed in `uint32`.
The locals `width` and `height` are `int`s; the length of the data of a message
is below `2 ^ 31`, so that the local `size` holds it unchanged. -/
def ArmPlugin.onCameraMsg (s : ArmPlugin) (msg : ImageStamped) : Option ArmPlugin :=
  if !s.agent then some s
  else if !msg.present then some s
  else if msg.width = 0 then none
  else
    let bpp := ((msg.step / msg.width) * 8) % 2 ^ 32
    if bpp ≠ 24 then some s
    else if !s.inputBuffer || msg.size ≠ s.inputBufferSize then
      if !msg.allocOk then some s
      else
        some { s with inputBuffer := true, inputBufferSize := msg.size,
                      inputRawWidth := narrowToInt msg.width,
                      inputRawHeight := narrowToInt msg.height,
                      newState := true }
    else some { s with newState := true }

/-- The loop of `onCollisionMsg` over the contacts that are left, with the
current value of the local `collisionCheck`. -/
def ArmPlugin.collisionLoop (s : ArmPlugin) (collisionCheck : Bool) : List Contact → ArmPlugin
  | [] => s
  | c :: rest =>
    if c.collision2 = COLLISION_FILTER then ArmPlugin.collisionLoop s collisionCheck rest
    else
      let check : Bool :=
        if c.collision1 = COLLISION_ITEM then
          (if c.collision2 = COLLISION_POINT then true else collisionCheck)
        else if c.collision2 = COLLISION_ITEM then
          (if c.collision1 = COLLISION_POINT then true else collisionCheck)
        else collisionCheck
      if check then
        { s with rewardHistory := REWARD_WIN, newReward := true, endEpisode := true }
      else ArmPlugin.collisionLoop s check rest

/-- The method `onCollisionMsg`. -/
def ArmPlugin.onCollisionMsg (s : ArmPlugin) (contacts : List Contact) : ArmPlugin :=
  if s.testAnimation then s
  else ArmPlugin.collisionLoop s false contacts

/-- The method `updateAgent` (position control, `VELOCITY_CONTROL 0`).  It
faults when `inputState` or `agent` is null. -/
def ArmPlugin.updateAgent (DOF : Nat) (s : ArmPlugin) (i : UpdateInfo) : Outcome Bool :=
  if !s.inputState then Outcome.fault []
  else if !i.cudaOk then Outcome.done false s []
  else if !s.agent then Outcome.fault []
  else
    match i.nextAction with
    | none => Outcome.done false s [Event.NextAction]
    | some action =>
      if action < 0 ∨ action ≥ (DOF : Int) * 2 then Outcome.done false s [Event.NextAction]
      else
        let a := action.toNat
        let joint : ℚ :=
          if a % 2 = 1 then s.ref (a / 2) - s.actionJointDelta
          else s.ref (a / 2) + s.actionJointDelta
        let joint := if joint < JOINT_MIN then JOINT_MIN else joint
        let joint := if joint > JOINT_MAX then JOINT_MAX else joint
        Outcome.done true { s with ref := Function.update s.ref (a / 2) joint } [Event.NextAction]

/-- The body of the loop "return to base position" of `updateJoints` for joint
`n`; `ref[n] += step` and `ref[n] -= step` are `float` operations. -/
def ArmPlugin.returnToBase (step : ℚ) (resetPos : Nat → ℚ) (ref : Nat → ℚ) (n : Nat) : Nat → ℚ :=
  let r : ℚ :=
    if ref n < resetPos n then roundF32 (ref n + step)
    else if ref n > resetPos n then roundF32 (ref n - step)
    else ref n
  let r := if r < JOINT_MIN then JOINT_MIN else if r > JOINT_MAX then JOINT_MAX else r
  Function.update ref n r

/-- The method `updateJoints`: the returned boolean says whether the joint
references have been modified. -/
def ArmPlugin.updateJoints (DOF : Nat) (s : ArmPlugin) (i : UpdateInfo) : Outcome Bool :=
  if s.testAnimation then
    let step : ℚ :=
      roundF32 (roundF32 (JOINT_MAX - JOINT_MIN) * roundF32 (1 / (ANIMATION_STEPS : ℚ)))
    let s1 := { s with ref := (List.range DOF).foldl (ArmPlugin.returnToBase step s.resetPos) s.ref }
    let s2 := { s1 with animationStep := s1.animationStep + 1 }
    if s2.animationStep > ANIMATION_STEPS then
      let s3 := { s2 with animationStep := 0 }
      if !s3.loopAnimation then Outcome.done true { s3 with testAnimation := false } []
      else Outcome.done true s3 []
    else if s2.animationStep = ANIMATION_STEPS / 2 then
      Outcome.done true s2 [Event.ResetPropDynamics]
    else Outcome.done true s2 []
  else if s.newState && s.agent then
    let s1 := { s with episodeFrames := s.episodeFrames + 1 }
    let s2 := { s1 with newState := false }
    -- `if( updateAgent() ) return true;` and otherwise `return false`
    ArmPlugin.updateAgent DOF s2 i
  else Outcome.done false s []

/-- The joint targets written by `OnUpdate` when `updateJoints` returns true
(`LOCKBASE true`). -/
def ArmPlugin.setJointPositions (s : ArmPlugin) : List Event :=
  [Event.SetJointPosition "base" 0,
   Event.SetJointPosition "joint1" (s.ref 0),
   Event.SetJointPosition "joint2" (s.ref 1)]

/-- The block "episode timeout" of `OnUpdate`. -/
def ArmPlugin.episodeTimeout (s : ArmPlugin) : ArmPlugin :=
  if s.maxEpisodeLength > 0 ∧ s.episodeFrames > s.maxEpisodeLength then
    { s with rewardHistory := s.rewardHistory + 0, newReward := true, endEpisode := true }
  else s

/-- The local constant `groundContact = 0.05f` of `OnUpdate`: the binary32 value
nearest to 0.05, which is `13421773 / 2 ^ 28`, a little more than 0.05. -/
def groundContact : ℚ := 13421773 / 268435456

/-- The block "compute an intermediary reward" of `OnUpdate`; `none` is the
early `return` taken when the prop or the gripper is not found.  The two
consecutive tests `if(checkGroundContact)` and `if(!checkGroundContact)` of the
source are the two branches of one conditional here. -/
def ArmPlugin.interimReward (hadNewState : Bool) (s : ArmPlugin) (i : UpdateInfo) :
    Option ArmPlugin :=
  if hadNewState && !s.newReward then
    if !i.propFound then none
    else if !i.gripperFound then none
    else
      let checkGroundContact : Bool := decide (i.gripMinZ ≤ groundContact)
      if checkGroundContact then
        some { s with rewardHistory := if !s.endEpisode then REWARD_LOSS else s.rewardHistory,
                      newReward := true, endEpisode := true }
      else if s.episodeFrames > 1 then
        some { s with newReward := true,
                      rewardHistory := REWARD_LOSS * |i.gripperX - i.goalX| }
      else some s
  else some s

/-- The block "reset for next episode" of `OnUpdate`, entered with `newReward`
already cleared. -/
def ArmPlugin.resetEpisode (DOF : Nat) (s : ArmPlugin) : ArmPlugin :=
  { s with testAnimation := true, loopAnimation := false, endEpisode := false,
           episodeFrames := 0, lastGoalDistance := 0, avgGoalDelta := 0,
           successfulGrabs :=
             if s.rewardHistory ≥ REWARD_WIN then s.successfulGrabs + 1 else s.successfulGrabs,
           totalRuns := s.totalRuns + 1,
           rewardHistory := 0,
           vel := fun n => if n < DOF then 0 else s.vel n }

/-- The block "issue rewards and train DQN" of `OnUpdate`. -/
def ArmPlugin.issueRewards (DOF : Nat) (s : ArmPlugin) : ArmPlugin × List Event :=
  if s.newReward && s.agent then
    let log := [Event.NextReward s.rewardHistory s.endEpisode]
    let s1 := { s with newReward := false }
    if s1.endEpisode then (ArmPlugin.resetEpisode DOF s1, log)
    else (s1, log)
  else (s, [])

/-- The part of `OnUpdate` that follows the check `if( !agent ) return;`: the
tick of a plugin whose agent exists. -/
def ArmPlugin.OnUpdateLoaded (DOF : Nat) (s : ArmPlugin) (i : UpdateInfo) : Outcome Unit :=
  let hadNewState : Bool := s.newState && !s.testAnimation
  match ArmPlugin.updateJoints DOF s i with
  | Outcome.fault log1 => Outcome.fault log1
  | Outcome.done moved s1 log1 =>
    let log2 := if moved then ArmPlugin.setJointPositions s1 else []
    let s2 := ArmPlugin.episodeTimeout s1
    match ArmPlugin.interimReward hadNewState s2 i with
    | none => Outcome.done () s2 (log1 ++ log2)
    | some s3 =>
      let (s4, log4) := ArmPlugin.issueRewards DOF s3
      Outcome.done () s4 (log1 ++ log2 ++ log4)

/-- The three blocks of `OnUpdate` that follow the actuation, composed: the
episode timeout, the intermediary reward and the issue of the reward.  It is
what `OnUpdateLoaded` does with the state `s` left by `updateJoints`. -/
def ArmPlugin.rewardStage (DOF : Nat) (hadNewState : Bool) (s : ArmPlugin) (i : UpdateInfo) :
    ArmPlugin × List Event :=
  match ArmPlugin.interimReward hadNewState (ArmPlugin.episodeTimeout s) i with
  | none => (ArmPlugin.episodeTimeout s, [])
  | some s3 => ArmPlugin.issueRewards DOF s3

/-- The block "deferred loading of the agent" of `OnUpdate`: `createAgent` is
called when there is no agent and the simulation time is above 1.5; the boolean
is false when `createAgent` was called and failed. -/
def ArmPlugin.deferredLoading (s : ArmPlugin) (i : UpdateInfo) :
    Bool × ArmPlugin × List Event :=
  if !s.agent && decide (i.simTime > 3/2) then ArmPlugin.createAgent s i else (true, s, [])

/-- The method `OnUpdate`, called once per simulation tick: the deferred
loading of the agent, then the tick proper. -/
def ArmPlugin.OnUpdate (DOF : Nat) (s : ArmPlugin) (i : UpdateInfo) : Outcome Unit :=
  match ArmPlugin.deferredLoading s i with
  | (false, s0, log0) => Outcome.done () s0 log0
  | (true, s0, log0) =>
    if !s0.agent then Outcome.done () s0 log0
    else
      match ArmPlugin.OnUpdateLoaded DOF s0 i with
      | Outcome.fault log => Outcome.fault (log0 ++ log)
      | Outcome.done _ s1 log => Outcome.done () s1 (log0 ++ log)

/-! ## Observations on the calls made -/

/-- The calls made by an operation, whether it returned or faulted. -/
def Outcome.log {α : Type} : Outcome α → List Event
  | Outcome.done _ _ log => log
  | Outcome.fault log => log

/-- The rewards submitted to the agent by the calls `log`: the arguments
`(reward, endEpisode)` of each call of `NextReward`, in order. -/
def submitted : List Event → List (ℚ × Bool)
  | [] => []
  | Event.NextReward r e :: rest => (r, e) :: submitted rest
  | _ :: rest => submitted rest

/-- The clamp of the specification: `x` limited to `[JOINT_MIN, JOINT_MAX]`. -/
def clampJoint (x : ℚ) : ℚ := max JOINT_MIN (min x JOINT_MAX)

/-- A plugin right after a successful `createAgent`: the constructor's state
with the agent and its input tensor. -/
def loadedPlugin : ArmPlugin :=
  { ArmPlugin.new with agent := true, inputState := true }

/-- A tick input at simulation time `t` in which every external call succeeds,
the agent selects `action`, and the gripper is at height `z` and at horizontal
distance `d` from the goal. -/
def tickInput (t : ℚ) (action : Int) (z d : ℚ) : UpdateInfo :=
  { simTime := t, agentCreated := true, tensorAllocated := true, cudaOk := true,
    nextAction := some action, propFound := true, gripperFound := true,
    gripMinZ := z, gripperX := d, goalX := 0 }

/-- The goal contact of the specification: the contact pairs the target
collision `COLLISION_ITEM` with the gripper collision `COLLISION_POINT`, in
either order. -/
def Contact.isGoal (c : Contact) : Prop :=
  (c.collision1 = COLLISION_ITEM ∧ c.collision2 = COLLISION_POINT) ∨
  (c.collision1 = COLLISION_POINT ∧ c.collision2 = COLLISION_ITEM)

instance (c : Contact) : Decidable c.isGoal := by
  unfold Contact.isGoal
  exact inferInstance

/-- An agent-driven plugin on which `onCollisionMsg` has raised goal-reached:
`rewardHistory = REWARD_WIN`, `newReward` and `endEpisode` are set. -/
def winPending : ArmPlugin :=
  { loadedPlugin with testAnimation := false, newReward := true, endEpisode := true,
                      rewardHistory := REWARD_WIN }

/-- The state in which the tick of `winPending` with two joints ends. -/
def afterWin : ArmPlugin :=
  { loadedPlugin with successfulGrabs := 1, totalRuns := 1,
                      vel := fun n => if n < 2 then 0 else loadedPlugin.vel n }

/-- Every entry of a reference vector lies in `[JOINT_MIN, JOINT_MAX]`. -/
def InRange (ref : Nat → ℚ) : Prop :=
  ∀ n, JOINT_MIN ≤ ref n ∧ ref n ≤ JOINT_MAX

/-- The state after one call of `updateJoints` on the constructor's state, with
two joints. -/
def afterFirstStep : ArmPlugin :=
  { ArmPlugin.new with
    ref := (List.range 2).foldl
      (ArmPlugin.returnToBase
        (roundF32 (roundF32 (JOINT_MAX - JOINT_MIN) * roundF32 (1 / (ANIMATION_STEPS : ℚ))))
        ArmPlugin.new.resetPos) ArmPlugin.new.ref,
    animationStep := 1 }

/-- The invariant of the reward flags in reachable states: `endEpisode` and
`newReward` go together; a pending reward is the win raised by the collision
callback in AgentDriven mode; when no reward is pending the last reward value
is not positive; AgentDriven mode needs the agent; ScriptedReset mode has no
frames counted; the episode length limit is the constructor's. -/
structure RewardInv (s : ArmPlugin) : Prop where
  flags : s.endEpisode = s.newReward
  pending : s.newReward = true → s.rewardHistory = REWARD_WIN ∧ s.testAnimation = false
  idle : s.newReward = false → s.rewardHistory ≤ 0
  mode : s.agent = false → s.testAnimation = true
  frames : s.testAnimation = true → s.episodeFrames = 0
  limit : s.maxEpisodeLength = 20

/-- The plugin with two joints during the scripted reset, after `k` trajectory
steps, with its agent and, if `tensor` holds, its input tensor; every joint is
at its home value. -/
def animating (tensor : Bool) (k : Nat) : ArmPlugin :=
  { ArmPlugin.new with agent := true, inputState := tensor, animationStep := k }

/-- The loaded plugin in AgentDriven mode with a 64x64 staging buffer, after
`k` frames of the episode, with last reward value `r`; `b` says whether a new
frame is ready. -/
def driving (k : Nat) (r : ℚ) (b : Bool) : ArmPlugin :=
  { loadedPlugin with testAnimation := false, inputBuffer := true, inputBufferSize := 12288,
                      inputRawWidth := 64, inputRawHeight := 64, episodeFrames := k,
                      rewardHistory := r, newState := b }

/-- The plugin with two joints when the scripted reset has completed, with its
agent and, if `tensor` holds, its input tensor. -/
def agentDriven (tensor : Bool) : ArmPlugin :=
  { ArmPlugin.new with agent := true, inputState := tensor, testAnimation := false }

/-- The plugin with two joints in AgentDriven mode with a frame ready, an agent
and no input tensor. -/
def starved : ArmPlugin :=
  { agentDriven false with inputBuffer := true, inputBufferSize := 12288,
                           inputRawWidth := 64, inputRawHeight := 64, newState := true }

/-- A tick input for a frame of a plugin with two joints: the agent selects
action 4 (joint 2, which two joints do not have), the gripper is at height 1
and at horizontal distance 1/2 from the goal. -/
def frameInput : UpdateInfo := tickInput 2 4 1 (1/2)

/-- A contact between the target and the gripper. -/
def goalContact : Contact :=
  { collision1 := COLLISION_ITEM, collision2 := COLLISION_POINT }

/-- A tick input for a frame on which the gripper bounding box is at height
0.03, below the ground contact threshold. -/
def groundInput : UpdateInfo := tickInput 2 0 0.03 (1/2)

/-- A camera message with a 64x64 image of 24 bits per pixel. -/
def frame64 : ImageStamped :=
  { present := true, width := 64, height := 64, step := 192, size := 12288, allocOk := true }

/-- A tick input at simulation time 2 on which `dqnAgent::Create` returns an
agent and `Tensor::Alloc` returns null. -/
def tensorFailure : UpdateInfo :=
  { tickInput 2 0 1 1 with tensorAllocated := false }

/-- The constructor's state with an agent but without its input tensor. -/
def halfLoaded : ArmPlugin :=
  { ArmPlugin.new with agent := true }

/-- States reachable from the constructor's state through the entry points of
the plugin: complete ticks and complete camera and collision callbacks, in any
order. -/
inductive Reachable (DOF : Nat) : ArmPlugin → Prop where
  | init : Reachable DOF ArmPlugin.new
  | tick (s s' : ArmPlugin) (i : UpdateInfo) (log : List Event) :
      Reachable DOF s → s.OnUpdate DOF i = Outcome.done () s' log → Reachable DOF s'
  | camera (s s' : ArmPlugin) (msg : ImageStamped) :
      Reachable DOF s → s.onCameraMsg msg = some s' → Reachable DOF s'
  | collision (s : ArmPlugin) (contacts : List Contact) :
      Reachable DOF s → Reachable DOF (s.onCollisionMsg contacts)

/-- States reachable from the constructor's state when, besides the entry
points, `updateAgent` and `updateJoints` may also be called on their own. -/
inductive ReachableBySteps (DOF : Nat) : ArmPlugin → Prop where
  | init : ReachableBySteps DOF ArmPlugin.new
  | tick (s s' : ArmPlugin) (i : UpdateInfo) (log : List Event) :
      ReachableBySteps DOF s → s.OnUpdate DOF i = Outcome.done () s' log →
      ReachableBySteps DOF s'
  | agentAction (s s' : ArmPlugin) (i : UpdateInfo) (r : Bool) (log : List Event) :
      ReachableBySteps DOF s → s.updateAgent DOF i = Outcome.done r s' log →
      ReachableBySteps DOF s'
  | trajectoryStep (s s' : ArmPlugin) (i : UpdateInfo) (r : Bool) (log : List Event) :
      ReachableBySteps DOF s → s.updateJoints DOF i = Outcome.done r s' log →
      ReachableBySteps DOF s'
  | camera (s s' : ArmPlugin) (msg : ImageStamped) :
      ReachableBySteps DOF s → s.onCameraMsg msg = some s' → ReachableBySteps DOF s'
  | collision (s : ArmPlugin) (contacts : List Contact) :
      ReachableBySteps DOF s → ReachableBySteps DOF (s.onCollisionMsg contacts)

/-- The value of the local `bpp` of `onCameraMsg`: `(step / width) * 8`, computed
in `uint32`. -/
def ImageStamped.bpp (msg : ImageStamped) : Nat :=
  ((msg.step / msg.width) * 8) % 2 ^ 32

/-- A camera message whose image has width 0. -/
def zeroWidth : ImageStamped :=
  { present := true, width := 0, height := 64, step := 192, size := 12288, allocOk := true }

/-- The local constant `step` of `updateJoints`:
`(JOINT_MAX - JOINT_MIN) * (float(1.0f) / float(ANIMATION_STEPS))` in `float`
arithmetic. -/
def stepSize : ℚ :=
  roundF32 (roundF32 (JOINT_MAX - JOINT_MIN) * roundF32 (1 / (ANIMATION_STEPS : ℚ)))

/-- The value that the loop "return to base position" of `updateJoints` writes
to a joint whose reference is `r` and whose home value is `home`. -/
def ArmPlugin.approach (step home r : ℚ) : ℚ :=
  let r1 : ℚ :=
    if r < home then roundF32 (r + step)
    else if r > home then roundF32 (r - step)
    else r
  if r1 < JOINT_MIN then JOINT_MIN else if r1 > JOINT_MAX then JOINT_MAX else r1

/-- The state after `n` successive calls of `updateJoints`, the call number `k`
(from 0) with the input `inputs k`; `none` if one of the calls faults. -/
def ArmPlugin.updateJointsTimes (DOF : Nat) (inputs : Nat → UpdateInfo) :
    Nat → ArmPlugin → Option ArmPlugin
  | 0, s => some s
  | n + 1, s =>
    match ArmPlugin.updateJointsTimes DOF inputs n s with
    | none => none
    | some s1 =>
      match s1.updateJoints DOF (inputs n) with
      | Outcome.done _ s2 _ => some s2
      | Outcome.fault _ => none

/-- The constructor's state with every joint reference at `JOINT_MAX`, away from
its home value. -/
def displaced : ArmPlugin :=
  { ArmPlugin.new with ref := fun _ => JOINT_MAX }

/-- The constructor's state with every joint reference at `2 ^ (-40)`, a binary32
value close to the home value 0 of joint 0. -/
def nearHome : ArmPlugin :=
  { ArmPlugin.new with ref := fun _ => 1 / 2 ^ 40 }

/-- Reachable states together with a record of whether `onCollisionMsg` has
raised goal-reached since the last completed tick: the record is set by a
collision message that is received in AgentDriven mode and holds a goal
contact, and cleared by every completed tick. -/
inductive ReachableSinceTick (DOF : Nat) : ArmPlugin → Bool → Prop where
  | init : ReachableSinceTick DOF ArmPlugin.new false
  | tick (s s' : ArmPlugin) (i : UpdateInfo) (log : List Event) (g : Bool) :
      ReachableSinceTick DOF s g → s.OnUpdate DOF i = Outcome.done () s' log →
      ReachableSinceTick DOF s' false
  | camera (s s' : ArmPlugin) (msg : ImageStamped) (g : Bool) :
      ReachableSinceTick DOF s g → s.onCameraMsg msg = some s' →
      ReachableSinceTick DOF s' g
  | collision (s : ArmPlugin) (contacts : List Contact) (g : Bool) :
      ReachableSinceTick DOF s g →
      ReachableSinceTick DOF (s.onCollisionMsg contacts)
        (g || decide (s.testAnimation = false ∧ ∃ c ∈ contacts, c.isGoal))

/-! ## Theorems -/

theorem submitted_append (l₁ l₂ : List Event) :
    submitted (l₁ ++ l₂) = submitted l₁ ++ submitted l₂ := by
  induction l₁ with
  | nil => rfl
  | cons e l ih => cases e <;> simp [submitted, ih]

theorem submitted_createAgent (s : ArmPlugin) (i : UpdateInfo) :
    submitted (s.createAgent i).2.2 = [] := by
  cases h1 : s.agent <;> cases h2 : i.agentCreated <;> cases h3 : i.tensorAllocated <;>
    simp [ArmPlugin.createAgent, submitted, h1, h2, h3]

theorem submitted_updateAgent (DOF : Nat) (s : ArmPlugin) (i : UpdateInfo) :
    submitted (s.updateAgent DOF i).log = [] := by
  unfold ArmPlugin.updateAgent
  cases h1 : s.inputState <;> cases h2 : i.cudaOk <;> cases h3 : s.agent <;>
    cases h4 : i.nextAction <;> simp [submitted, Outcome.log]
  split_ifs <;> simp [submitted, Outcome.log]

theorem submitted_updateJoints (DOF : Nat) (s : ArmPlugin) (i : UpdateInfo) :
    submitted (s.updateJoints DOF i).log = [] := by
  unfold ArmPlugin.updateJoints
  by_cases h1 : s.testAnimation = true
  · rw [if_pos h1]
    dsimp only
    split_ifs <;> simp [submitted, Outcome.log]
  · rw [if_neg h1]
    by_cases h2 : (s.newState && s.agent) = true
    · rw [if_pos h2]
      exact submitted_updateAgent _ _ _
    · rw [if_neg h2]
      simp [submitted, Outcome.log]

theorem submitted_setJointPositions (s : ArmPlugin) :
    submitted s.setJointPositions = [] := by
  simp [ArmPlugin.setJointPositions, submitted]

theorem submitted_issueRewards (DOF : Nat) (s : ArmPlugin) :
    submitted (s.issueRewards DOF).2 =
      if s.newReward && s.agent then [(s.rewardHistory, s.endEpisode)] else [] := by
  unfold ArmPlugin.issueRewards
  cases h1 : s.newReward <;> cases h2 : s.agent <;> cases h3 : s.endEpisode <;>
    simp [submitted]

theorem submitted_OnUpdateLoaded (DOF : Nat) (s : ArmPlugin) (i : UpdateInfo) :
    (submitted (s.OnUpdateLoaded DOF i).log).length ≤ 1 := by
  unfold ArmPlugin.OnUpdateLoaded
  have hj := submitted_updateJoints DOF s i
  cases hu : s.updateJoints DOF i with
  | fault log1 =>
    rw [hu] at hj
    simp only [Outcome.log] at hj ⊢
    simp [hj]
  | done moved s1 log1 =>
    rw [hu] at hj
    have hm : submitted (if moved = true then s1.setJointPositions else []) = [] := by
      split_ifs
      · exact submitted_setJointPositions s1
      · rfl
    dsimp only
    cases hr : ArmPlugin.interimReward (s.newState && !s.testAnimation)
        (ArmPlugin.episodeTimeout s1) i with
    | none =>
      simp only [Outcome.log, submitted_append, hm] at hj ⊢
      simp [hj]
    | some s3 =>
      have h4 := submitted_issueRewards DOF s3
      simp only [Outcome.log, submitted_append, hm] at hj ⊢
      rw [hj, h4]
      split_ifs <;> simp

/-- C1: for every plugin state and every tick input, one call of `OnUpdate`
calls the agent's reward submission `NextReward` at most once, whether the
call returns or faults. -/
theorem OnUpdate_at_most_one_reward (DOF : Nat) (s : ArmPlugin) (i : UpdateInfo) :
    (submitted (s.OnUpdate DOF i).log).length ≤ 1 := by
  unfold ArmPlugin.OnUpdate
  have hl0 : submitted (s.deferredLoading i).2.2 = [] := by
    unfold ArmPlugin.deferredLoading
    split_ifs
    · exact submitted_createAgent s i
    · rfl
  generalize s.deferredLoading i = loaded at hl0
  obtain ⟨b, s0, log0⟩ := loaded
  simp only at hl0
  cases b
  · simp [Outcome.log, hl0]
  · dsimp only
    split_ifs
    · simp [Outcome.log, hl0]
    · have hb := submitted_OnUpdateLoaded DOF s0 i
      cases hu : s0.OnUpdateLoaded DOF i with
      | fault log1 =>
        rw [hu] at hb
        simpa [Outcome.log, submitted_append, hl0] using hb
      | done r s1 log1 =>
        rw [hu] at hb
        simpa [Outcome.log, submitted_append, hl0] using hb

theorem limit_eq_clampJoint (x : ℚ) :
    (if (if x < JOINT_MIN then JOINT_MIN else x) > JOINT_MAX then JOINT_MAX
      else (if x < JOINT_MIN then JOINT_MIN else x)) = clampJoint x := by
  unfold clampJoint JOINT_MIN JOINT_MAX
  by_cases h1 : x < -3/4
  · have h2 : min x 2 = x := min_eq_left (by linarith)
    have h3 : max (-3/4 : ℚ) x = -3/4 := max_eq_left (by linarith)
    rw [if_pos h1, h2, h3, if_neg (by norm_num)]
  · rw [if_neg h1]
    by_cases h4 : x > 2
    · have h2 : min x 2 = 2 := min_eq_right (by linarith)
      rw [if_pos h4, h2, max_eq_right (by norm_num)]
    · have h2 : min x 2 = x := min_eq_left (by linarith)
      rw [if_neg h4, h2, max_eq_right (by linarith)]

theorem updateAgent_frame (DOF : Nat) (s s' : ArmPlugin) (i : UpdateInfo) (r : Bool)
    (log : List Event) (h : s.updateAgent DOF i = Outcome.done r s' log) :
    ∃ f, s' = { s with ref := f } := by
  unfold ArmPlugin.updateAgent at h
  split_ifs at h
  · cases h
    exact ⟨s.ref, rfl⟩
  · split at h
    · cases h
      exact ⟨s.ref, rfl⟩
    · split_ifs at h
      · cases h
        exact ⟨s.ref, rfl⟩
      · cases h
        exact ⟨_, rfl⟩

theorem updateJoints_frame (DOF : Nat) (s s' : ArmPlugin) (i : UpdateInfo) (r : Bool)
    (log : List Event) (h : s.updateJoints DOF i = Outcome.done r s' log) :
    s'.newReward = s.newReward ∧ s'.endEpisode = s.endEpisode ∧
    s'.rewardHistory = s.rewardHistory ∧ s'.agent = s.agent ∧
    s'.inputState = s.inputState ∧ s'.maxEpisodeLength = s.maxEpisodeLength ∧
    s'.totalRuns = s.totalRuns ∧ s'.successfulGrabs = s.successfulGrabs ∧
    s'.resetPos = s.resetPos ∧ s'.actionJointDelta = s.actionJointDelta := by
  unfold ArmPlugin.updateJoints at h
  by_cases h1 : s.testAnimation = true
  · rw [if_pos h1] at h
    dsimp only at h
    split_ifs at h <;> cases h <;> simp
  · rw [if_neg h1] at h
    by_cases h2 : (s.newState && s.agent) = true
    · rw [if_pos h2] at h
      obtain ⟨f, hf⟩ := updateAgent_frame _ _ _ _ _ _ h
      subst hf
      simp
    · rw [if_neg h2] at h
      cases h
      simp

theorem episodeTimeout_frame (s : ArmPlugin) :
    ∃ nr ee rh, s.episodeTimeout =
      { s with newReward := nr, endEpisode := ee, rewardHistory := rh } := by
  unfold ArmPlugin.episodeTimeout
  split_ifs
  · exact ⟨_, _, _, rfl⟩
  · exact ⟨_, _, _, rfl⟩

theorem interimReward_frame (hadNewState : Bool) (s s' : ArmPlugin) (i : UpdateInfo)
    (h : ArmPlugin.interimReward hadNewState s i = some s') :
    ∃ nr ee rh, s' = { s with newReward := nr, endEpisode := ee, rewardHistory := rh } := by
  simp only [ArmPlugin.interimReward] at h
  split_ifs at h <;> cases h <;> exact ⟨_, _, _, rfl⟩

theorem deferredLoading_frame (s : ArmPlugin) (i : UpdateInfo) :
    ∃ a b, (s.deferredLoading i).2.1 = { s with agent := a, inputState := b } := by
  simp only [ArmPlugin.deferredLoading, ArmPlugin.createAgent]
  split_ifs <;> exact ⟨_, _, rfl⟩

theorem submitted_deferredLoading (s : ArmPlugin) (i : UpdateInfo) :
    submitted (s.deferredLoading i).2.2 = [] := by
  unfold ArmPlugin.deferredLoading
  split_ifs
  · exact submitted_createAgent s i
  · rfl

/-! ### The shape of a tick -/

theorem OnUpdateLoaded_done (DOF : Nat) (s s' : ArmPlugin) (i : UpdateInfo) (u : Unit)
    (log : List Event) (h : s.OnUpdateLoaded DOF i = Outcome.done u s' log) :
    ∃ moved s1 log1, s.updateJoints DOF i = Outcome.done moved s1 log1 ∧
      ((ArmPlugin.interimReward (s.newState && !s.testAnimation) s1.episodeTimeout i = none ∧
          s' = s1.episodeTimeout ∧
          log = log1 ++ (if moved then s1.setJointPositions else [])) ∨
       (∃ s3, ArmPlugin.interimReward (s.newState && !s.testAnimation) s1.episodeTimeout i
            = some s3 ∧
          s' = (s3.issueRewards DOF).1 ∧
          log = log1 ++ (if moved then s1.setJointPositions else []) ++
            (s3.issueRewards DOF).2)) := by
  unfold ArmPlugin.OnUpdateLoaded at h
  cases hu : s.updateJoints DOF i with
  | fault log1 =>
    rw [hu] at h
    cases h
  | done moved s1 log1 =>
    rw [hu] at h
    refine ⟨moved, s1, log1, rfl, ?_⟩
    dsimp only at h
    cases hr : ArmPlugin.interimReward (s.newState && !s.testAnimation) s1.episodeTimeout i with
    | none =>
      rw [hr] at h
      cases h
      exact Or.inl ⟨rfl, rfl, rfl⟩
    | some s3 =>
      rw [hr] at h
      cases h
      exact Or.inr ⟨s3, rfl, rfl, rfl⟩

theorem OnUpdate_done (DOF : Nat) (s s' : ArmPlugin) (i : UpdateInfo)
    (log : List Event) (h : s.OnUpdate DOF i = Outcome.done () s' log) :
    (((s.deferredLoading i).1 = false ∨ (s.deferredLoading i).2.1.agent = false) ∧
      s' = (s.deferredLoading i).2.1 ∧ log = (s.deferredLoading i).2.2) ∨
    (∃ log1, (s.deferredLoading i).2.1.agent = true ∧
      (s.deferredLoading i).2.1.OnUpdateLoaded DOF i = Outcome.done () s' log1 ∧
      log = (s.deferredLoading i).2.2 ++ log1) := by
  unfold ArmPlugin.OnUpdate at h
  generalize s.deferredLoading i = loaded at h
  obtain ⟨b, s0, log0⟩ := loaded
  cases b
  · cases h
    exact Or.inl ⟨Or.inl rfl, rfl, rfl⟩
  · dsimp only at h
    by_cases ha : s0.agent = true
    · rw [if_neg (by simp [ha])] at h
      cases hu : s0.OnUpdateLoaded DOF i with
      | fault log1 =>
        rw [hu] at h
        cases h
      | done r s1 log1 =>
        rw [hu] at h
        cases h
        exact Or.inr ⟨log1, ha, rfl, rfl⟩
    · rw [if_pos (by simp [ha])] at h
      cases h
      exact Or.inl ⟨Or.inr (by simpa using ha), rfl, rfl⟩

theorem OnUpdateLoaded_done_cases (DOF : Nat) (s s' : ArmPlugin) (i : UpdateInfo) (u : Unit)
    (log : List Event) (h : s.OnUpdateLoaded DOF i = Outcome.done u s' log) :
    (submitted log = [] ∧ s'.totalRuns = s.totalRuns ∧
      s'.successfulGrabs = s.successfulGrabs) ∨
    (∃ s3 : ArmPlugin, s3.newReward = true ∧ s3.agent = true ∧ s3.totalRuns = s.totalRuns ∧
      s3.successfulGrabs = s.successfulGrabs ∧
      submitted log = [(s3.rewardHistory, s3.endEpisode)] ∧
      s' = (s3.issueRewards DOF).1) := by
  obtain ⟨moved, s1, log1, hu, hc⟩ := OnUpdateLoaded_done DOF s s' i u log h
  have hj := submitted_updateJoints DOF s i
  rw [hu] at hj
  simp only [Outcome.log] at hj
  obtain ⟨-, -, -, -, -, -, ht, hg, -, -⟩ := updateJoints_frame DOF s s1 i moved log1 hu
  have hm : submitted (if moved = true then s1.setJointPositions else []) = [] := by
    split_ifs
    · exact submitted_setJointPositions s1
    · rfl
  obtain ⟨nr, ee, rh, he⟩ := episodeTimeout_frame s1
  rcases hc with ⟨-, hs', hlog⟩ | ⟨s3, hr, hs', hlog⟩
  · left
    subst hs' hlog
    rw [he]
    simp [submitted_append, hj, hm, ht, hg]
  · obtain ⟨nr', ee', rh', h3⟩ := interimReward_frame _ _ _ _ hr
    have h3t : s3.totalRuns = s.totalRuns := by rw [h3, he]; simpa using ht
    have h3g : s3.successfulGrabs = s.successfulGrabs := by rw [h3, he]; simpa using hg
    have h4 := submitted_issueRewards DOF s3
    by_cases hn : (s3.newReward && s3.agent) = true
    · right
      rw [if_pos hn] at h4
      simp only [Bool.and_eq_true] at hn
      refine ⟨s3, hn.1, hn.2, h3t, h3g, ?_, hs'⟩
      rw [hlog]
      simp [submitted_append, hj, hm, h4]
    · left
      rw [if_neg hn] at h4
      have h5 : (s3.issueRewards DOF).1 = s3 := by
        unfold ArmPlugin.issueRewards
        rw [if_neg hn]
      rw [hs', hlog, h5]
      simp [submitted_append, hj, hm, h4, h3t, h3g]

theorem OnUpdate_done_cases (DOF : Nat) (s s' : ArmPlugin) (i : UpdateInfo)
    (log : List Event) (h : s.OnUpdate DOF i = Outcome.done () s' log) :
    (submitted log = [] ∧ s'.totalRuns = s.totalRuns ∧
      s'.successfulGrabs = s.successfulGrabs) ∨
    (∃ s3 : ArmPlugin, s3.newReward = true ∧ s3.agent = true ∧ s3.totalRuns = s.totalRuns ∧
      s3.successfulGrabs = s.successfulGrabs ∧
      submitted log = [(s3.rewardHistory, s3.endEpisode)] ∧
      s' = (s3.issueRewards DOF).1) := by
  obtain ⟨a, b, hd⟩ := deferredLoading_frame s i
  have hl := submitted_deferredLoading s i
  rcases OnUpdate_done DOF s s' i log h with ⟨-, hs', hlog⟩ | ⟨log1, -, hb, hlog⟩
  · left
    rw [hs', hlog, hd]
    exact ⟨hl, rfl, rfl⟩
  · rcases OnUpdateLoaded_done_cases DOF _ s' i () log1 hb with ⟨h1, h2, h3⟩ | ⟨s3, h1, h2, h3, h4, h5, h6⟩
    · left
      rw [hd] at h2 h3
      rw [hlog, submitted_append, hl, h1]
      exact ⟨rfl, h2, h3⟩
    · right
      rw [hd] at h3 h4
      refine ⟨s3, h1, h2, h3, h4, ?_, h6⟩
      rw [hlog, submitted_append, hl, h5]
      rfl

theorem issueRewards_terminal (DOF : Nat) (s : ArmPlugin) (hn : s.newReward = true)
    (ha : s.agent = true) (he : s.endEpisode = true) :
    (s.issueRewards DOF).1.episodeFrames = 0 ∧ (s.issueRewards DOF).1.testAnimation = true ∧
    (s.issueRewards DOF).1.loopAnimation = false ∧ (s.issueRewards DOF).1.newReward = false ∧
    (s.issueRewards DOF).1.endEpisode = false ∧ (s.issueRewards DOF).1.rewardHistory = 0 ∧
    (s.issueRewards DOF).1.totalRuns = s.totalRuns + 1 ∧
    (s.issueRewards DOF).1.successfulGrabs =
      s.successfulGrabs + (if s.rewardHistory ≥ REWARD_WIN then 1 else 0) := by
  simp only [ArmPlugin.issueRewards, ArmPlugin.resetEpisode, hn, ha, he, Bool.and_self,
    if_true, and_self, true_and]
  split_ifs <;> rfl

theorem issueRewards_interim (DOF : Nat) (s : ArmPlugin) (hn : s.newReward = true)
    (ha : s.agent = true) (he : s.endEpisode = false) :
    (s.issueRewards DOF).1 = { s with newReward := false } := by
  simp [ArmPlugin.issueRewards, hn, ha, he]

/-- C5: for every tick of `OnUpdate` that submits a reward with terminal = true,
the state after the tick has `episodeFrames = 0`, `testAnimation = true`
(ScriptedReset mode), `loopAnimation = false`, `newReward = false`,
`endEpisode = false` and `rewardHistory = 0`. -/
theorem OnUpdate_terminal_resets (DOF : Nat) (s s' : ArmPlugin) (i : UpdateInfo)
    (log : List Event) (r : ℚ) (h : s.OnUpdate DOF i = Outcome.done () s' log)
    (hr : (r, true) ∈ submitted log) :
    s'.episodeFrames = 0 ∧ s'.testAnimation = true ∧ s'.loopAnimation = false ∧
    s'.newReward = false ∧ s'.endEpisode = false ∧ s'.rewardHistory = 0 := by
  rcases OnUpdate_done_cases DOF s s' i log h with ⟨h1, -, -⟩ | ⟨s3, h1, h2, -, -, h5, h6⟩
  · rw [h1] at hr
    cases hr
  · rw [h5] at hr
    simp only [List.mem_singleton, Prod.mk.injEq] at hr
    obtain ⟨e1, e2, e3, e4, e5, e6, -, -⟩ := issueRewards_terminal DOF s3 h1 h2 hr.2.symm
    rw [h6]
    exact ⟨e1, e2, e3, e4, e5, e6⟩

/-- C6: for every tick of `OnUpdate`, if the tick submits a terminal reward `r`
then `totalRuns` increases by exactly 1 and `successfulGrabs` by 1 if
`r >= REWARD_WIN` and by 0 otherwise; if the tick submits no terminal reward,
both counters are unchanged. -/
theorem OnUpdate_counters (DOF : Nat) (s s' : ArmPlugin) (i : UpdateInfo)
    (log : List Event) (h : s.OnUpdate DOF i = Outcome.done () s' log) :
    (∀ r, (r, true) ∈ submitted log →
      s'.totalRuns = s.totalRuns + 1 ∧
      s'.successfulGrabs = s.successfulGrabs + (if r ≥ REWARD_WIN then 1 else 0)) ∧
    ((∀ r, (r, true) ∉ submitted log) →
      s'.totalRuns = s.totalRuns ∧ s'.successfulGrabs = s.successfulGrabs) := by
  rcases OnUpdate_done_cases DOF s s' i log h with ⟨h1, h2, h3⟩ | ⟨s3, h1, h2, h3, h4, h5, h6⟩
  · refine ⟨?_, fun _ => ⟨h2, h3⟩⟩
    intro r hr
    rw [h1] at hr
    cases hr
  · constructor
    · intro r hr
      rw [h5] at hr
      simp only [List.mem_singleton, Prod.mk.injEq] at hr
      obtain ⟨-, -, -, -, -, -, e7, e8⟩ := issueRewards_terminal DOF s3 h1 h2 hr.2.symm
      rw [h6, e7, e8, h3, h4, hr.1]
      exact ⟨rfl, rfl⟩
    · intro hno
      have he : s3.endEpisode = false := by
        cases hb : s3.endEpisode
        · rfl
        · exfalso
          apply hno s3.rewardHistory
          rw [h5, hb]
          exact List.mem_singleton_self _
      rw [h6, issueRewards_interim DOF s3 h1 h2 he]
      exact ⟨h3, h4⟩

/-- Witness for C5: the tick that consumes a pending win. -/
theorem OnUpdate_terminal_resets_witness :
    winPending.OnUpdate 2 (tickInput 2 0 1 1) =
        Outcome.done () afterWin [Event.NextReward 1 true] ∧
      afterWin.episodeFrames = 0 ∧ afterWin.testAnimation = true ∧
      afterWin.loopAnimation = false ∧ afterWin.newReward = false ∧
      afterWin.endEpisode = false ∧ afterWin.rewardHistory = 0 :=
  ⟨rfl, OnUpdate_terminal_resets 2 winPending afterWin (tickInput 2 0 1 1)
    [Event.NextReward 1 true] 1 rfl (by simp [submitted])⟩

/-- Witness for C6: the tick that consumes a pending win counts one run and one
successful grab. -/
theorem OnUpdate_counters_witness :
    afterWin.totalRuns = winPending.totalRuns + 1 ∧
      afterWin.successfulGrabs =
        winPending.successfulGrabs + (if (1 : ℚ) ≥ REWARD_WIN then 1 else 0) :=
  (OnUpdate_counters 2 winPending afterWin (tickInput 2 0 1 1)
    [Event.NextReward 1 true] rfl).1 1 (by simp [submitted])

/-! ### The collision callback -/

theorem collisionLoop_eq (s : ArmPlugin) (contacts : List Contact) :
    s.collisionLoop false contacts =
      if ∃ c ∈ contacts, c.isGoal then
        { s with rewardHistory := REWARD_WIN, newReward := true, endEpisode := true }
      else s := by
  have hfi : COLLISION_FILTER ≠ COLLISION_ITEM := by decide
  have hfp : COLLISION_FILTER ≠ COLLISION_POINT := by decide
  have hip : COLLISION_ITEM ≠ COLLISION_POINT := by decide
  induction contacts with
  | nil => simp [ArmPlugin.collisionLoop]
  | cons c rest ih =>
    unfold ArmPlugin.collisionLoop
    by_cases hf : c.collision2 = COLLISION_FILTER
    · have hng : ¬ c.isGoal := by
        unfold Contact.isGoal
        rw [hf]
        rintro (⟨-, h⟩ | ⟨-, h⟩)
        · exact hfp h
        · exact hfi h
      rw [if_pos hf, ih]
      simp [hng]
    · rw [if_neg hf]
      by_cases hg : c.isGoal
      · have hex : ∃ c' ∈ c :: rest, c'.isGoal := ⟨c, List.mem_cons_self _ _, hg⟩
        rw [if_pos hex]
        rcases hg with ⟨h1, h2⟩ | ⟨h1, h2⟩
        · simp [h1, h2]
        · have h3 : ¬ COLLISION_POINT = COLLISION_ITEM := fun h => hip h.symm
          simp [h1, h2, h3]
      · have hch : (if c.collision1 = COLLISION_ITEM then
              (if c.collision2 = COLLISION_POINT then true else false)
            else if c.collision2 = COLLISION_ITEM then
              (if c.collision1 = COLLISION_POINT then true else false)
            else false) = false := by
          unfold Contact.isGoal at hg
          push_neg at hg
          split_ifs with a b d e
          · exact absurd b (hg.1 a)
          · rfl
          · exact absurd d (hg.2 e)
          · rfl
          · rfl
        simp only [hch, Bool.false_eq_true, if_false]
        rw [ih]
        simp [hg]

/-- C8: for every contact list, `onCollisionMsg` sets `rewardHistory = REWARD_WIN`,
`newReward = true` and `endEpisode = true` exactly when the mode is AgentDriven
(`testAnimation` false) and the list contains a contact that pairs
`COLLISION_ITEM` with `COLLISION_POINT` in either order; otherwise, and in
particular for every list received in ScriptedReset mode, the state is
unchanged; no other field changes in any case. -/
theorem onCollisionMsg_goal_iff (s : ArmPlugin) (contacts : List Contact) :
    s.onCollisionMsg contacts =
      if s.testAnimation = false ∧ ∃ c ∈ contacts, c.isGoal then
        { s with rewardHistory := REWARD_WIN, newReward := true, endEpisode := true }
      else s := by
  unfold ArmPlugin.onCollisionMsg
  by_cases ht : s.testAnimation = true
  · rw [if_pos ht, if_neg]
    rintro ⟨hf, -⟩
    rw [ht] at hf
    cases hf
  · rw [if_neg ht, collisionLoop_eq s contacts]
    have hf : s.testAnimation = false := by simpa using ht
    by_cases hg : ∃ c ∈ contacts, c.isGoal
    · rw [if_pos hg, if_pos ⟨hf, hg⟩]
    · rw [if_neg hg, if_neg (fun h => hg h.2)]

/-! ### Joint references stay within their limits -/

theorem clampJoint_mem (x : ℚ) : JOINT_MIN ≤ clampJoint x ∧ clampJoint x ≤ JOINT_MAX := by
  unfold clampJoint
  refine ⟨le_max_left _ _, max_le ?_ (min_le_right _ _)⟩
  norm_num [JOINT_MIN, JOINT_MAX]

theorem InRange_update (ref : Nat → ℚ) (k : Nat) (x : ℚ) (h : InRange ref)
    (hx : JOINT_MIN ≤ x ∧ x ≤ JOINT_MAX) : InRange (Function.update ref k x) := by
  intro n
  by_cases hn : n = k
  · subst hn
    simpa using hx
  · simpa [Function.update_noteq hn] using h n

theorem updateAgent_ref (DOF : Nat) (s s' : ArmPlugin) (i : UpdateInfo) (r : Bool)
    (log : List Event) (h : s.updateAgent DOF i = Outcome.done r s' log) :
    s'.ref = s.ref ∨ ∃ k x, s'.ref = Function.update s.ref k (clampJoint x) := by
  unfold ArmPlugin.updateAgent at h
  split_ifs at h
  · cases h
    exact Or.inl rfl
  · split at h
    · cases h
      exact Or.inl rfl
    · split_ifs at h
      · cases h
        exact Or.inl rfl
      · cases h
        dsimp only
        rw [limit_eq_clampJoint]
        exact Or.inr ⟨_, _, rfl⟩

theorem updateAgent_inRange (DOF : Nat) (s s' : ArmPlugin) (i : UpdateInfo) (r : Bool)
    (log : List Event) (h : s.updateAgent DOF i = Outcome.done r s' log)
    (hs : InRange s.ref) : InRange s'.ref := by
  rcases updateAgent_ref DOF s s' i r log h with h1 | ⟨k, x, h1⟩
  · rwa [h1]
  · rw [h1]
    exact InRange_update _ _ _ hs (clampJoint_mem x)

theorem returnToBase_inRange (step : ℚ) (resetPos ref : Nat → ℚ) (n : Nat)
    (h : InRange ref) : InRange (ArmPlugin.returnToBase step resetPos ref n) := by
  unfold ArmPlugin.returnToBase
  apply InRange_update _ _ _ h
  dsimp only
  split_ifs <;> constructor <;> first
    | exact le_refl _
    | (norm_num [JOINT_MIN, JOINT_MAX]; done)
    | linarith

theorem foldl_returnToBase_inRange (step : ℚ) (resetPos : Nat → ℚ) (l : List Nat)
    (ref : Nat → ℚ) (h : InRange ref) :
    InRange (l.foldl (ArmPlugin.returnToBase step resetPos) ref) := by
  induction l generalizing ref with
  | nil => exact h
  | cons n rest ih => exact ih _ (returnToBase_inRange step resetPos ref n h)

theorem updateJoints_inRange (DOF : Nat) (s s' : ArmPlugin) (i : UpdateInfo) (r : Bool)
    (log : List Event) (h : s.updateJoints DOF i = Outcome.done r s' log)
    (hs : InRange s.ref) : InRange s'.ref := by
  unfold ArmPlugin.updateJoints at h
  by_cases h1 : s.testAnimation = true
  · rw [if_pos h1] at h
    dsimp only at h
    have hf := fun step : ℚ =>
      foldl_returnToBase_inRange step s.resetPos (List.range DOF) s.ref hs
    split_ifs at h <;> cases h <;> exact hf _
  · rw [if_neg h1] at h
    by_cases h2 : (s.newState && s.agent) = true
    · rw [if_pos h2] at h
      exact updateAgent_inRange DOF _ s' i r log h hs
    · rw [if_neg h2] at h
      cases h
      exact hs

theorem issueRewards_ref (DOF : Nat) (s : ArmPlugin) : (s.issueRewards DOF).1.ref = s.ref := by
  simp only [ArmPlugin.issueRewards]
  split_ifs <;> rfl

theorem OnUpdateLoaded_inRange (DOF : Nat) (s s' : ArmPlugin) (i : UpdateInfo) (u : Unit)
    (log : List Event) (h : s.OnUpdateLoaded DOF i = Outcome.done u s' log)
    (hs : InRange s.ref) : InRange s'.ref := by
  obtain ⟨moved, s1, log1, hu, hc⟩ := OnUpdateLoaded_done DOF s s' i u log h
  have h1 := updateJoints_inRange DOF s s1 i moved log1 hu hs
  obtain ⟨nr, ee, rh, he⟩ := episodeTimeout_frame s1
  rcases hc with ⟨-, hs', -⟩ | ⟨s3, hr, hs', -⟩
  · rw [hs', he]
    exact h1
  · obtain ⟨nr', ee', rh', h3⟩ := interimReward_frame _ _ _ _ hr
    rw [hs', issueRewards_ref, h3, he]
    exact h1

theorem OnUpdate_inRange (DOF : Nat) (s s' : ArmPlugin) (i : UpdateInfo)
    (log : List Event) (h : s.OnUpdate DOF i = Outcome.done () s' log)
    (hs : InRange s.ref) : InRange s'.ref := by
  obtain ⟨a, b, hd⟩ := deferredLoading_frame s i
  rcases OnUpdate_done DOF s s' i log h with ⟨-, hs', -⟩ | ⟨log1, -, hb, -⟩
  · rw [hs', hd]
    exact hs
  · apply OnUpdateLoaded_inRange DOF _ s' i () log1 hb
    rw [hd]
    exact hs

theorem onCameraMsg_ref (s s' : ArmPlugin) (msg : ImageStamped)
    (h : s.onCameraMsg msg = some s') : s'.ref = s.ref := by
  simp only [ArmPlugin.onCameraMsg] at h
  split_ifs at h <;> cases h <;> rfl

theorem onCollisionMsg_eq (s : ArmPlugin) (contacts : List Contact) :
    s.onCollisionMsg contacts = s ∨
    s.onCollisionMsg contacts =
      { s with rewardHistory := REWARD_WIN, newReward := true, endEpisode := true } := by
  unfold ArmPlugin.onCollisionMsg
  split_ifs
  · exact Or.inl rfl
  · rw [collisionLoop_eq]
    split_ifs
    · exact Or.inr rfl
    · exact Or.inl rfl

theorem new_inRange : InRange ArmPlugin.new.ref := by
  intro n
  by_cases hn : n = 1
  · subst hn
    norm_num [ArmPlugin.new, JOINT_MIN, JOINT_MAX]
  · norm_num [ArmPlugin.new, JOINT_MIN, JOINT_MAX, Function.update_noteq hn]

theorem reachableBySteps_inRange (DOF : Nat) (s : ArmPlugin) (h : ReachableBySteps DOF s) :
    InRange s.ref := by
  induction h with
  | init => exact new_inRange
  | tick s s' i log _ hstep ih => exact OnUpdate_inRange DOF s s' i log hstep ih
  | agentAction s s' i r log _ hstep ih => exact updateAgent_inRange DOF s s' i r log hstep ih
  | trajectoryStep s s' i r log _ hstep ih =>
    exact updateJoints_inRange DOF s s' i r log hstep ih
  | camera s s' msg _ hstep ih =>
    rw [onCameraMsg_ref s s' msg hstep]
    exact ih
  | collision s contacts _ ih =>
    rcases onCollisionMsg_eq s contacts with h1 | h1 <;> rw [h1] <;> exact ih

/-- C3: in every state reachable from the constructor's state by any sequence
of ticks (`OnUpdate`), agent actions (`updateAgent`), trajectory steps
(`updateJoints`) and callbacks, every joint reference `ref[n]`, `n < DOF`, lies
in `[JOINT_MIN, JOINT_MAX] = [-0.75, 2.0]`. -/
theorem joint_references_within_limits (DOF : Nat) (s : ArmPlugin)
    (h : ReachableBySteps DOF s) (n : Nat) (_hn : n < DOF) :
    JOINT_MIN ≤ s.ref n ∧ s.ref n ≤ JOINT_MAX ∧ JOINT_MIN = -0.75 ∧ JOINT_MAX = 2.0 := by
  have h1 := reachableBySteps_inRange DOF s h n
  refine ⟨h1.1, h1.2, ?_, ?_⟩ <;> norm_num [JOINT_MIN, JOINT_MAX]

/-- Witness for C3: the state after one trajectory step from the constructor's
state, with two joints. -/
theorem joint_references_within_limits_witness :
    ReachableBySteps 2 afterFirstStep ∧
      JOINT_MIN ≤ afterFirstStep.ref 1 ∧ afterFirstStep.ref 1 ≤ JOINT_MAX ∧
      JOINT_MIN = -0.75 ∧ JOINT_MAX = 2.0 :=
  have hr : ReachableBySteps 2 afterFirstStep :=
    ReachableBySteps.trajectoryStep ArmPlugin.new afterFirstStep (tickInput 2 0 1 1) true []
      ReachableBySteps.init rfl
  ⟨hr, joint_references_within_limits 2 afterFirstStep hr 1 (by decide)⟩

/-! ### The reward stage of a tick, case by case -/

theorem episodeTimeout_of_not (s : ArmPlugin)
    (ht : ¬ (s.maxEpisodeLength > 0 ∧ s.episodeFrames > s.maxEpisodeLength)) :
    s.episodeTimeout = s := by
  unfold ArmPlugin.episodeTimeout
  rw [if_neg ht]

theorem rewardStage_pending (DOF : Nat) (hadNewState : Bool) (s : ArmPlugin) (i : UpdateInfo)
    (ha : s.agent = true) (hn : s.newReward = true) (he : s.endEpisode = true) :
    s.rewardStage DOF hadNewState i =
      (ArmPlugin.resetEpisode DOF { s with newReward := false },
        [Event.NextReward s.rewardHistory true]) := by
  by_cases ht : s.maxEpisodeLength > 0 ∧ s.episodeFrames > s.maxEpisodeLength
  · simp [ArmPlugin.rewardStage, ArmPlugin.episodeTimeout, ArmPlugin.interimReward,
      ArmPlugin.issueRewards, ArmPlugin.resetEpisode, ht, ha]
  · simp [ArmPlugin.rewardStage, ArmPlugin.episodeTimeout, ArmPlugin.interimReward,
      ArmPlugin.issueRewards, ArmPlugin.resetEpisode, ht, ha, hn, he]

theorem rewardStage_timeout (DOF : Nat) (hadNewState : Bool) (s : ArmPlugin) (i : UpdateInfo)
    (ha : s.agent = true)
    (ht : s.maxEpisodeLength > 0 ∧ s.episodeFrames > s.maxEpisodeLength) :
    s.rewardStage DOF hadNewState i =
      (ArmPlugin.resetEpisode DOF { s with newReward := false },
        [Event.NextReward s.rewardHistory true]) := by
  simp [ArmPlugin.rewardStage, ArmPlugin.episodeTimeout, ArmPlugin.interimReward,
    ArmPlugin.issueRewards, ArmPlugin.resetEpisode, ht, ha]

theorem rewardStage_idle (DOF : Nat) (hadNewState : Bool) (s : ArmPlugin) (i : UpdateInfo)
    (hn : s.newReward = false)
    (ht : ¬ (s.maxEpisodeLength > 0 ∧ s.episodeFrames > s.maxEpisodeLength))
    (hc : hadNewState = false ∨ i.propFound = false ∨ i.gripperFound = false ∨
      (¬ i.gripMinZ ≤ groundContact ∧ ¬ s.episodeFrames > 1)) :
    s.rewardStage DOF hadNewState i = (s, []) := by
  unfold ArmPlugin.rewardStage
  rw [episodeTimeout_of_not s ht]
  rcases hc with hc | hc | hc | ⟨hz, hf⟩
  · simp [ArmPlugin.interimReward, ArmPlugin.issueRewards, hc, hn]
  · cases hadNewState <;> simp [ArmPlugin.interimReward, ArmPlugin.issueRewards, hc, hn]
  · cases hadNewState <;> cases hp : i.propFound <;>
      simp [ArmPlugin.interimReward, ArmPlugin.issueRewards, hc, hn]
  · cases hadNewState <;> cases hp : i.propFound <;> cases hg : i.gripperFound <;>
      simp [ArmPlugin.interimReward, ArmPlugin.issueRewards, hn, hz, hf, hp, hg]

theorem rewardStage_ground (DOF : Nat) (s : ArmPlugin) (i : UpdateInfo)
    (ha : s.agent = true) (hn : s.newReward = false) (he : s.endEpisode = false)
    (ht : ¬ (s.maxEpisodeLength > 0 ∧ s.episodeFrames > s.maxEpisodeLength))
    (hp : i.propFound = true) (hg : i.gripperFound = true) (hz : i.gripMinZ ≤ groundContact) :
    s.rewardStage DOF true i =
      (ArmPlugin.resetEpisode DOF { s with newReward := false, rewardHistory := REWARD_LOSS },
        [Event.NextReward REWARD_LOSS true]) := by
  unfold ArmPlugin.rewardStage
  rw [episodeTimeout_of_not s ht]
  simp [ArmPlugin.interimReward, ArmPlugin.issueRewards, ArmPlugin.resetEpisode, hn, he, hp,
    hg, hz, ha]

theorem rewardStage_shaping (DOF : Nat) (s : ArmPlugin) (i : UpdateInfo)
    (ha : s.agent = true) (hn : s.newReward = false) (he : s.endEpisode = false)
    (ht : ¬ (s.maxEpisodeLength > 0 ∧ s.episodeFrames > s.maxEpisodeLength))
    (hp : i.propFound = true) (hg : i.gripperFound = true) (hz : ¬ i.gripMinZ ≤ groundContact)
    (hf : s.episodeFrames > 1) :
    s.rewardStage DOF true i =
      ({ s with newReward := false, rewardHistory := REWARD_LOSS * |i.gripperX - i.goalX| },
        [Event.NextReward (REWARD_LOSS * |i.gripperX - i.goalX|) false]) := by
  unfold ArmPlugin.rewardStage
  rw [episodeTimeout_of_not s ht]
  simp [ArmPlugin.interimReward, ArmPlugin.issueRewards, hn, he, hp, hg, hz, ha, hf]

theorem rewardStage_cases (DOF : Nat) (hadNewState : Bool) (s : ArmPlugin) (i : UpdateInfo)
    (ha : s.agent = true) (hfl : s.endEpisode = s.newReward) :
    (s.rewardStage DOF hadNewState i =
        (ArmPlugin.resetEpisode DOF { s with newReward := false },
          [Event.NextReward s.rewardHistory true]) ∧
      (s.newReward = true ∨
        (s.maxEpisodeLength > 0 ∧ s.episodeFrames > s.maxEpisodeLength))) ∨
    (s.rewardStage DOF hadNewState i = (s, []) ∧ s.newReward = false ∧
      ¬ (s.maxEpisodeLength > 0 ∧ s.episodeFrames > s.maxEpisodeLength) ∧
      (hadNewState = false ∨ i.propFound = false ∨ i.gripperFound = false ∨
        (¬ i.gripMinZ ≤ groundContact ∧ ¬ s.episodeFrames > 1))) ∨
    (s.rewardStage DOF hadNewState i =
        (ArmPlugin.resetEpisode DOF
          { s with newReward := false, rewardHistory := REWARD_LOSS },
          [Event.NextReward REWARD_LOSS true]) ∧ s.newReward = false ∧
      ¬ (s.maxEpisodeLength > 0 ∧ s.episodeFrames > s.maxEpisodeLength) ∧
      hadNewState = true ∧ i.propFound = true ∧ i.gripperFound = true ∧
      i.gripMinZ ≤ groundContact) ∨
    (s.rewardStage DOF hadNewState i =
        ({ s with newReward := false,
                  rewardHistory := REWARD_LOSS * |i.gripperX - i.goalX| },
          [Event.NextReward (REWARD_LOSS * |i.gripperX - i.goalX|) false]) ∧
      s.newReward = false ∧
      ¬ (s.maxEpisodeLength > 0 ∧ s.episodeFrames > s.maxEpisodeLength) ∧
      hadNewState = true ∧ i.propFound = true ∧ i.gripperFound = true ∧
      ¬ i.gripMinZ ≤ groundContact ∧ s.episodeFrames > 1) := by
  by_cases ht : s.maxEpisodeLength > 0 ∧ s.episodeFrames > s.maxEpisodeLength
  · exact Or.inl ⟨rewardStage_timeout DOF hadNewState s i ha ht, Or.inr ht⟩
  cases hn : s.newReward with
  | true =>
    have he : s.endEpisode = true := by rw [hfl, hn]
    exact Or.inl ⟨rewardStage_pending DOF hadNewState s i ha hn he, Or.inl rfl⟩
  | false =>
    have he : s.endEpisode = false := by rw [hfl, hn]
    right
    cases hh : hadNewState with
    | false =>
      exact Or.inl ⟨rewardStage_idle DOF false s i hn ht (Or.inl rfl), rfl, ht, Or.inl rfl⟩
    | true =>
      cases hp : i.propFound with
      | false =>
        exact Or.inl ⟨rewardStage_idle DOF true s i hn ht (Or.inr (Or.inl hp)), rfl, ht,
          Or.inr (Or.inl rfl)⟩
      | true =>
        cases hg : i.gripperFound with
        | false =>
          exact Or.inl ⟨rewardStage_idle DOF true s i hn ht (Or.inr (Or.inr (Or.inl hg))),
            rfl, ht, Or.inr (Or.inr (Or.inl rfl))⟩
        | true =>
          by_cases hz : i.gripMinZ ≤ groundContact
          · exact Or.inr (Or.inl ⟨rewardStage_ground DOF s i ha hn he ht hp hg hz, rfl, ht,
              rfl, rfl, rfl, hz⟩)
          · by_cases hf : s.episodeFrames > 1
            · exact Or.inr (Or.inr ⟨rewardStage_shaping DOF s i ha hn he ht hp hg hz hf, rfl,
                ht, rfl, rfl, rfl, hz, hf⟩)
            · exact Or.inl ⟨rewardStage_idle DOF true s i hn ht
                (Or.inr (Or.inr (Or.inr ⟨hz, hf⟩))), rfl, ht,
                Or.inr (Or.inr (Or.inr ⟨hz, hf⟩))⟩

/-! ### The tick in terms of its stages -/

theorem OnUpdateLoaded_eq (DOF : Nat) (s s1 : ArmPlugin) (i : UpdateInfo) (moved : Bool)
    (log1 : List Event) (hu : s.updateJoints DOF i = Outcome.done moved s1 log1) :
    s.OnUpdateLoaded DOF i =
      Outcome.done () (s1.rewardStage DOF (s.newState && !s.testAnimation) i).1
        (log1 ++ (if moved then s1.setJointPositions else []) ++
          (s1.rewardStage DOF (s.newState && !s.testAnimation) i).2) := by
  unfold ArmPlugin.OnUpdateLoaded ArmPlugin.rewardStage
  rw [hu]
  dsimp only
  cases ArmPlugin.interimReward (s.newState && !s.testAnimation) s1.episodeTimeout i with
  | none => simp
  | some s3 => rfl

theorem OnUpdateLoaded_fault (DOF : Nat) (s : ArmPlugin) (i : UpdateInfo)
    (log1 : List Event) (hu : s.updateJoints DOF i = Outcome.fault log1) :
    s.OnUpdateLoaded DOF i = Outcome.fault log1 := by
  unfold ArmPlugin.OnUpdateLoaded
  rw [hu]

theorem OnUpdate_of_agent (DOF : Nat) (s : ArmPlugin) (i : UpdateInfo)
    (ha : s.agent = true) : s.OnUpdate DOF i = s.OnUpdateLoaded DOF i := by
  unfold ArmPlugin.OnUpdate ArmPlugin.deferredLoading
  simp only [ha, Bool.not_true, Bool.false_and, Bool.false_eq_true, if_false]
  cases s.OnUpdateLoaded DOF i with
  | done u s1 log => simp
  | fault log => simp

/-! ### The invariant of the reward flags -/

theorem updateJoints_mode (DOF : Nat) (s s' : ArmPlugin) (i : UpdateInfo) (r : Bool)
    (log : List Event) (h : s.updateJoints DOF i = Outcome.done r s' log) :
    (s.testAnimation = true → s'.episodeFrames = s.episodeFrames) ∧
    (s.testAnimation = false → s'.testAnimation = false) := by
  unfold ArmPlugin.updateJoints at h
  by_cases h1 : s.testAnimation = true
  · rw [if_pos h1] at h
    dsimp only at h
    split_ifs at h <;> cases h <;> simp [h1]
  · rw [if_neg h1] at h
    have h1' : s.testAnimation = false := by simpa using h1
    by_cases h2 : (s.newState && s.agent) = true
    · rw [if_pos h2] at h
      obtain ⟨f, hf⟩ := updateAgent_frame _ _ _ _ _ _ h
      subst hf
      simp [h1']
    · rw [if_neg h2] at h
      cases h
      simp [h1']

theorem RewardInv_new : RewardInv ArmPlugin.new where
  flags := rfl
  pending := by intro h; cases h
  idle := by intro _; exact le_refl _
  mode := by intro _; rfl
  frames := by intro _; rfl
  limit := rfl

theorem updateJoints_inv (DOF : Nat) (s s' : ArmPlugin) (i : UpdateInfo) (r : Bool)
    (log : List Event) (hi : RewardInv s) (ha : s.agent = true)
    (h : s.updateJoints DOF i = Outcome.done r s' log) : RewardInv s' ∧ s'.agent = true := by
  obtain ⟨h1, h2, h3, h4, -, h6, -, -, -, -⟩ := updateJoints_frame DOF s s' i r log h
  obtain ⟨m1, m2⟩ := updateJoints_mode DOF s s' i r log h
  refine ⟨⟨?_, ?_, ?_, ?_, ?_, ?_⟩, by rw [h4, ha]⟩
  · rw [h1, h2]
    exact hi.flags
  · intro hn
    rw [h1] at hn
    rw [h3]
    exact ⟨(hi.pending hn).1, m2 (hi.pending hn).2⟩
  · intro hn
    rw [h1] at hn
    rw [h3]
    exact hi.idle hn
  · intro hf
    rw [h4, ha] at hf
    cases hf
  · intro ht
    cases hs : s.testAnimation with
    | true => rw [m1 hs, hi.frames hs]
    | false =>
      rw [m2 hs] at ht
      cases ht
  · rw [h6]
    exact hi.limit

theorem RewardInv_resetEpisode (DOF : Nat) (s : ArmPlugin) (hl : s.maxEpisodeLength = 20)
    (hn : s.newReward = false) : RewardInv (ArmPlugin.resetEpisode DOF s) where
  flags := hn.symm
  pending := by
    intro h
    change s.newReward = true at h
    rw [hn] at h
    cases h
  idle := by
    intro _
    exact le_refl _
  mode := by
    intro _
    rfl
  frames := by
    intro _
    rfl
  limit := hl

theorem rewardStage_inv (DOF : Nat) (hadNewState : Bool) (s : ArmPlugin) (i : UpdateInfo)
    (hi : RewardInv s) (ha : s.agent = true) :
    RewardInv (s.rewardStage DOF hadNewState i).1 ∧
      (s.rewardStage DOF hadNewState i).1.agent = true := by
  have habs : REWARD_LOSS * |i.gripperX - i.goalX| ≤ 0 := by
    have := abs_nonneg (i.gripperX - i.goalX)
    unfold REWARD_LOSS
    linarith
  rcases rewardStage_cases DOF hadNewState s i ha hi.flags with
    ⟨h, -⟩ | ⟨h, -⟩ | ⟨h, -⟩ | ⟨h, hn, -⟩
  · rw [h]
    exact ⟨RewardInv_resetEpisode DOF _ hi.limit rfl, ha⟩
  · rw [h]
    exact ⟨hi, ha⟩
  · rw [h]
    exact ⟨RewardInv_resetEpisode DOF _ hi.limit rfl, ha⟩
  · rw [h]
    refine ⟨⟨?_, ?_, ?_, ?_, hi.frames, hi.limit⟩, ha⟩
    · show s.endEpisode = false
      rw [hi.flags, hn]
    · intro h
      cases h
    · intro _
      exact habs
    · intro h
      change s.agent = false at h
      rw [ha] at h
      cases h

theorem OnUpdateLoaded_inv (DOF : Nat) (s s' : ArmPlugin) (i : UpdateInfo) (u : Unit)
    (log : List Event) (hi : RewardInv s) (ha : s.agent = true)
    (h : s.OnUpdateLoaded DOF i = Outcome.done u s' log) :
    RewardInv s' ∧ s'.agent = true ∧ s'.newReward = false := by
  cases hu : s.updateJoints DOF i with
  | fault log1 =>
    rw [OnUpdateLoaded_fault DOF s i log1 hu] at h
    cases h
  | done moved s1 log1 =>
    rw [OnUpdateLoaded_eq DOF s s1 i moved log1 hu] at h
    cases h
    obtain ⟨hi1, ha1⟩ := updateJoints_inv DOF s s1 i moved log1 hi ha hu
    obtain ⟨hi2, ha2⟩ := rewardStage_inv DOF (s.newState && !s.testAnimation) s1 i hi1 ha1
    refine ⟨hi2, ha2, ?_⟩
    rcases rewardStage_cases DOF (s.newState && !s.testAnimation) s1 i ha1 hi1.flags with
      ⟨h, -⟩ | ⟨h, hn, -⟩ | ⟨h, -⟩ | ⟨h, -⟩
    · rw [h]; rfl
    · rw [h]; exact hn
    · rw [h]; rfl
    · rw [h]

theorem OnUpdate_inv (DOF : Nat) (s s' : ArmPlugin) (i : UpdateInfo)
    (log : List Event) (hi : RewardInv s)
    (h : s.OnUpdate DOF i = Outcome.done () s' log) : RewardInv s' := by
  obtain ⟨a, b, hd⟩ := deferredLoading_frame s i
  rcases OnUpdate_done DOF s s' i log h with ⟨hf, hs', -⟩ | ⟨log1, ha0, hb, -⟩
  · have hsa : s.agent = false := by
      cases hsa : s.agent with
      | false => rfl
      | true =>
        exfalso
        have hl : s.deferredLoading i = (true, s, []) := by
          simp [ArmPlugin.deferredLoading, hsa]
        rw [hl] at hf
        rcases hf with hf | hf
        · cases hf
        · rw [hsa] at hf
          cases hf
    rw [hs', hd]
    exact ⟨hi.flags, hi.pending, hi.idle, fun _ => hi.mode hsa, hi.frames, hi.limit⟩
  · rw [hd] at ha0 hb
    have hi0 : RewardInv { s with agent := a, inputState := b } :=
      ⟨hi.flags, hi.pending, hi.idle,
        fun hf => absurd (ha0.symm.trans hf) (by decide), hi.frames, hi.limit⟩
    exact (OnUpdateLoaded_inv DOF _ s' i () log1 hi0 ha0 hb).1

theorem onCameraMsg_frame (s s' : ArmPlugin) (msg : ImageStamped)
    (h : s.onCameraMsg msg = some s') :
    ∃ a b c d e, s' = { s with inputBuffer := a, inputBufferSize := b, inputRawWidth := c,
                               inputRawHeight := d, newState := e } := by
  simp only [ArmPlugin.onCameraMsg] at h
  split_ifs at h <;> cases h <;> exact ⟨_, _, _, _, _, rfl⟩

theorem onCollisionMsg_cases (s : ArmPlugin) (contacts : List Contact) :
    s.onCollisionMsg contacts = s ∨
    (s.testAnimation = false ∧ s.onCollisionMsg contacts =
      { s with rewardHistory := REWARD_WIN, newReward := true, endEpisode := true }) := by
  unfold ArmPlugin.onCollisionMsg
  by_cases ht : s.testAnimation = true
  · rw [if_pos ht]
    exact Or.inl rfl
  · rw [if_neg ht, collisionLoop_eq]
    split_ifs
    · exact Or.inr ⟨by simpa using ht, rfl⟩
    · exact Or.inl rfl

theorem Reachable_inv (DOF : Nat) (s : ArmPlugin) (h : Reachable DOF s) : RewardInv s := by
  induction h with
  | init => exact RewardInv_new
  | tick s s' i log _ hstep ih => exact OnUpdate_inv DOF s s' i log ih hstep
  | camera s s' msg _ hstep ih =>
    obtain ⟨a, b, c, d, e, hs'⟩ := onCameraMsg_frame s s' msg hstep
    rw [hs']
    exact ⟨ih.flags, ih.pending, ih.idle, ih.mode, ih.frames, ih.limit⟩
  | collision s contacts _ ih =>
    rcases onCollisionMsg_cases s contacts with h1 | ⟨ht, h1⟩
    · rw [h1]
      exact ih
    · rw [h1]
      exact ⟨rfl, fun _ => ⟨rfl, ht⟩, fun h => Bool.noConfusion h, ih.mode, ih.frames,
        ih.limit⟩

/-! ### A run of the plugin with two joints -/

theorem returnToBase_home (step : ℚ) (home : Nat → ℚ) (n : Nat) (h : InRange home) :
    ArmPlugin.returnToBase step home home n = home := by
  unfold ArmPlugin.returnToBase
  have h1 : ¬ home n < JOINT_MIN := not_lt.mpr (h n).1
  have h2 : ¬ home n > JOINT_MAX := not_lt.mpr (h n).2
  simp only [lt_self_iff_false, gt_iff_lt, if_false]
  rw [if_neg h1, if_neg h2]
  exact Function.update_eq_self n home

theorem foldl_returnToBase_home (step : ℚ) (home : Nat → ℚ) (l : List Nat)
    (h : InRange home) : l.foldl (ArmPlugin.returnToBase step home) home = home := by
  induction l with
  | nil => rfl
  | cons n rest ih => rw [List.foldl_cons, returnToBase_home step home n h, ih]

theorem updateJoints_home (DOF : Nat) (s : ArmPlugin) (i : UpdateInfo)
    (ht : s.testAnimation = true) (hr : s.ref = s.resetPos) (hin : InRange s.resetPos)
    (hl : s.loopAnimation = false) :
    s.updateJoints DOF i =
      if s.animationStep + 1 > ANIMATION_STEPS then
        Outcome.done true { s with animationStep := 0, testAnimation := false } []
      else if s.animationStep + 1 = ANIMATION_STEPS / 2 then
        Outcome.done true { s with animationStep := s.animationStep + 1 }
          [Event.ResetPropDynamics]
      else Outcome.done true { s with animationStep := s.animationStep + 1 } [] := by
  unfold ArmPlugin.updateJoints
  rw [if_pos ht]
  dsimp only
  rw [hr, foldl_returnToBase_home _ _ _ hin]
  split_ifs <;> simp_all

theorem updateJoints_animating (i : UpdateInfo) (b : Bool) (k : Nat) (hk : k < 1000) :
    (animating b k).updateJoints 2 i =
      Outcome.done true (animating b (k + 1))
        (if k + 1 = 500 then [Event.ResetPropDynamics] else []) := by
  have h1 : ¬ (animating b k).animationStep + 1 > ANIMATION_STEPS := by
    change ¬ k + 1 > 1000
    omega
  rw [updateJoints_home 2 (animating b k) i rfl rfl new_inRange rfl, if_neg h1]
  change (if k + 1 = 500 then _ else _) = _
  split_ifs <;> rfl

theorem updateJoints_animating_last (i : UpdateInfo) (b : Bool) :
    (animating b 1000).updateJoints 2 i = Outcome.done true (agentDriven b) [] := by
  have h1 : (animating b 1000).animationStep + 1 > ANIMATION_STEPS := by
    change 1000 + 1 > 1000
    decide
  rw [updateJoints_home 2 (animating b 1000) i rfl rfl new_inRange rfl, if_pos h1]
  rfl

theorem OnUpdate_of_loading (DOF : Nat) (s s0 s' : ArmPlugin) (i : UpdateInfo)
    (log0 log : List Event) (h : s.deferredLoading i = (true, s0, log0))
    (ha : s0.agent = true) (hb : s0.OnUpdateLoaded DOF i = Outcome.done () s' log) :
    s.OnUpdate DOF i = Outcome.done () s' (log0 ++ log) := by
  unfold ArmPlugin.OnUpdate
  rw [h]
  simp only [ha, Bool.not_true, Bool.false_eq_true, if_false]
  rw [hb]

theorem OnUpdateLoaded_animating (i : UpdateInfo) (b : Bool) (k : Nat) (hk : k < 1000) :
    (animating b k).OnUpdateLoaded 2 i =
      Outcome.done () (animating b (k + 1))
        ((if k + 1 = 500 then [Event.ResetPropDynamics] else []) ++
          (animating b (k + 1)).setJointPositions) := by
  rw [OnUpdateLoaded_eq 2 _ _ i _ _ (updateJoints_animating i b k hk),
    rewardStage_idle 2 ((animating b k).newState && !(animating b k).testAnimation)
      (animating b (k + 1)) i rfl (by show ¬ ((20 : ℕ) > 0 ∧ (0 : ℕ) > 20); decide)
      (Or.inl rfl)]
  simp

theorem OnUpdateLoaded_animating_last (i : UpdateInfo) (b : Bool) :
    (animating b 1000).OnUpdateLoaded 2 i =
      Outcome.done () (agentDriven b) (agentDriven b).setJointPositions := by
  rw [OnUpdateLoaded_eq 2 _ _ i _ _ (updateJoints_animating_last i b),
    rewardStage_idle 2 ((animating b 1000).newState && !(animating b 1000).testAnimation)
      (agentDriven b) i rfl (by show ¬ ((20 : ℕ) > 0 ∧ (0 : ℕ) > 20); decide) (Or.inl rfl)]
  simp

theorem OnUpdate_tensorFailure :
    ArmPlugin.new.OnUpdate 2 tensorFailure =
      Outcome.done () halfLoaded [Event.Create, Event.Alloc] := by
  norm_num [ArmPlugin.OnUpdate, ArmPlugin.deferredLoading, ArmPlugin.createAgent, halfLoaded,
    ArmPlugin.new, tensorFailure, tickInput]

theorem reachable_halfLoaded : Reachable 2 halfLoaded :=
  Reachable.tick _ _ _ _ Reachable.init OnUpdate_tensorFailure

theorem reachable_animating (b : Bool) (k : Nat) (hk : k < 1000) :
    Reachable 2 (animating b (k + 1)) := by
  induction k with
  | zero =>
    cases b with
    | true =>
      have hl : ArmPlugin.new.deferredLoading (tickInput 2 0 1 1) =
          (true, animating true 0, [Event.Create, Event.Alloc]) := by
        norm_num [ArmPlugin.deferredLoading, ArmPlugin.createAgent, ArmPlugin.new, tickInput,
          animating]
      exact Reachable.tick _ _ (tickInput 2 0 1 1) _ Reachable.init
        (OnUpdate_of_loading 2 _ _ _ _ _ _ hl rfl (OnUpdateLoaded_animating _ true 0 hk))
    | false =>
      have hs := OnUpdateLoaded_animating (tickInput 2 0 1 1) false 0 hk
      rw [← OnUpdate_of_agent 2 _ _ rfl] at hs
      exact Reachable.tick _ _ _ _ reachable_halfLoaded hs
  | succ k ih =>
    have hs := OnUpdateLoaded_animating (tickInput 2 0 1 1) b (k + 1) hk
    rw [← OnUpdate_of_agent 2 _ _ rfl] at hs
    exact Reachable.tick _ _ _ _ (ih (by omega)) hs

theorem reachable_agentDriven (b : Bool) : Reachable 2 (agentDriven b) := by
  have hs := OnUpdateLoaded_animating_last (tickInput 2 0 1 1) b
  rw [← OnUpdate_of_agent 2 _ _ rfl] at hs
  exact Reachable.tick _ _ _ _ (reachable_animating b 999 (by decide)) hs

theorem reachable_starved : Reachable 2 starved :=
  Reachable.camera _ _ frame64 (reachable_agentDriven false) rfl

theorem OnUpdate_starved (i : UpdateInfo) : starved.OnUpdate 2 i = Outcome.fault [] := by
  rw [OnUpdate_of_agent 2 _ _ rfl]
  rfl

theorem onCameraMsg_agentDriven :
    (agentDriven true).onCameraMsg frame64 = some (driving 0 0 true) := by
  rfl

theorem onCameraMsg_driving (k : Nat) (r : ℚ) :
    (driving k r false).onCameraMsg frame64 = some (driving k r true) := by
  rfl

theorem updateJoints_driving (k : Nat) (r : ℚ) :
    (driving k r true).updateJoints 2 frameInput =
      Outcome.done false (driving (k + 1) r false) [Event.NextAction] := by
  rfl

theorem OnUpdate_driving_first (r : ℚ) :
    (driving 0 r true).OnUpdate 2 frameInput =
      Outcome.done () (driving 1 r false) [Event.NextAction] := by
  rw [OnUpdate_of_agent 2 _ _ rfl, OnUpdateLoaded_eq 2 _ _ _ _ _ (updateJoints_driving 0 r),
    rewardStage_idle 2 ((driving 0 r true).newState && !(driving 0 r true).testAnimation)
      (driving 1 r false) frameInput rfl
      (by show ¬ ((20 : ℕ) > 0 ∧ (1 : ℕ) > 20); decide)
      (Or.inr (Or.inr (Or.inr ⟨by norm_num [frameInput, tickInput, groundContact],
        by show ¬ (1 : ℕ) > 1; decide⟩)))]
  rfl

theorem OnUpdate_driving (k : Nat) (r : ℚ) (h1 : 1 ≤ k) (h2 : k < 20) :
    (driving k r true).OnUpdate 2 frameInput =
      Outcome.done () (driving (k + 1) (-1/2) false)
        [Event.NextAction, Event.NextReward (-1/2) false] := by
  have hv : REWARD_LOSS * |frameInput.gripperX - frameInput.goalX| = -1/2 := by
    norm_num [REWARD_LOSS, frameInput, tickInput, abs_of_pos]
  have hs := rewardStage_shaping 2 (driving (k + 1) r false) frameInput rfl rfl rfl
    (by show ¬ ((20 : ℕ) > 0 ∧ k + 1 > 20); omega) rfl rfl
    (by norm_num [frameInput, tickInput, groundContact])
    (by show k + 1 > 1; omega)
  rw [hv] at hs
  rw [OnUpdate_of_agent 2 _ _ rfl, OnUpdateLoaded_eq 2 _ _ _ _ _ (updateJoints_driving k r)]
  change Outcome.done () ((driving (k + 1) r false).rewardStage 2 true frameInput).1
    ([Event.NextAction] ++ [] ++
      ((driving (k + 1) r false).rewardStage 2 true frameInput).2) = _
  rw [hs]
  rfl

theorem reachable_driving (k : Nat) (hk : k < 20) :
    Reachable 2 (driving (k + 1) (if k = 0 then 0 else -1/2) false) := by
  induction k with
  | zero =>
    exact Reachable.tick _ _ _ _
      (Reachable.camera _ _ _ (reachable_agentDriven true) onCameraMsg_agentDriven)
      (OnUpdate_driving_first 0)
  | succ k ih =>
    have h := Reachable.tick _ _ _ _
      (Reachable.camera _ _ _ (ih (by omega)) (onCameraMsg_driving _ _))
      (OnUpdate_driving (k + 1) _ (by omega) (by omega))
    simpa using h

theorem reachable_frame_ready : Reachable 2 (driving 0 0 true) :=
  Reachable.camera _ _ _ (reachable_agentDriven true) onCameraMsg_agentDriven

theorem reachable_last_frame : Reachable 2 (driving 20 (-1/2) true) := by
  have h := Reachable.camera _ _ _ (reachable_driving 19 (by decide)) (onCameraMsg_driving _ _)
  simpa using h

/-! ### Ticks that end an episode -/

theorem updateAgent_total (DOF : Nat) (s : ArmPlugin) (i : UpdateInfo)
    (hs : s.inputState = true) (ha : s.agent = true) :
    ∃ r s' log, s.updateAgent DOF i = Outcome.done r s' log := by
  unfold ArmPlugin.updateAgent
  simp only [hs, ha, Bool.not_true, Bool.false_eq_true, if_false]
  split_ifs
  · exact ⟨_, _, _, rfl⟩
  · split
    · exact ⟨_, _, _, rfl⟩
    · split_ifs <;> exact ⟨_, _, _, rfl⟩

theorem updateJoints_total (DOF : Nat) (s : ArmPlugin) (i : UpdateInfo)
    (hs : s.inputState = true) (ha : s.agent = true) :
    ∃ r s' log, s.updateJoints DOF i = Outcome.done r s' log := by
  unfold ArmPlugin.updateJoints
  by_cases h1 : s.testAnimation = true
  · rw [if_pos h1]
    dsimp only
    split_ifs <;> exact ⟨_, _, _, rfl⟩
  · rw [if_neg h1]
    by_cases h2 : (s.newState && s.agent) = true
    · rw [if_pos h2]
      exact updateAgent_total DOF _ i hs ha
    · rw [if_neg h2]
      exact ⟨_, _, _, rfl⟩

theorem updateJoints_frame_counted (DOF : Nat) (s s' : ArmPlugin) (i : UpdateInfo) (r : Bool)
    (log : List Event) (ht : s.testAnimation = false) (hn : s.newState = true)
    (ha : s.agent = true) (h : s.updateJoints DOF i = Outcome.done r s' log) :
    s'.episodeFrames = s.episodeFrames + 1 := by
  unfold ArmPlugin.updateJoints at h
  rw [if_neg (by simp [ht]), if_pos (by simp [hn, ha])] at h
  obtain ⟨f, hf⟩ := updateAgent_frame _ _ _ _ _ _ h
  rw [hf]

theorem Reachable_agent (DOF : Nat) (s : ArmPlugin) (h : Reachable DOF s)
    (ht : s.testAnimation = false) : s.agent = true := by
  cases ha : s.agent with
  | true => rfl
  | false =>
    have := (Reachable_inv DOF s h).mode ha
    rw [ht] at this
    cases this

theorem submitted_tick_log (DOF : Nat) (s s1 : ArmPlugin) (i : UpdateInfo) (moved : Bool)
    (log1 log4 : List Event) (hu : s.updateJoints DOF i = Outcome.done moved s1 log1) :
    submitted (log1 ++ (if moved then s1.setJointPositions else []) ++ log4) =
      submitted log4 := by
  have hj := submitted_updateJoints DOF s i
  rw [hu] at hj
  simp only [Outcome.log] at hj
  have hm : submitted (if moved = true then s1.setJointPositions else []) = [] := by
    split_ifs
    · exact submitted_setJointPositions s1
    · rfl
  rw [submitted_append, submitted_append, hj, hm]
  rfl

theorem OnUpdate_terminal_tick (DOF : Nat) (s s1 sr : ArmPlugin) (i : UpdateInfo)
    (moved : Bool) (log1 : List Event) (r : ℚ) (ha : s.agent = true)
    (hu : s.updateJoints DOF i = Outcome.done moved s1 log1)
    (hs : s1.rewardStage DOF (s.newState && !s.testAnimation) i =
      (ArmPlugin.resetEpisode DOF sr, [Event.NextReward r true])) :
    ∃ log, s.OnUpdate DOF i = Outcome.done () (ArmPlugin.resetEpisode DOF sr) log ∧
      submitted log = [(r, true)] := by
  refine ⟨log1 ++ (if moved then s1.setJointPositions else []) ++ [Event.NextReward r true],
    ?_, ?_⟩
  · rw [OnUpdate_of_agent DOF s i ha, OnUpdateLoaded_eq DOF s s1 i moved log1 hu, hs]
  · rw [submitted_tick_log DOF s s1 i moved log1 _ hu]
    rfl

/-- C2 as stated fails: in a reachable state of a run with two joints, twenty
frames into an episode whose last shaping reward was -1/2, no reward is pending
and the limit is 20; the next frame makes `episodeFrames` 21 > 20, and the
reward submitted on that tick is -1/2 with terminal = true, not 0. -/
theorem timeout_reward_not_zero :
    Reachable 2 (driving 20 (-1/2) true) ∧
      (driving 20 (-1/2) true).newReward = false ∧
      (driving 20 (-1/2) true).maxEpisodeLength = 20 ∧
      (driving 20 (-1/2) true).updateJoints 2 frameInput =
        Outcome.done false (driving 21 (-1/2) false) [Event.NextAction] ∧
      (driving 21 (-1/2) false).episodeFrames > (driving 21 (-1/2) false).maxEpisodeLength ∧
      submitted ((driving 20 (-1/2) true).OnUpdate 2 frameInput).log = [(-1/2, true)] ∧
      ((-1/2 : ℚ), true) ≠ (0, true) := by
  refine ⟨reachable_last_frame, rfl, rfl, rfl, by decide, ?_, by norm_num⟩
  rw [OnUpdate_of_agent 2 _ _ rfl,
    OnUpdateLoaded_eq 2 _ _ _ _ _ (updateJoints_driving 20 (-1/2)),
    rewardStage_timeout 2 _ (driving 21 (-1/2) false) frameInput rfl (by decide)]
  rfl

/-- C2, amended: in every reachable state, for every tick at which `OnUpdate`
exceeds the episode length (`episodeFrames > maxEpisodeLength = 20` after
`updateJoints`) and no reward was pending when the tick began, the reward
submitted to the agent is the value `rewardHistory` had when the tick began,
which is at most 0, with terminal = true; `totalRuns` increases by 1 and
`successfulGrabs` is unchanged. -/
theorem timeout_reward (DOF : Nat) (s s1 : ArmPlugin) (i : UpdateInfo) (moved : Bool)
    (log1 : List Event) (hr : Reachable DOF s) (hn : s.newReward = false)
    (hu : s.updateJoints DOF i = Outcome.done moved s1 log1)
    (hx : s1.episodeFrames > s1.maxEpisodeLength) :
    s1.maxEpisodeLength = 20 ∧
    ∃ s' log, s.OnUpdate DOF i = Outcome.done () s' log ∧
      submitted log = [(s.rewardHistory, true)] ∧ s.rewardHistory ≤ 0 ∧
      s'.totalRuns = s.totalRuns + 1 ∧ s'.successfulGrabs = s.successfulGrabs := by
  have hi := Reachable_inv DOF s hr
  obtain ⟨h1, -, h3, h4, -, h6, h7, h8, -, -⟩ := updateJoints_frame DOF s s1 i moved log1 hu
  obtain ⟨m1, -⟩ := updateJoints_mode DOF s s1 i moved log1 hu
  have hlim : s1.maxEpisodeLength = 20 := by rw [h6, hi.limit]
  have ht : s.testAnimation = false := by
    cases ht : s.testAnimation with
    | false => rfl
    | true =>
      exfalso
      rw [m1 ht, hi.frames ht] at hx
      exact Nat.not_lt_zero _ hx
  have ha : s.agent = true := Reachable_agent DOF s hr ht
  have ha1 : s1.agent = true := by rw [h4, ha]
  have hto : s1.maxEpisodeLength > 0 ∧ s1.episodeFrames > s1.maxEpisodeLength :=
    ⟨by rw [hlim]; decide, hx⟩
  have hle : s.rewardHistory ≤ 0 := hi.idle hn
  have hnw : ¬ s1.rewardHistory ≥ REWARD_WIN := by
    rw [h3]
    unfold REWARD_WIN
    intro h
    linarith
  obtain ⟨log, ho, hsub⟩ := OnUpdate_terminal_tick DOF s s1 _ i moved log1 _ ha hu
    (rewardStage_timeout DOF _ s1 i ha1 hto)
  rw [h3] at hsub
  refine ⟨hlim, _, log, ho, hsub, hle, ?_, ?_⟩
  · show s1.totalRuns + 1 = s.totalRuns + 1
    rw [h7]
  · show (if s1.rewardHistory ≥ REWARD_WIN then s1.successfulGrabs + 1
      else s1.successfulGrabs) = s.successfulGrabs
    rw [if_neg hnw, h8]

/-- Witness for C2 as amended: the twenty-first frame of an episode of the run
with two joints. -/
theorem timeout_reward_witness :
    (driving 21 (-1/2) false).maxEpisodeLength = 20 ∧
    ∃ s' log, (driving 20 (-1/2) true).OnUpdate 2 frameInput = Outcome.done () s' log ∧
      submitted log = [((driving 20 (-1/2) true).rewardHistory, true)] ∧
      (driving 20 (-1/2) true).rewardHistory ≤ 0 ∧
      s'.totalRuns = (driving 20 (-1/2) true).totalRuns + 1 ∧
      s'.successfulGrabs = (driving 20 (-1/2) true).successfulGrabs :=
  timeout_reward 2 (driving 20 (-1/2) true) (driving 21 (-1/2) false) frameInput false
    [Event.NextAction] reachable_last_frame rfl rfl (by decide)

/-- Ground contact where the input tensor is allocated: in every such reachable
state, a tick in AgentDriven mode with a new frame ready, no reward pending, the
episode length not exceeded after the frame is counted, prop and gripper found
and the gripper bounding box minimum z at most `groundContact` submits exactly
the reward `REWARD_LOSS` with terminal = true, and the state after the tick is
in ScriptedReset mode with `totalRuns + 1` and `successfulGrabs` unchanged. -/
theorem ground_contact_loss (DOF : Nat) (s : ArmPlugin) (i : UpdateInfo)
    (hr : Reachable DOF s) (hs : s.inputState = true) (ht : s.testAnimation = false)
    (hf : s.newState = true) (hn : s.newReward = false)
    (hl : s.episodeFrames + 1 ≤ s.maxEpisodeLength)
    (hp : i.propFound = true) (hg : i.gripperFound = true)
    (hz : i.gripMinZ ≤ groundContact) :
    ∃ s' log, s.OnUpdate DOF i = Outcome.done () s' log ∧
      submitted log = [(REWARD_LOSS, true)] ∧ s'.testAnimation = true ∧
      s'.totalRuns = s.totalRuns + 1 ∧ s'.successfulGrabs = s.successfulGrabs := by
  have hi := Reachable_inv DOF s hr
  have ha : s.agent = true := Reachable_agent DOF s hr ht
  obtain ⟨moved, s1, log1, hu⟩ := updateJoints_total DOF s i hs ha
  obtain ⟨h1, h2, -, h4, -, h6, h7, h8, -, -⟩ := updateJoints_frame DOF s s1 i moved log1 hu
  have hfr := updateJoints_frame_counted DOF s s1 i moved log1 ht hf ha hu
  have hto : ¬ (s1.maxEpisodeLength > 0 ∧ s1.episodeFrames > s1.maxEpisodeLength) := by
    rw [h6, hfr]
    intro h
    omega
  have hh : (s.newState && !s.testAnimation) = true := by simp [hf, ht]
  have hst := rewardStage_ground DOF s1 i (by rw [h4, ha]) (by rw [h1, hn])
    (by rw [h2, hi.flags, hn]) hto hp hg hz
  obtain ⟨log, ho, hsub⟩ := OnUpdate_terminal_tick DOF s s1 _ i moved log1 _ ha hu
    (by rw [hh]; exact hst)
  refine ⟨_, log, ho, hsub, rfl, ?_, ?_⟩
  · show s1.totalRuns + 1 = s.totalRuns + 1
    rw [h7]
  · show (if REWARD_LOSS ≥ REWARD_WIN then s1.successfulGrabs + 1
      else s1.successfulGrabs) = s.successfulGrabs
    rw [if_neg (by norm_num [REWARD_LOSS, REWARD_WIN]), h8]

/-- An instance of `ground_contact_loss`: the first frame of the run with two
joints, with the gripper at height 0.03. -/
theorem ground_contact_loss_example :
    ∃ s' log, (driving 0 0 true).OnUpdate 2 groundInput = Outcome.done () s' log ∧
      submitted log = [(REWARD_LOSS, true)] ∧ s'.testAnimation = true ∧
      s'.totalRuns = (driving 0 0 true).totalRuns + 1 ∧
      s'.successfulGrabs = (driving 0 0 true).successfulGrabs :=
  ground_contact_loss 2 (driving 0 0 true) groundInput reachable_frame_ready rfl rfl rfl rfl
    (by decide) rfl rfl (by norm_num [groundInput, tickInput, groundContact])

/-- C7, evaluation at the failing input: in the reachable state in which the
agent exists without its input tensor, in AgentDriven mode with a frame ready,
no reward pending and the episode length not exceeded after the frame is
counted, the tick with prop and gripper found and the gripper bounding box
minimum z = 0.03 dereferences the missing tensor: it submits no reward and does
not complete. -/
theorem ground_contact_without_tensor :
    Reachable 2 starved ∧ starved.testAnimation = false ∧ starved.newState = true ∧
      starved.newReward = false ∧ starved.episodeFrames + 1 ≤ starved.maxEpisodeLength ∧
      groundInput.propFound = true ∧ groundInput.gripperFound = true ∧
      groundInput.gripMinZ = 0.03 ∧ groundInput.gripMinZ ≤ 0.05 ∧
      starved.OnUpdate 2 groundInput = Outcome.fault [] ∧
      submitted (starved.OnUpdate 2 groundInput).log = [] :=
  ⟨reachable_starved, rfl, rfl, rfl, by decide, rfl, rfl, rfl,
    by norm_num [groundInput, tickInput], OnUpdate_starved groundInput,
    by rw [OnUpdate_starved groundInput]; rfl⟩

/-- The pending win where the input tensor is allocated: in every such reachable
state, if `onCollisionMsg` has raised goal-reached (`rewardHistory = REWARD_WIN`,
`newReward`, `endEpisode`) since the previous tick, then the next tick submits
exactly the reward `REWARD_WIN` with terminal = true and increments
`successfulGrabs`, for every value of the frame-ready flag, of the frame count
and of the geometry readings: no timeout, loss or shaping value replaces the
win. -/
theorem pending_win_submitted (DOF : Nat) (s : ArmPlugin) (i : UpdateInfo)
    (hr : Reachable DOF s) (hs : s.inputState = true)
    (hw : s.rewardHistory = REWARD_WIN) (hn : s.newReward = true)
    (he : s.endEpisode = true) :
    ∃ s' log, s.OnUpdate DOF i = Outcome.done () s' log ∧
      submitted log = [(REWARD_WIN, true)] ∧
      s'.successfulGrabs = s.successfulGrabs + 1 ∧ s'.totalRuns = s.totalRuns + 1 := by
  have hi := Reachable_inv DOF s hr
  have ha : s.agent = true := Reachable_agent DOF s hr (hi.pending hn).2
  obtain ⟨moved, s1, log1, hu⟩ := updateJoints_total DOF s i hs ha
  obtain ⟨h1, h2, h3, h4, -, -, h7, h8, -, -⟩ := updateJoints_frame DOF s s1 i moved log1 hu
  have hst := rewardStage_pending DOF (s.newState && !s.testAnimation) s1 i (by rw [h4, ha])
    (by rw [h1, hn]) (by rw [h2, he])
  obtain ⟨log, ho, hsub⟩ := OnUpdate_terminal_tick DOF s s1 _ i moved log1 _ ha hu hst
  rw [h3, hw] at hsub
  refine ⟨_, log, ho, hsub, ?_, ?_⟩
  · show (if s1.rewardHistory ≥ REWARD_WIN then s1.successfulGrabs + 1
      else s1.successfulGrabs) = s.successfulGrabs + 1
    rw [if_pos (by rw [h3, hw]), h8]
  · show s1.totalRuns + 1 = s.totalRuns + 1
    rw [h7]

/-- An instance of `pending_win_submitted`: a goal contact arrives while a frame
is ready, twenty frames into an episode, and the next tick counts the
twenty-first frame with the gripper on the ground. -/
theorem pending_win_submitted_example :
    ∃ s' log, ((driving 20 (-1/2) true).onCollisionMsg [goalContact]).OnUpdate 2 groundInput =
        Outcome.done () s' log ∧
      submitted log = [(REWARD_WIN, true)] ∧
      s'.successfulGrabs =
        ((driving 20 (-1/2) true).onCollisionMsg [goalContact]).successfulGrabs + 1 ∧
      s'.totalRuns = ((driving 20 (-1/2) true).onCollisionMsg [goalContact]).totalRuns + 1 :=
  pending_win_submitted 2 ((driving 20 (-1/2) true).onCollisionMsg [goalContact]) groundInput
    (Reachable.collision _ _ reachable_last_frame) (by decide) (by decide) (by decide)
    (by decide)

theorem OnUpdate_starved_win (i : UpdateInfo) :
    (starved.onCollisionMsg [goalContact]).OnUpdate 2 i = Outcome.fault [] := by
  rw [OnUpdate_of_agent 2 _ _ (by decide)]
  rfl

/-- C9, evaluation at the failing input: in the reachable state in which the
agent exists without its input tensor and a frame is ready, a goal contact makes
`onCollisionMsg` raise goal-reached (`rewardHistory = REWARD_WIN`, `newReward`,
`endEpisode`); the next tick, whatever its input, dereferences the missing
tensor: it does not submit the win and does not complete. -/
theorem pending_win_without_tensor :
    Reachable 2 (starved.onCollisionMsg [goalContact]) ∧
      (starved.onCollisionMsg [goalContact]).rewardHistory = REWARD_WIN ∧
      (starved.onCollisionMsg [goalContact]).newReward = true ∧
      (starved.onCollisionMsg [goalContact]).endEpisode = true ∧
      (starved.onCollisionMsg [goalContact]).newState = true ∧
      (∀ i : UpdateInfo,
        (starved.onCollisionMsg [goalContact]).OnUpdate 2 i = Outcome.fault [] ∧
        submitted ((starved.onCollisionMsg [goalContact]).OnUpdate 2 i).log = []) :=
  ⟨Reachable.collision _ _ reachable_starved, by decide, by decide, by decide, by decide,
    fun i => ⟨OnUpdate_starved_win i, by rw [OnUpdate_starved_win i]; rfl⟩⟩

/-! ### Failure of the agent's construction -/

theorem halfLoaded_actuates (i : UpdateInfo) :
    (halfLoaded.OnUpdate 2 i).log =
      [Event.SetJointPosition "base" 0, Event.SetJointPosition "joint1" 0,
       Event.SetJointPosition "joint2" (1/4)] := by
  norm_num [ArmPlugin.OnUpdate, ArmPlugin.deferredLoading, halfLoaded, ArmPlugin.new,
    ArmPlugin.OnUpdateLoaded, ArmPlugin.updateJoints, ArmPlugin.episodeTimeout,
    ArmPlugin.interimReward, ArmPlugin.issueRewards, ArmPlugin.setJointPositions,
    ArmPlugin.returnToBase, JOINT_MIN, JOINT_MAX, ANIMATION_STEPS, Outcome.log,
    List.range_succ, Function.update]

/-- C10, evaluation at the failing input: on the first tick after the warm-up
time `dqnAgent::Create` succeeds and `Tensor::Alloc` fails, so `createAgent`
fails and the tick does nothing more, but the agent stays set without its
tensor; the next tick, whatever its input, makes no construction attempt and
writes the three joint targets; and once the scripted reset has completed and a
frame has arrived, a state that is reachable, the tick dereferences the missing
tensor. -/
theorem tensor_failure_then_actuation :
    ArmPlugin.new.OnUpdate 2 tensorFailure =
        Outcome.done () halfLoaded [Event.Create, Event.Alloc] ∧
      halfLoaded.agent = true ∧ halfLoaded.inputState = false ∧
      (∀ i : UpdateInfo, (halfLoaded.OnUpdate 2 i).log =
        [Event.SetJointPosition "base" 0, Event.SetJointPosition "joint1" 0,
         Event.SetJointPosition "joint2" (1/4)]) ∧
      Reachable 2 starved ∧
      (∀ i : UpdateInfo, starved.OnUpdate 2 i = Outcome.fault []) :=
  ⟨OnUpdate_tensorFailure, rfl, rfl, halfLoaded_actuates, reachable_starved, OnUpdate_starved⟩

/-! ### The camera callback -/

theorem onCameraMsg_defined (s : ArmPlugin) (msg : ImageStamped) (hw : 0 < msg.width) :
    ∃ s', s.onCameraMsg msg = some s' := by
  have hw' : ¬ msg.width = 0 := by omega
  simp only [ArmPlugin.onCameraMsg, hw', if_false]
  split_ifs <;> exact ⟨_, rfl⟩

theorem onCameraMsg_newState (s s' : ArmPlugin) (msg : ImageStamped)
    (h : s.onCameraMsg msg = some s') (hn : s'.newState ≠ s.newState) :
    s.agent = true ∧ msg.present = true ∧ msg.bpp = 24 ∧
      s'.inputBuffer = true ∧ s'.inputBufferSize = msg.size ∧ s'.newState = true := by
  simp only [ArmPlugin.onCameraMsg] at h
  split_ifs at h with h1 h2 h3 h4 h5 h6
  · cases h; exact absurd rfl hn
  · cases h; exact absurd rfl hn
  · cases h; exact absurd rfl hn
  · cases h; exact absurd rfl hn
  · cases h
    refine ⟨by simpa using h1, by simpa using h2, ?_, rfl, rfl, rfl⟩
    simpa [ImageStamped.bpp] using h4
  · cases h
    have h5' : s.inputBuffer = true ∧ msg.size = s.inputBufferSize := by simpa using h5
    refine ⟨by simpa using h1, by simpa using h2, ?_, h5'.1, h5'.2.symm, rfl⟩
    simpa [ImageStamped.bpp] using h4

theorem onCameraMsg_rejects (s s' : ArmPlugin) (msg : ImageStamped)
    (h : s.onCameraMsg msg = some s') (hb : msg.bpp ≠ 24) : s' = s := by
  simp only [ArmPlugin.onCameraMsg] at h
  split_ifs at h with h1 h2 h3 h4 h5 h6
  · cases h; rfl
  · cases h; rfl
  · cases h; rfl
  · exact absurd (by simpa [ImageStamped.bpp] using h4) hb
  · exact absurd (by simpa [ImageStamped.bpp] using h4) hb
  · exact absurd (by simpa [ImageStamped.bpp] using h4) hb

theorem bpp_exact (msg : ImageStamped) (h : msg.step / msg.width < 2 ^ 29) :
    msg.bpp = (msg.step / msg.width) * 8 := by
  unfold ImageStamped.bpp
  apply Nat.mod_eq_of_lt
  have : (2 : ℕ) ^ 32 = 2 ^ 29 * 8 := by norm_num
  omega

/-- C11: for every camera message with width > 0, `onCameraMsg` returns, and it
changes `newState` (to true) only if the agent exists, the computed pixel depth
`(step / width) * 8` equals 24 and the staging buffer is available with the size
of the message; for every message whose computed pixel depth is not 24 the whole
plugin state is left unchanged.  The computed pixel depth is the `uint32` value,
which is `(step / width) * 8` itself as long as that is below `2 ^ 32`. -/
theorem onCameraMsg_accepts_only_24bpp (s : ArmPlugin) (msg : ImageStamped)
    (hw : 0 < msg.width) :
    ∃ s', s.onCameraMsg msg = some s' ∧
      (s'.newState ≠ s.newState →
        s.agent = true ∧ msg.bpp = 24 ∧ s'.inputBuffer = true ∧
          s'.inputBufferSize = msg.size ∧ s'.newState = true) ∧
      (msg.bpp ≠ 24 → s' = s) ∧
      (msg.step / msg.width < 2 ^ 29 → msg.bpp = (msg.step / msg.width) * 8) := by
  obtain ⟨s', h⟩ := onCameraMsg_defined s msg hw
  refine ⟨s', h, ?_, onCameraMsg_rejects s s' msg h, bpp_exact msg⟩
  intro hn
  obtain ⟨h1, -, h3, h4, h5, h6⟩ := onCameraMsg_newState s s' msg h hn
  exact ⟨h1, h3, h4, h5, h6⟩

/-- Witness for C11: a 64x64 frame of 24 bits per pixel received in AgentDriven
mode. -/
theorem onCameraMsg_accepts_only_24bpp_witness :
    ∃ s', (agentDriven true).onCameraMsg frame64 = some s' ∧
      (s'.newState ≠ (agentDriven true).newState →
        (agentDriven true).agent = true ∧ frame64.bpp = 24 ∧ s'.inputBuffer = true ∧
          s'.inputBufferSize = frame64.size ∧ s'.newState = true) ∧
      (frame64.bpp ≠ 24 → s' = agentDriven true) ∧
      (frame64.step / frame64.width < 2 ^ 29 →
        frame64.bpp = (frame64.step / frame64.width) * 8) :=
  onCameraMsg_accepts_only_24bpp (agentDriven true) frame64 (by decide)

/-- C20, evaluation at the failing input: in a reachable state in which the
agent exists, a camera message whose image has width 0 makes `onCameraMsg`
divide by zero. -/
theorem onCameraMsg_zero_width :
    Reachable 2 (agentDriven true) ∧ (agentDriven true).agent = true ∧
      zeroWidth.present = true ∧ zeroWidth.width = 0 ∧
      (agentDriven true).onCameraMsg zeroWidth = none :=
  ⟨reachable_agentDriven true, rfl, rfl, rfl, rfl⟩

/-! ### The scripted trajectory -/

theorem roundNE_eq (r : ℚ) (z : ℤ) (h1 : (z : ℚ) - 1 / 2 < r) (h2 : r < z + 1 / 2) :
    roundNE r = z := by
  have hf1 : ((⌊r⌋ : ℤ) : ℚ) ≤ r := Int.floor_le r
  have hf2 : r < ((⌊r⌋ : ℤ) : ℚ) + 1 := Int.lt_floor_add_one r
  unfold roundNE
  dsimp only
  split_ifs with c1 c2 c3
  · have a1 : (z : ℚ) < (⌊r⌋ : ℤ) + 1 := by linarith
    have a2 : ((⌊r⌋ : ℤ) : ℚ) < z + 1 := by linarith
    have b1 : z < ⌊r⌋ + 1 := by exact_mod_cast a1
    have b2 : ⌊r⌋ < z + 1 := by exact_mod_cast a2
    omega
  · have a1 : (z : ℚ) < (⌊r⌋ : ℤ) + 1 + 1 := by linarith
    have a2 : ((⌊r⌋ : ℤ) : ℚ) < z := by linarith
    have b1 : z < ⌊r⌋ + 1 + 1 := by exact_mod_cast a1
    have b2 : ⌊r⌋ < z := by exact_mod_cast a2
    omega
  · have e : r - (⌊r⌋ : ℤ) = 1 / 2 := le_antisymm (not_lt.1 c2) (not_lt.1 c1)
    have a1 : (z : ℚ) < (⌊r⌋ : ℤ) + 1 := by linarith
    have a2 : ((⌊r⌋ : ℤ) : ℚ) < z := by linarith
    have b1 : z < ⌊r⌋ + 1 := by exact_mod_cast a1
    have b2 : ⌊r⌋ < z := by exact_mod_cast a2
    omega
  · have e : r - (⌊r⌋ : ℤ) = 1 / 2 := le_antisymm (not_lt.1 c2) (not_lt.1 c1)
    have a1 : (z : ℚ) < (⌊r⌋ : ℤ) + 1 := by linarith
    have a2 : ((⌊r⌋ : ℤ) : ℚ) < z := by linarith
    have b1 : z < ⌊r⌋ + 1 := by exact_mod_cast a1
    have b2 : ⌊r⌋ < z := by exact_mod_cast a2
    omega

theorem roundNE_error (r : ℚ) : |(roundNE r : ℚ) - r| ≤ 1 / 2 := by
  have hf1 : ((⌊r⌋ : ℤ) : ℚ) ≤ r := Int.floor_le r
  have hf2 : r < ((⌊r⌋ : ℤ) : ℚ) + 1 := Int.lt_floor_add_one r
  unfold roundNE
  dsimp only
  rw [abs_le]
  split_ifs with c1 c2 c3
  · constructor <;> linarith
  · push_cast
    constructor <;> linarith
  · have e : r - (⌊r⌋ : ℤ) = 1 / 2 := le_antisymm (not_lt.1 c2) (not_lt.1 c1)
    constructor <;> linarith
  · have e : r - (⌊r⌋ : ℤ) = 1 / 2 := le_antisymm (not_lt.1 c2) (not_lt.1 c1)
    push_cast
    constructor <;> linarith

theorem quantum_pos (fuel : Nat) (a q : ℚ) (hq : 0 < q) : 0 < quantum fuel a q := by
  induction fuel generalizing q with
  | zero => exact hq
  | succ n ih =>
    unfold quantum
    split_ifs
    · exact hq
    · exact ih (2 * q) (by linarith)

theorem quantum_le (fuel k : Nat) (a q : ℚ) (hq : 0 < q) (hk : k ≤ fuel)
    (ha : a < 2 ^ 24 * (q * 2 ^ k)) : quantum fuel a q ≤ q * 2 ^ k := by
  induction fuel generalizing q k with
  | zero =>
    have h1 : (1 : ℚ) ≤ 2 ^ k := one_le_pow₀ (by norm_num)
    show q ≤ q * 2 ^ k
    nlinarith
  | succ n ih =>
    have h1 : (1 : ℚ) ≤ 2 ^ k := one_le_pow₀ (by norm_num)
    unfold quantum
    split_ifs with c
    · nlinarith
    · cases k with
      | zero =>
        rw [pow_zero, mul_one] at ha
        exact absurd ha c
      | succ j =>
        have e : q * 2 ^ (j + 1) = 2 * q * 2 ^ j := by ring
        rw [e] at ha ⊢
        exact ih j (2 * q) (by linarith) (by omega) ha

theorem quantum_eq (fuel k : Nat) (a q : ℚ) (hq : 0 < q) (hk : k ≤ fuel)
    (hlo : 2 ^ 23 * (q * 2 ^ k) ≤ a) (ha : a < 2 ^ 24 * (q * 2 ^ k)) :
    quantum fuel a q = q * 2 ^ k := by
  induction fuel generalizing q k with
  | zero =>
    have : k = 0 := by omega
    subst this
    show q = q * 2 ^ 0
    ring
  | succ n ih =>
    unfold quantum
    split_ifs with c
    · cases k with
      | zero => ring
      | succ j =>
        exfalso
        have h1 : (1 : ℚ) ≤ 2 ^ j := one_le_pow₀ (by norm_num)
        have e : q * 2 ^ (j + 1) = 2 * q * 2 ^ j := by ring
        rw [e] at hlo
        nlinarith
    · cases k with
      | zero =>
        rw [pow_zero, mul_one] at ha
        exact absurd ha c
      | succ j =>
        have e : q * 2 ^ (j + 1) = 2 * q * 2 ^ j := by ring
        rw [e] at hlo ha ⊢
        exact ih j (2 * q) (by linarith) (by omega) hlo ha

/-- Evaluation of `roundF32` at a value whose binade and nearest integer multiple
of the spacing are given. -/
theorem roundF32_eq (x : ℚ) (k : Nat) (z : ℤ) (hk : k ≤ 253)
    (hlo : 2 ^ 23 * (1 / 2 ^ 149 * 2 ^ k) ≤ |x|) (hhi : |x| < 2 ^ 24 * (1 / 2 ^ 149 * 2 ^ k))
    (h1 : ((z : ℚ) - 1 / 2) * (1 / 2 ^ 149 * 2 ^ k) < x)
    (h2 : x < ((z : ℚ) + 1 / 2) * (1 / 2 ^ 149 * 2 ^ k)) :
    roundF32 x = z * (1 / 2 ^ 149 * 2 ^ k) := by
  have hq : (0 : ℚ) < 1 / 2 ^ 149 * 2 ^ k := by positivity
  unfold roundF32
  dsimp only
  rw [quantum_eq 253 k |x| (1 / 2 ^ 149) (by norm_num) hk hlo hhi]
  rw [roundNE_eq (x / (1 / 2 ^ 149 * 2 ^ k)) z]
  · rw [lt_div_iff₀ hq]
    exact h1
  · rw [div_lt_iff₀ hq]
    exact h2

theorem roundF32_error (x : ℚ) (hx : |x| < 4) : |roundF32 x - x| ≤ 1 / 2 ^ 23 := by
  have hq0 : (0 : ℚ) < 1 / 2 ^ 149 := by norm_num
  have hq := quantum_pos 253 |x| (1 / 2 ^ 149) hq0
  have hle := quantum_le 253 127 |x| (1 / 2 ^ 149) hq0 (by norm_num)
    (by norm_num; linarith)
  have he := roundNE_error (x / quantum 253 |x| (1 / 2 ^ 149))
  unfold roundF32
  dsimp only
  have e : (roundNE (x / quantum 253 |x| (1 / 2 ^ 149)) : ℚ) * quantum 253 |x| (1 / 2 ^ 149) - x
      = ((roundNE (x / quantum 253 |x| (1 / 2 ^ 149)) : ℚ) - x / quantum 253 |x| (1 / 2 ^ 149))
        * quantum 253 |x| (1 / 2 ^ 149) := by
    field_simp
  rw [e, abs_mul, abs_of_pos hq]
  have h22 : (1 : ℚ) / 2 ^ 149 * 2 ^ 127 = 1 / 2 ^ 22 := by norm_num
  rw [h22] at hle
  calc _ ≤ 1 / 2 * quantum 253 |x| (1 / 2 ^ 149) :=
        mul_le_mul_of_nonneg_right he (le_of_lt hq)
    _ ≤ 1 / 2 * (1 / 2 ^ 22) := by linarith
    _ = 1 / 2 ^ 23 := by norm_num

theorem roundF32_reciprocal : roundF32 (1 / (ANIMATION_STEPS : ℚ)) = 8589935 / 2 ^ 33 := by
  have h := roundF32_eq (1 / (ANIMATION_STEPS : ℚ)) 116 8589935 (by norm_num)
    (by norm_num [ANIMATION_STEPS, abs_of_pos]) (by norm_num [ANIMATION_STEPS, abs_of_pos])
    (by norm_num [ANIMATION_STEPS]) (by norm_num [ANIMATION_STEPS])
  rw [h]
  norm_num

theorem roundF32_range : roundF32 (JOINT_MAX - JOINT_MIN) = 11 / 4 := by
  have h := roundF32_eq (JOINT_MAX - JOINT_MIN) 127 11534336 (by norm_num)
    (by norm_num [JOINT_MAX, JOINT_MIN, abs_of_pos])
    (by norm_num [JOINT_MAX, JOINT_MIN, abs_of_pos])
    (by norm_num [JOINT_MAX, JOINT_MIN]) (by norm_num [JOINT_MAX, JOINT_MIN])
  rw [h]
  norm_num

theorem stepSize_eq : stepSize = 11811161 / 2 ^ 32 := by
  unfold stepSize
  rw [roundF32_range, roundF32_reciprocal]
  have h := roundF32_eq (11 / 4 * (8589935 / 2 ^ 33)) 117 11811161 (by norm_num)
    (by norm_num [abs_of_pos]) (by norm_num [abs_of_pos])
    (by norm_num) (by norm_num)
  rw [h]
  norm_num


theorem stepSize_pos : 0 < stepSize := by
  rw [stepSize_eq]
  norm_num

theorem groundContact_eq : roundF32 (5 / 100) = groundContact := by
  have h := roundF32_eq (5 / 100) 121 13421773 (by norm_num)
    (by norm_num [abs_of_pos]) (by norm_num [abs_of_pos]) (by norm_num) (by norm_num)
  rw [h]
  norm_num [groundContact]

theorem returnToBase_eq (step : ℚ) (home ref : Nat → ℚ) (n : Nat) :
    ArmPlugin.returnToBase step home ref n =
      Function.update ref n (ArmPlugin.approach step (home n) (ref n)) := rfl

theorem foldl_returnToBase_apply (step : ℚ) (home : Nat → ℚ) (l : List Nat) (hl : l.Nodup)
    (ref : Nat → ℚ) (n : Nat) :
    (l.foldl (ArmPlugin.returnToBase step home) ref) n =
      if n ∈ l then ArmPlugin.approach step (home n) (ref n) else ref n := by
  induction l generalizing ref with
  | nil => simp
  | cons m rest ih =>
    rw [List.foldl_cons, ih (List.nodup_cons.mp hl).2, returnToBase_eq]
    have hm : m ∉ rest := (List.nodup_cons.mp hl).1
    by_cases hnm : n = m
    · subst hnm
      simp [hm]
    · simp [hnm, Function.update_noteq hnm]

theorem limit_mem (a : ℚ) :
    JOINT_MIN ≤ (if a < JOINT_MIN then JOINT_MIN else if a > JOINT_MAX then JOINT_MAX else a) ∧
    (if a < JOINT_MIN then JOINT_MIN else if a > JOINT_MAX then JOINT_MAX else a) ≤ JOINT_MAX := by
  have h : JOINT_MIN ≤ JOINT_MAX := by norm_num [JOINT_MIN, JOINT_MAX]
  split_ifs with c1 c2
  · exact ⟨le_refl _, h⟩
  · exact ⟨h, le_refl _⟩
  · exact ⟨not_lt.1 c1, not_lt.1 c2⟩

theorem limit_dist (a x : ℚ) (hx : JOINT_MIN ≤ x ∧ x ≤ JOINT_MAX) :
    |(if a < JOINT_MIN then JOINT_MIN else if a > JOINT_MAX then JOINT_MAX else a) - x| ≤
      |a - x| := by
  have h0 := abs_nonneg (a - x)
  have h1 := neg_abs_le (a - x)
  have h2 := le_abs_self (a - x)
  split_ifs with c1 c2
  · rw [abs_le]
    constructor <;> linarith [hx.1]
  · rw [abs_le]
    constructor <;> linarith [hx.2]
  · exact le_refl _

theorem approach_mem (step home r : ℚ) :
    JOINT_MIN ≤ ArmPlugin.approach step home r ∧ ArmPlugin.approach step home r ≤ JOINT_MAX :=
  limit_mem _

theorem approach_closer (step home r : ℚ) (hs : 0 < step)
    (hh : JOINT_MIN ≤ home ∧ home ≤ JOINT_MAX) (hr : JOINT_MIN ≤ r ∧ r ≤ JOINT_MAX)
    (hd : step ≤ |r - home|) :
    |(|ArmPlugin.approach step home r - home|) - (|r - home| - step)| ≤ roundingError := by
  have hlo : JOINT_MIN = -3 / 4 := rfl
  have hhi : JOINT_MAX = 2 := rfl
  unfold ArmPlugin.approach
  dsimp only
  by_cases c1 : r < home
  · rw [if_pos c1]
    have hd1 : |r - home| = home - r := by rw [abs_sub_comm]; exact abs_of_pos (by linarith)
    rw [hd1] at hd ⊢
    have hx : JOINT_MIN ≤ r + step ∧ r + step ≤ JOINT_MAX := ⟨by linarith [hr.1], by linarith [hh.2]⟩
    have hx4 : |r + step| < 4 := by
      rw [abs_lt]
      constructor <;> linarith [hx.1, hx.2]
    have he := roundF32_error (r + step) hx4
    have hl := limit_dist (roundF32 (r + step)) (r + step) hx
    have ht := abs_abs_sub_abs_le_abs_sub
      ((if roundF32 (r + step) < JOINT_MIN then JOINT_MIN
        else if roundF32 (r + step) > JOINT_MAX then JOINT_MAX else roundF32 (r + step)) - home)
      (r + step - home)
    have e1 : |r + step - home| = home - r - step := by
      rw [abs_sub_comm]
      rw [abs_of_nonneg (by linarith)]
      ring
    rw [e1] at ht
    have e2 : ∀ c : ℚ, c - home - (r + step - home) = c - (r + step) := fun c => by ring
    rw [e2] at ht
    unfold roundingError
    linarith
  · rw [if_neg c1]
    have c2 : r > home := by
      rcases lt_trichotomy r home with h | h | h
      · exact absurd h c1
      · rw [h, sub_self, abs_zero] at hd
        linarith
      · exact h
    rw [if_pos c2]
    have hd1 : |r - home| = r - home := abs_of_pos (by linarith)
    rw [hd1] at hd ⊢
    have hx : JOINT_MIN ≤ r - step ∧ r - step ≤ JOINT_MAX := ⟨by linarith [hh.1], by linarith [hr.2]⟩
    have hx4 : |r - step| < 4 := by
      rw [abs_lt]
      constructor <;> linarith [hx.1, hx.2]
    have he := roundF32_error (r - step) hx4
    have hl := limit_dist (roundF32 (r - step)) (r - step) hx
    have ht := abs_abs_sub_abs_le_abs_sub
      ((if roundF32 (r - step) < JOINT_MIN then JOINT_MIN
        else if roundF32 (r - step) > JOINT_MAX then JOINT_MAX else roundF32 (r - step)) - home)
      (r - step - home)
    have e1 : |r - step - home| = r - home - step := by
      rw [abs_of_nonneg (by linarith)]
      ring
    rw [e1] at ht
    have e2 : ∀ c : ℚ, c - home - (r - step - home) = c - (r - step) := fun c => by ring
    rw [e2] at ht
    unfold roundingError
    linarith

theorem approach_crossing (step home r : ℚ) (hs : 0 < step) (hs1 : step ≤ 1)
    (hh : JOINT_MIN ≤ home ∧ home ≤ JOINT_MAX) (hr : JOINT_MIN ≤ r ∧ r ≤ JOINT_MAX)
    (hd : |r - home| ≤ step) :
    |ArmPlugin.approach step home r - home| ≤ step + roundingError := by
  have hlo : JOINT_MIN = -3 / 4 := rfl
  have hhi : JOINT_MAX = 2 := rfl
  have hre : (0 : ℚ) ≤ roundingError := by norm_num [roundingError]
  unfold ArmPlugin.approach
  dsimp only
  have key : ∀ x : ℚ, |x| < 4 → |x - home| ≤ step →
      |(if roundF32 x < JOINT_MIN then JOINT_MIN
        else if roundF32 x > JOINT_MAX then JOINT_MAX else roundF32 x) - home| ≤
        step + roundingError := by
    intro x hx4 hxd
    have he := roundF32_error x hx4
    have hl := limit_dist (roundF32 x) home hh
    have ht := abs_sub_le (roundF32 x) x home
    unfold roundingError
    linarith
  obtain ⟨d1, d2⟩ := abs_le.1 hd
  by_cases c1 : r < home
  · rw [if_pos c1]
    apply key
    · rw [abs_lt]
      constructor <;> linarith [hr.1, hr.2]
    · rw [abs_le]
      constructor <;> linarith
  · rw [if_neg c1]
    by_cases c2 : r > home
    · rw [if_pos c2]
      apply key
      · rw [abs_lt]
        constructor <;> linarith [hr.1, hr.2]
      · rw [abs_le]
        constructor <;> linarith
    · rw [if_neg c2]
      have e : r = home := le_antisymm (not_lt.1 c2) (not_lt.1 c1)
      rw [if_neg (not_lt.2 hr.1), if_neg (not_lt.2 hr.2), e, sub_self, abs_zero]
      linarith

theorem approach_near (step home r : ℚ) (hs : roundingError ≤ step) (hs1 : step ≤ 1)
    (hh : JOINT_MIN ≤ home ∧ home ≤ JOINT_MAX) (hr : JOINT_MIN ≤ r ∧ r ≤ JOINT_MAX)
    (hd : |r - home| ≤ step + roundingError) :
    |ArmPlugin.approach step home r - home| ≤ step + roundingError := by
  have hre : (0 : ℚ) < roundingError := by norm_num [roundingError]
  by_cases c : |r - home| ≤ step
  · exact approach_crossing step home r (by linarith) hs1 hh hr c
  · have hc := approach_closer step home r (by linarith) hh hr (le_of_lt (not_le.1 c))
    obtain ⟨-, h2⟩ := abs_le.1 hc
    linarith

theorem approach_bound (step home r : ℚ) (hs : roundingError ≤ step) (hs1 : step ≤ 1)
    (hh : JOINT_MIN ≤ home ∧ home ≤ JOINT_MAX) (hr : JOINT_MIN ≤ r ∧ r ≤ JOINT_MAX) :
    |ArmPlugin.approach step home r - home| ≤
      max (step + roundingError) (|r - home| - (step - roundingError)) := by
  have hre : (0 : ℚ) < roundingError := by norm_num [roundingError]
  by_cases c : |r - home| ≤ step + roundingError
  · exact le_trans (approach_near step home r hs hs1 hh hr c) (le_max_left _ _)
  · have hc := approach_closer step home r (by linarith) hh hr (by linarith [not_le.1 c])
    obtain ⟨-, h2⟩ := abs_le.1 hc
    refine le_trans ?_ (le_max_right _ _)
    linarith

theorem iterate_approach_mem (step home r : ℚ) (k : Nat)
    (hr : JOINT_MIN ≤ r ∧ r ≤ JOINT_MAX) :
    JOINT_MIN ≤ Nat.iterate (ArmPlugin.approach step home) k r ∧
      Nat.iterate (ArmPlugin.approach step home) k r ≤ JOINT_MAX := by
  induction k generalizing r with
  | zero => exact hr
  | succ j ih =>
    rw [Function.iterate_succ_apply]
    exact ih _ (approach_mem step home r)

theorem iterate_approach_bound (step home r : ℚ) (k : Nat) (hs : roundingError ≤ step)
    (hs1 : step ≤ 1)
    (hh : JOINT_MIN ≤ home ∧ home ≤ JOINT_MAX) (hr : JOINT_MIN ≤ r ∧ r ≤ JOINT_MAX) :
    |Nat.iterate (ArmPlugin.approach step home) k r - home| ≤
      max (step + roundingError) (|r - home| - (k : ℚ) * (step - roundingError)) := by
  induction k with
  | zero => simp
  | succ j ih =>
    rw [Function.iterate_succ_apply']
    have hm := iterate_approach_mem step home r j hr
    refine le_trans (approach_bound step home _ hs hs1 hh hm) ?_
    apply max_le (le_max_left _ _)
    rcases le_max_iff.1 ih with h | h
    · refine le_trans ?_ (le_max_left _ _)
      linarith
    · refine le_trans ?_ (le_max_right _ _)
      push_cast
      linarith

theorem updateJoints_scripted (DOF : Nat) (s : ArmPlugin) (i : UpdateInfo)
    (ht : s.testAnimation = true) :
    ∃ log, s.updateJoints DOF i = Outcome.done true
      { s with
        ref := (List.range DOF).foldl (ArmPlugin.returnToBase stepSize s.resetPos) s.ref,
        animationStep :=
          if s.animationStep + 1 > ANIMATION_STEPS then 0 else s.animationStep + 1,
        testAnimation :=
          if s.animationStep + 1 > ANIMATION_STEPS then s.loopAnimation else true } log := by
  unfold ArmPlugin.updateJoints
  rw [if_pos ht]
  dsimp only
  by_cases hc : s.animationStep + 1 > ANIMATION_STEPS
  · rw [if_pos hc, if_pos hc, if_pos hc]
    cases hl : s.loopAnimation with
    | false => exact ⟨[], by simp [stepSize]⟩
    | true => exact ⟨[], by simp [stepSize, ht]⟩
  · rw [if_neg hc, if_neg hc, if_neg hc]
    split_ifs
    · exact ⟨[Event.ResetPropDynamics], by simp [stepSize, ht]⟩
    · exact ⟨[], by simp [stepSize, ht]⟩

theorem updateJoints_scripted_facts (DOF : Nat) (s : ArmPlugin) (i : UpdateInfo)
    (ht : s.testAnimation = true) :
    ∃ s1 log, s.updateJoints DOF i = Outcome.done true s1 log ∧
      s1.animationStep =
        (if s.animationStep + 1 > ANIMATION_STEPS then 0 else s.animationStep + 1) ∧
      s1.testAnimation =
        (if s.animationStep + 1 > ANIMATION_STEPS then s.loopAnimation else true) ∧
      s1.loopAnimation = s.loopAnimation ∧ s1.resetPos = s.resetPos ∧
      ∀ n, n < DOF → s1.ref n = ArmPlugin.approach stepSize (s.resetPos n) (s.ref n) := by
  obtain ⟨log, h⟩ := updateJoints_scripted DOF s i ht
  refine ⟨_, log, h, rfl, rfl, rfl, rfl, ?_⟩
  intro n hn
  show (List.foldl (ArmPlugin.returnToBase stepSize s.resetPos) s.ref (List.range DOF)) n = _
  rw [foldl_returnToBase_apply _ _ _ (List.nodup_range DOF), if_pos (List.mem_range.mpr hn)]

theorem updateJointsTimes_succ (DOF : Nat) (inputs : Nat → UpdateInfo) (s sk s1 : ArmPlugin)
    (k : Nat) (moved : Bool) (log : List Event)
    (h1 : ArmPlugin.updateJointsTimes DOF inputs k s = some sk)
    (hu : sk.updateJoints DOF (inputs k) = Outcome.done moved s1 log) :
    ArmPlugin.updateJointsTimes DOF inputs (k + 1) s = some s1 := by
  simp only [ArmPlugin.updateJointsTimes, h1, hu]

theorem updateJointsTimes_scripted (DOF : Nat) (inputs : Nat → UpdateInfo) (s : ArmPlugin)
    (ht : s.testAnimation = true) (h0 : s.animationStep = 0) (k : Nat)
    (hk : k ≤ ANIMATION_STEPS) :
    ∃ sk, ArmPlugin.updateJointsTimes DOF inputs k s = some sk ∧ sk.testAnimation = true ∧
      sk.animationStep = k ∧ sk.loopAnimation = s.loopAnimation ∧
      sk.resetPos = s.resetPos ∧
      ∀ n, n < DOF →
        sk.ref n = Nat.iterate (ArmPlugin.approach stepSize (s.resetPos n)) k (s.ref n) := by
  induction k with
  | zero => exact ⟨s, rfl, ht, h0, rfl, rfl, fun _ _ => rfl⟩
  | succ k ih =>
    obtain ⟨sk, h1, h2, h3, h4, h5, h6⟩ := ih (by omega)
    obtain ⟨s1, log, hu, e1, e2, e3, e4, e5⟩ :=
      updateJoints_scripted_facts DOF sk (inputs k) h2
    have hc : ¬ sk.animationStep + 1 > ANIMATION_STEPS := by
      rw [h3]
      omega
    rw [if_neg hc] at e1 e2
    refine ⟨s1, updateJointsTimes_succ DOF inputs s sk s1 k true log h1 hu, e2, ?_, ?_, ?_, ?_⟩
    · rw [e1, h3]
    · rw [e3, h4]
    · rw [e4, h5]
    · intro n hn
      rw [Function.iterate_succ_apply', ← h6 n hn, ← h5]
      exact e5 n hn

theorem updateJointsTimes_complete (DOF : Nat) (inputs : Nat → UpdateInfo) (s : ArmPlugin)
    (ht : s.testAnimation = true) (h0 : s.animationStep = 0) :
    ∃ s', ArmPlugin.updateJointsTimes DOF inputs (ANIMATION_STEPS + 1) s = some s' ∧
      s'.testAnimation = s.loopAnimation ∧ s'.animationStep = 0 ∧
      ∀ n, n < DOF →
        s'.ref n = Nat.iterate (ArmPlugin.approach stepSize (s.resetPos n))
          (ANIMATION_STEPS + 1) (s.ref n) := by
  obtain ⟨sk, h1, h2, h3, h4, h5, h6⟩ :=
    updateJointsTimes_scripted DOF inputs s ht h0 ANIMATION_STEPS (le_refl _)
  obtain ⟨s1, log, hu, e1, e2, -, -, e5⟩ :=
    updateJoints_scripted_facts DOF sk (inputs ANIMATION_STEPS) h2
  have hc : sk.animationStep + 1 > ANIMATION_STEPS := by
    rw [h3]
    omega
  rw [if_pos hc] at e1 e2
  refine ⟨s1, updateJointsTimes_succ DOF inputs s sk s1 _ true log h1 hu, ?_, e1, ?_⟩
  · rw [e2, h4]
  · intro n hn
    rw [Function.iterate_succ_apply', ← h6 n hn, ← h5]
    exact e5 n hn

/-- C12: starting in ScriptedReset mode with `animationStep = 0`, the mode is
still ScriptedReset and the counter is `k` after each of the first
`ANIMATION_STEPS` (1000) calls of `updateJoints`; with `loopAnimation = false`
the mode is AgentDriven (`testAnimation = false`) after call
`ANIMATION_STEPS + 1`, with `animationStep` 0 again; with `loopAnimation = true`
the counter is 0 again after that call and the mode is still ScriptedReset. -/
theorem animation_switches_mode (DOF : Nat) (inputs : Nat → UpdateInfo) (s : ArmPlugin)
    (ht : s.testAnimation = true) (h0 : s.animationStep = 0) :
    ANIMATION_STEPS = 1000 ∧
    (∀ k, k ≤ ANIMATION_STEPS →
      ∃ sk, ArmPlugin.updateJointsTimes DOF inputs k s = some sk ∧
        sk.testAnimation = true ∧ sk.animationStep = k) ∧
    (s.loopAnimation = false →
      ∃ s', ArmPlugin.updateJointsTimes DOF inputs (ANIMATION_STEPS + 1) s = some s' ∧
        s'.testAnimation = false ∧ s'.animationStep = 0) ∧
    (s.loopAnimation = true →
      ∃ s', ArmPlugin.updateJointsTimes DOF inputs (ANIMATION_STEPS + 1) s = some s' ∧
        s'.testAnimation = true ∧ s'.animationStep = 0) := by
  obtain ⟨s', h1, h2, h3, -⟩ := updateJointsTimes_complete DOF inputs s ht h0
  refine ⟨rfl, ?_, ?_, ?_⟩
  · intro k hk
    obtain ⟨sk, e1, e2, e3, -⟩ := updateJointsTimes_scripted DOF inputs s ht h0 k hk
    exact ⟨sk, e1, e2, e3⟩
  · intro hl
    exact ⟨s', h1, by rw [h2, hl], h3⟩
  · intro hl
    exact ⟨s', h1, by rw [h2, hl], h3⟩

/-- Witness for C12: the scripted reset of the constructor's state with two
joints. -/
theorem animation_switches_mode_witness :
    ANIMATION_STEPS = 1000 ∧
    (∀ k, k ≤ ANIMATION_STEPS →
      ∃ sk, ArmPlugin.updateJointsTimes 2 (fun _ => frameInput) k ArmPlugin.new = some sk ∧
        sk.testAnimation = true ∧ sk.animationStep = k) ∧
    (ArmPlugin.new.loopAnimation = false →
      ∃ s', ArmPlugin.updateJointsTimes 2 (fun _ => frameInput) (ANIMATION_STEPS + 1)
          ArmPlugin.new = some s' ∧
        s'.testAnimation = false ∧ s'.animationStep = 0) ∧
    (ArmPlugin.new.loopAnimation = true →
      ∃ s', ArmPlugin.updateJointsTimes 2 (fun _ => frameInput) (ANIMATION_STEPS + 1)
          ArmPlugin.new = some s' ∧
        s'.testAnimation = true ∧ s'.animationStep = 0) :=
  animation_switches_mode 2 (fun _ => frameInput) ArmPlugin.new rfl rfl

theorem displaced_step :
    ArmPlugin.approach stepSize (displaced.resetPos 1) (displaced.ref 1) = 16754147 / 2 ^ 23 := by
  have e1 : displaced.resetPos 1 = 1 / 4 := by norm_num [displaced, ArmPlugin.new]
  have e2 : displaced.ref 1 = 2 := rfl
  have h := roundF32_eq (2 - 11811161 / 2 ^ 32) 126 16754147 (by norm_num)
    (by norm_num [abs_of_pos]) (by norm_num [abs_of_pos]) (by norm_num) (by norm_num)
  have h2 : (if (2 : ℚ) < 1 / 4 then roundF32 (2 + stepSize)
      else if (2 : ℚ) > 1 / 4 then roundF32 (2 - stepSize) else 2) = 16754147 / 2 ^ 23 := by
    rw [if_neg (by norm_num), if_pos (by norm_num), stepSize_eq, h]
    norm_num
  rw [e1, e2]
  unfold ArmPlugin.approach
  dsimp only
  rw [h2]
  norm_num [JOINT_MIN, JOINT_MAX]

theorem nearHome_step :
    ArmPlugin.approach stepSize (nearHome.resetPos 0) (nearHome.ref 0) = -11811161 / 2 ^ 32 := by
  have e1 : nearHome.resetPos 0 = 0 := by norm_num [nearHome, ArmPlugin.new]
  have e2 : nearHome.ref 0 = 1 / 2 ^ 40 := rfl
  have h := roundF32_eq (1 / 2 ^ 40 - 11811161 / 2 ^ 32) 117 (-11811161) (by norm_num)
    (by rw [abs_of_neg (by norm_num)]; norm_num)
    (by rw [abs_of_neg (by norm_num)]; norm_num) (by norm_num) (by norm_num)
  have h2 : (if (1 / 2 ^ 40 : ℚ) < 0 then roundF32 (1 / 2 ^ 40 + stepSize)
      else if (1 / 2 ^ 40 : ℚ) > 0 then roundF32 (1 / 2 ^ 40 - stepSize) else 1 / 2 ^ 40) =
      -11811161 / 2 ^ 32 := by
    rw [if_neg (by norm_num), if_pos (by norm_num), stepSize_eq, h]
    norm_num
  rw [e1, e2]
  unfold ArmPlugin.approach
  dsimp only
  rw [h2]
  norm_num [JOINT_MIN, JOINT_MAX]

/-- Counterexample for C15 as stated: from the in-range reference 2.0, which is
more than one step away from its home value 0.25, one trajectory step of
`updateJoints` sets joint 1 to `16754147 / 2 ^ 23`: the distance to home has
decreased neither by `(JOINT_MAX - JOINT_MIN) / ANIMATION_STEPS` nor by the
step of the code; and from the in-range reference `2 ^ (-40)`, which is within
`(JOINT_MAX - JOINT_MIN) / ANIMATION_STEPS` of its home value 0, one trajectory
step sets joint 0 to `-11811161 / 2 ^ 32`, which is not. -/
theorem trajectory_step_inexact :
    (JOINT_MIN ≤ displaced.ref 1 ∧ displaced.ref 1 ≤ JOINT_MAX ∧
      (JOINT_MAX - JOINT_MIN) / ANIMATION_STEPS ≤ |displaced.ref 1 - displaced.resetPos 1| ∧
      ∃ s1 log, displaced.updateJoints 2 frameInput = Outcome.done true s1 log ∧
        s1.ref 1 = 16754147 / 2 ^ 23 ∧
        |s1.ref 1 - displaced.resetPos 1| ≠
          |displaced.ref 1 - displaced.resetPos 1| - (JOINT_MAX - JOINT_MIN) / ANIMATION_STEPS ∧
        |s1.ref 1 - displaced.resetPos 1| ≠
          |displaced.ref 1 - displaced.resetPos 1| - stepSize) ∧
    (JOINT_MIN ≤ nearHome.ref 0 ∧ nearHome.ref 0 ≤ JOINT_MAX ∧
      |nearHome.ref 0 - nearHome.resetPos 0| ≤ (JOINT_MAX - JOINT_MIN) / ANIMATION_STEPS ∧
      ∃ s1 log, nearHome.updateJoints 2 frameInput = Outcome.done true s1 log ∧
        s1.ref 0 = -11811161 / 2 ^ 32 ∧
        ¬ |s1.ref 0 - nearHome.resetPos 0| ≤ (JOINT_MAX - JOINT_MIN) / ANIMATION_STEPS) := by
  have d1 : displaced.resetPos 1 = 1 / 4 := by norm_num [displaced, ArmPlugin.new]
  have d2 : displaced.ref 1 = 2 := rfl
  have n1 : nearHome.resetPos 0 = 0 := by norm_num [nearHome, ArmPlugin.new]
  have n2 : nearHome.ref 0 = 1 / 2 ^ 40 := rfl
  constructor
  · obtain ⟨s1, log, hu, -, -, -, -, e5⟩ :=
      updateJoints_scripted_facts 2 displaced frameInput rfl
    have e := e5 1 (by decide)
    rw [displaced_step] at e
    refine ⟨by rw [d2]; norm_num [JOINT_MIN], by rw [d2]; norm_num [JOINT_MAX], ?_,
      s1, log, hu, e, ?_, ?_⟩
    · rw [d1, d2]
      norm_num [JOINT_MIN, JOINT_MAX, ANIMATION_STEPS, abs_of_pos]
    · rw [e, d1, d2]
      norm_num [JOINT_MIN, JOINT_MAX, ANIMATION_STEPS, abs_of_pos]
    · rw [e, d1, d2, stepSize_eq]
      norm_num [abs_of_pos]
  · obtain ⟨s1, log, hu, -, -, -, -, e5⟩ :=
      updateJoints_scripted_facts 2 nearHome frameInput rfl
    have e := e5 0 (by decide)
    rw [nearHome_step] at e
    refine ⟨by rw [n2]; norm_num [JOINT_MIN], by rw [n2]; norm_num [JOINT_MAX], ?_,
      s1, log, hu, e, ?_⟩
    · rw [n1, n2]
      norm_num [JOINT_MIN, JOINT_MAX, ANIMATION_STEPS, abs_of_pos]
    · rw [e, n1]
      norm_num [JOINT_MIN, JOINT_MAX, ANIMATION_STEPS, abs_of_pos]

/-- C15 as amended: `step` is the binary32 value `11811161 / 2 ^ 32` of
`(JOINT_MAX - JOINT_MIN) * (1.0f / ANIMATION_STEPS)` and `roundingError = 2 ^ (-23)`
bounds the rounding error of one update.  For a joint `n < DOF` whose reference
and home value lie in `[JOINT_MIN, JOINT_MAX]`, one trajectory step of
`updateJoints` brings a joint that is at least one step away from home one step
closer up to the rounding error (the new distance differs from the old distance
minus `step` by at most `roundingError`) and keeps a joint that is within
`step + roundingError` of home within `step + roundingError` of home; hence
after a complete animation (`ANIMATION_STEPS + 1` calls from `animationStep = 0`)
the joint is within `step + roundingError` of its home value `resetPos[n]`. -/
theorem trajectory_approaches_home (DOF : Nat) (s : ArmPlugin) (i : UpdateInfo) (n : Nat)
    (hn : n < DOF) (ht : s.testAnimation = true)
    (hr : JOINT_MIN ≤ s.ref n ∧ s.ref n ≤ JOINT_MAX)
    (hh : JOINT_MIN ≤ s.resetPos n ∧ s.resetPos n ≤ JOINT_MAX) :
    stepSize = 11811161 / 2 ^ 32 ∧ roundingError = 1 / 2 ^ 23 ∧
    (∃ s1 log, s.updateJoints DOF i = Outcome.done true s1 log ∧
      (stepSize ≤ |s.ref n - s.resetPos n| →
        |(|s1.ref n - s.resetPos n|) - (|s.ref n - s.resetPos n| - stepSize)| ≤
          roundingError) ∧
      (|s.ref n - s.resetPos n| ≤ stepSize + roundingError →
        |s1.ref n - s.resetPos n| ≤ stepSize + roundingError)) ∧
    (s.animationStep = 0 → ∀ inputs : Nat → UpdateInfo,
      ∃ s', ArmPlugin.updateJointsTimes DOF inputs (ANIMATION_STEPS + 1) s = some s' ∧
        |s'.ref n - s.resetPos n| ≤ stepSize + roundingError) := by
  have hs0 : roundingError ≤ stepSize := by
    rw [stepSize_eq]
    norm_num [roundingError]
  have hs1 : stepSize ≤ 1 := by
    rw [stepSize_eq]
    norm_num
  refine ⟨stepSize_eq, rfl, ?_, ?_⟩
  · obtain ⟨s1, log, hu, -, -, -, -, e5⟩ := updateJoints_scripted_facts DOF s i ht
    refine ⟨s1, log, hu, ?_, ?_⟩
    · intro hd
      rw [e5 n hn]
      exact approach_closer _ _ _ stepSize_pos hh hr hd
    · intro hd
      rw [e5 n hn]
      exact approach_near _ _ _ hs0 hs1 hh hr hd
  · intro h0 inputs
    obtain ⟨s', h1, -, -, h4⟩ := updateJointsTimes_complete DOF inputs s ht h0
    refine ⟨s', h1, ?_⟩
    rw [h4 n hn]
    refine le_trans (iterate_approach_bound _ _ _ _ hs0 hs1 hh hr) ?_
    apply max_le (le_refl _)
    have hd : |s.ref n - s.resetPos n| ≤ JOINT_MAX - JOINT_MIN := by
      rw [abs_le]
      constructor <;> linarith [hr.1, hr.2, hh.1, hh.2]
    have hk : JOINT_MAX - JOINT_MIN ≤
        ((ANIMATION_STEPS + 1 : ℕ) : ℚ) * (stepSize - roundingError) := by
      rw [stepSize_eq]
      norm_num [roundingError, ANIMATION_STEPS, JOINT_MAX, JOINT_MIN]
    have hp := stepSize_pos
    have he : (0 : ℚ) < roundingError := by norm_num [roundingError]
    linarith

/-- Witness for C15 as amended: joint 1 at `JOINT_MAX`, its home value being
0.25. -/
theorem trajectory_approaches_home_witness :
    stepSize = 11811161 / 2 ^ 32 ∧ roundingError = 1 / 2 ^ 23 ∧
    (∃ s1 log, displaced.updateJoints 2 frameInput = Outcome.done true s1 log ∧
      (stepSize ≤ |displaced.ref 1 - displaced.resetPos 1| →
        |(|s1.ref 1 - displaced.resetPos 1|) -
            (|displaced.ref 1 - displaced.resetPos 1| - stepSize)| ≤ roundingError) ∧
      (|displaced.ref 1 - displaced.resetPos 1| ≤ stepSize + roundingError →
        |s1.ref 1 - displaced.resetPos 1| ≤ stepSize + roundingError)) ∧
    (displaced.animationStep = 0 → ∀ inputs : Nat → UpdateInfo,
      ∃ s', ArmPlugin.updateJointsTimes 2 inputs (ANIMATION_STEPS + 1) displaced = some s' ∧
        |s'.ref 1 - displaced.resetPos 1| ≤ stepSize + roundingError) :=
  trajectory_approaches_home 2 displaced frameInput 1 (by decide) rfl
    (by norm_num [displaced, JOINT_MIN, JOINT_MAX])
    (by norm_num [displaced, ArmPlugin.new, JOINT_MIN, JOINT_MAX])

/-! ### The two ways a tick can go -/

theorem with_agent_eq (s : ArmPlugin) (ha : s.agent = true) :
    { s with agent := true, inputState := s.inputState } = s := by
  cases s
  simp only at ha
  subst ha
  rfl

theorem OnUpdate_cases (DOF : Nat) (s : ArmPlugin) (i : UpdateInfo) :
    (∃ a b log0, s.agent = false ∧ log0 ⊆ [Event.Create, Event.Alloc] ∧
      s.OnUpdate DOF i = Outcome.done () { s with agent := a, inputState := b } log0) ∨
    (∃ b log0, log0 ⊆ [Event.Create, Event.Alloc] ∧
      (s.agent = true → { s with agent := true, inputState := b } = s ∧ log0 = []) ∧
      s.OnUpdate DOF i =
        match ArmPlugin.OnUpdateLoaded DOF { s with agent := true, inputState := b } i with
        | Outcome.fault log => Outcome.fault (log0 ++ log)
        | Outcome.done _ s1 log => Outcome.done () s1 (log0 ++ log)) := by
  cases ha : s.agent with
  | true =>
    right
    refine ⟨s.inputState, [], by simp, fun _ => ⟨?_, rfl⟩, ?_⟩
    · exact with_agent_eq s ha
    · have he : { s with agent := true, inputState := s.inputState } = s := with_agent_eq s ha
      rw [he]
      unfold ArmPlugin.OnUpdate ArmPlugin.deferredLoading
      simp only [ha, Bool.not_true, Bool.false_and, Bool.false_eq_true, if_false]
  | false =>
    by_cases ht : i.simTime > 3/2
    · cases hc : i.agentCreated with
      | false =>
        left
        refine ⟨false, s.inputState, [Event.Create], rfl, by simp, ?_⟩
        simp [ArmPlugin.OnUpdate, ArmPlugin.deferredLoading, ArmPlugin.createAgent, ha, ht, hc]
      | true =>
        cases hal : i.tensorAllocated with
        | false =>
          left
          refine ⟨true, false, [Event.Create, Event.Alloc], rfl, by simp, ?_⟩
          simp [ArmPlugin.OnUpdate, ArmPlugin.deferredLoading, ArmPlugin.createAgent, ha, ht,
            hc, hal]
        | true =>
          right
          refine ⟨true, [Event.Create, Event.Alloc], by simp, fun h => Bool.noConfusion h, ?_⟩
          simp [ArmPlugin.OnUpdate, ArmPlugin.deferredLoading, ArmPlugin.createAgent, ha, ht,
            hc, hal]
    · left
      refine ⟨false, s.inputState, [], rfl, by simp, ?_⟩
      have he : { s with agent := false, inputState := s.inputState } = s := by
        cases s
        simp only at ha
        subst ha
        rfl
      rw [he]
      simp [ArmPlugin.OnUpdate, ArmPlugin.deferredLoading, ha, ht]

/-! ### Ticks in ScriptedReset mode -/

theorem updateJoints_scripted_log (DOF : Nat) (s s1 : ArmPlugin) (i : UpdateInfo)
    (moved : Bool) (log : List Event) (ht : s.testAnimation = true)
    (h : s.updateJoints DOF i = Outcome.done moved s1 log) :
    moved = true ∧ log ⊆ [Event.ResetPropDynamics] ∧ s1.episodeFrames = s.episodeFrames ∧
      s1.newState = s.newState := by
  unfold ArmPlugin.updateJoints at h
  rw [if_pos ht] at h
  dsimp only at h
  split_ifs at h <;> cases h <;> simp

theorem submitted_eq_nil (log : List Event) (h : ∀ r b, Event.NextReward r b ∉ log) :
    submitted log = [] := by
  induction log with
  | nil => rfl
  | cons e rest ih =>
    have hr : ∀ r b, Event.NextReward r b ∉ rest := fun r b hm =>
      h r b (List.mem_cons_of_mem _ hm)
    cases e with
    | NextReward r b => exact absurd (List.mem_cons_self _ _) (h r b)
    | Create => exact ih hr
    | Alloc => exact ih hr
    | NextAction => exact ih hr
    | SetJointPosition j v => exact ih hr
    | ResetPropDynamics => exact ih hr

theorem loading_log (log0 : List Event) (h0 : log0 ⊆ [Event.Create, Event.Alloc]) :
    Event.NextAction ∉ log0 ∧ submitted log0 = [] ∧
      ∀ j v, Event.SetJointPosition j v ∉ log0 := by
  refine ⟨?_, ?_, ?_⟩
  · intro hm
    have := h0 hm
    simp at this
  · apply submitted_eq_nil
    intro r b hm
    have := h0 hm
    simp at this
  · intro j v hm
    have := h0 hm
    simp at this

theorem OnUpdateLoaded_scripted (DOF : Nat) (s : ArmPlugin) (i : UpdateInfo)
    (ht : s.testAnimation = true) (hn : s.newReward = false) (hf : s.episodeFrames = 0) :
    ∃ s' log, s.OnUpdateLoaded DOF i = Outcome.done () s' log ∧ Event.NextAction ∉ log ∧
      submitted log = [] ∧ s'.episodeFrames = s.episodeFrames ∧ s'.newState = s.newState := by
  obtain ⟨s1, log1, hu, -⟩ := updateJoints_scripted_facts DOF s i ht
  obtain ⟨-, hl, e1, e2⟩ := updateJoints_scripted_log DOF s s1 i true log1 ht hu
  obtain ⟨h1, -, -, -, -, -, -, -, -, -⟩ := updateJoints_frame DOF s s1 i true log1 hu
  have hh : (s.newState && !s.testAnimation) = false := by simp [ht]
  have hst := rewardStage_idle DOF (s.newState && !s.testAnimation) s1 i (by rw [h1, hn])
    (by rw [e1, hf]; intro h; exact Nat.not_lt_zero _ h.2) (Or.inl hh)
  refine ⟨s1, log1 ++ (if (true : Bool) then s1.setJointPositions else []) ++ [], ?_, ?_, ?_,
    e1, e2⟩
  · rw [OnUpdateLoaded_eq DOF s s1 i true log1 hu, hst]
  · intro hm
    simp only [if_true, List.append_nil, List.mem_append, ArmPlugin.setJointPositions,
      List.mem_cons, List.mem_singleton, List.not_mem_nil, or_false] at hm
    rcases hm with hm | hm | hm | hm
    · have := hl hm
      simp at this
    · cases hm
    · cases hm
    · cases hm
  · rw [submitted_tick_log DOF s s1 i true log1 _ hu]
    rfl

/-- C16: in every reachable state, a tick of `OnUpdate` taken in ScriptedReset
mode returns without selecting an action (`NextAction` is not called) and
without submitting a reward, leaves `episodeFrames` unchanged and leaves the
frame-ready flag `newState` as it was. -/
theorem scripted_tick_is_passive (DOF : Nat) (s : ArmPlugin) (i : UpdateInfo)
    (hr : Reachable DOF s) (ht : s.testAnimation = true) :
    ∃ s' log, s.OnUpdate DOF i = Outcome.done () s' log ∧ Event.NextAction ∉ log ∧
      submitted log = [] ∧ s'.episodeFrames = s.episodeFrames ∧ s'.newState = s.newState := by
  have hi := Reachable_inv DOF s hr
  have hn : s.newReward = false := by
    cases hn : s.newReward with
    | false => rfl
    | true =>
      have := (hi.pending hn).2
      rw [ht] at this
      cases this
  rcases OnUpdate_cases DOF s i with ⟨a, b, log0, -, h0, ho⟩ | ⟨b, log0, h0, -, ho⟩
  · obtain ⟨l1, l2, -⟩ := loading_log log0 h0
    exact ⟨_, log0, ho, l1, l2, rfl, rfl⟩
  · obtain ⟨l1, l2, -⟩ := loading_log log0 h0
    obtain ⟨s', log, hl, e1, e2, e3, e4⟩ :=
      OnUpdateLoaded_scripted DOF { s with agent := true, inputState := b } i ht hn
        (hi.frames ht)
    rw [hl] at ho
    refine ⟨s', log0 ++ log, ho, ?_, ?_, e3, e4⟩
    · intro hm
      rcases List.mem_append.mp hm with hm | hm
      · exact l1 hm
      · exact e1 hm
    · rw [submitted_append, l2, e2]
      rfl

/-- Witness for C16: the second tick of the run with two joints. -/
theorem scripted_tick_is_passive_witness :
    ∃ s' log, (animating true 1).OnUpdate 2 frameInput = Outcome.done () s' log ∧
      Event.NextAction ∉ log ∧ submitted log = [] ∧
      s'.episodeFrames = (animating true 1).episodeFrames ∧
      s'.newState = (animating true 1).newState :=
  scripted_tick_is_passive 2 (animating true 1) frameInput
    (reachable_animating true 0 (by decide)) rfl

/-! ### Completed ticks of reachable states -/

theorem OnUpdate_done_stage (DOF : Nat) (s s' : ArmPlugin) (i : UpdateInfo) (log : List Event)
    (h : s.OnUpdate DOF i = Outcome.done () s' log) :
    (∃ a b, s.agent = false ∧ log ⊆ [Event.Create, Event.Alloc] ∧
      s' = { s with agent := a, inputState := b }) ∨
    (∃ b log0 moved s1 log1, log0 ⊆ [Event.Create, Event.Alloc] ∧
      (s.agent = true → { s with agent := true, inputState := b } = s ∧ log0 = []) ∧
      ArmPlugin.updateJoints DOF { s with agent := true, inputState := b } i =
        Outcome.done moved s1 log1 ∧
      s' = (s1.rewardStage DOF (s.newState && !s.testAnimation) i).1 ∧
      log = log0 ++ (log1 ++ (if moved then s1.setJointPositions else []) ++
        (s1.rewardStage DOF (s.newState && !s.testAnimation) i).2)) := by
  rcases OnUpdate_cases DOF s i with ⟨a, b, log0, ha, h0, ho⟩ | ⟨b, log0, h0, hs, ho⟩
  · rw [ho] at h
    cases h
    exact Or.inl ⟨a, b, ha, h0, rfl⟩
  · right
    cases hu : ArmPlugin.updateJoints DOF { s with agent := true, inputState := b } i with
    | fault log1 =>
      rw [OnUpdateLoaded_fault DOF _ i log1 hu] at ho
      rw [ho] at h
      cases h
    | done moved s1 log1 =>
      rw [OnUpdateLoaded_eq DOF _ s1 i moved log1 hu] at ho
      rw [ho] at h
      cases h
      exact ⟨b, log0, moved, s1, log1, h0, hs, hu, rfl, rfl⟩

theorem RewardInv_with_agent (s : ArmPlugin) (hi : RewardInv s) (b : Bool) :
    RewardInv { s with agent := true, inputState := b } :=
  ⟨hi.flags, hi.pending, hi.idle, fun h => Bool.noConfusion h, hi.frames, hi.limit⟩

theorem rewardStage_frames (DOF : Nat) (hadNewState : Bool) (s : ArmPlugin) (i : UpdateInfo)
    (hi : RewardInv s) (ha : s.agent = true) :
    (s.rewardStage DOF hadNewState i).1.episodeFrames ≤ 20 ∧
      (s.rewardStage DOF hadNewState i).1.newReward = false ∧
      (s.rewardStage DOF hadNewState i).1.endEpisode = false := by
  have hlim := hi.limit
  rcases rewardStage_cases DOF hadNewState s i ha hi.flags with
    ⟨h, -⟩ | ⟨h, hn, ht, -⟩ | ⟨h, -⟩ | ⟨h, hn, ht, -⟩
  · rw [h]
    exact ⟨Nat.zero_le _, rfl, rfl⟩
  · rw [h]
    refine ⟨?_, hn, by rw [hi.flags, hn]⟩
    rw [hlim] at ht
    show s.episodeFrames ≤ 20
    omega
  · rw [h]
    exact ⟨Nat.zero_le _, rfl, rfl⟩
  · rw [h]
    refine ⟨?_, rfl, ?_⟩
    · rw [hlim] at ht
      show s.episodeFrames ≤ 20
      omega
    · show s.endEpisode = false
      rw [hi.flags, hn]

theorem Reachable_tick_end (DOF : Nat) (s s' : ArmPlugin) (i : UpdateInfo) (log : List Event)
    (hr : Reachable DOF s) (he : s.episodeFrames ≤ 20)
    (h : s.OnUpdate DOF i = Outcome.done () s' log) :
    s'.episodeFrames ≤ 20 ∧ s'.newReward = false ∧ s'.endEpisode = false := by
  have hi := Reachable_inv DOF s hr
  rcases OnUpdate_done_stage DOF s s' i log h with
    ⟨a, b, ha, -, hs'⟩ | ⟨b, log0, moved, s1, log1, -, -, hu, hs', -⟩
  · have hn : s.newReward = false := by
      cases hn : s.newReward with
      | false => rfl
      | true =>
        have h1 := (hi.pending hn).2
        rw [hi.mode ha] at h1
        cases h1
    rw [hs']
    exact ⟨he, hn, by rw [← hn]; exact hi.flags⟩
  · obtain ⟨hi1, ha1⟩ := updateJoints_inv DOF _ s1 i moved log1 (RewardInv_with_agent s hi b)
      rfl hu
    rw [hs']
    exact rewardStage_frames DOF _ s1 i hi1 ha1

theorem Reachable_frames_le (DOF : Nat) (s : ArmPlugin) (h : Reachable DOF s) :
    s.episodeFrames ≤ 20 := by
  induction h with
  | init => exact Nat.zero_le _
  | tick s s' i log hr hstep ih => exact (Reachable_tick_end DOF s s' i log hr ih hstep).1
  | camera s s' msg _ hstep ih =>
    obtain ⟨a, b, c, d, e, hs'⟩ := onCameraMsg_frame s s' msg hstep
    rw [hs']
    exact ih
  | collision s contacts _ ih =>
    rcases onCollisionMsg_cases s contacts with h1 | ⟨-, h1⟩ <;> rw [h1] <;> exact ih

theorem updateJoints_frames_le (DOF : Nat) (s s' : ArmPlugin) (i : UpdateInfo) (r : Bool)
    (log : List Event) (h : s.updateJoints DOF i = Outcome.done r s' log) :
    s'.episodeFrames ≤ s.episodeFrames + 1 := by
  unfold ArmPlugin.updateJoints at h
  by_cases h1 : s.testAnimation = true
  · rw [if_pos h1] at h
    dsimp only at h
    split_ifs at h <;> cases h <;> simp
  · rw [if_neg h1] at h
    by_cases h2 : (s.newState && s.agent) = true
    · rw [if_pos h2] at h
      obtain ⟨f, hf⟩ := updateAgent_frame _ _ _ _ _ _ h
      rw [hf]
    · rw [if_neg h2] at h
      cases h
      exact Nat.le_succ _

/-- C18: in every reachable state, and so after each completed tick of
`OnUpdate`, `episodeFrames <= maxEpisodeLength = 20`, and `episodeFrames = 0`
whenever the mode is ScriptedReset; the frame count that a tick reaches after
`updateJoints` is at most `maxEpisodeLength + 1`, so an episode consumes at most
`maxEpisodeLength + 1` frames before it is finalized. -/
theorem episode_frames_bounded (DOF : Nat) (s : ArmPlugin) (hr : Reachable DOF s) :
    s.maxEpisodeLength = 20 ∧ s.episodeFrames ≤ s.maxEpisodeLength ∧
    (s.testAnimation = true → s.episodeFrames = 0) ∧
    (∀ i s' log, s.OnUpdate DOF i = Outcome.done () s' log →
      s'.episodeFrames ≤ s'.maxEpisodeLength) ∧
    (∀ i moved s1 log1, s.updateJoints DOF i = Outcome.done moved s1 log1 →
      s1.episodeFrames ≤ s.maxEpisodeLength + 1) := by
  have hi := Reachable_inv DOF s hr
  have hf := Reachable_frames_le DOF s hr
  refine ⟨hi.limit, by rw [hi.limit]; exact hf, hi.frames, ?_, ?_⟩
  · intro i s' log h
    have hr' := Reachable.tick s s' i log hr h
    rw [(Reachable_inv DOF s' hr').limit]
    exact Reachable_frames_le DOF s' hr'
  · intro i moved s1 log1 hu
    have := updateJoints_frames_le DOF s s1 i moved log1 hu
    rw [hi.limit]
    omega

/-- Witness for C18: the state of the run with two joints after twenty frames
of an episode. -/
theorem episode_frames_bounded_witness :
    (driving 20 (-1/2) true).maxEpisodeLength = 20 ∧
    (driving 20 (-1/2) true).episodeFrames ≤ (driving 20 (-1/2) true).maxEpisodeLength ∧
    ((driving 20 (-1/2) true).testAnimation = true →
      (driving 20 (-1/2) true).episodeFrames = 0) ∧
    (∀ i s' log, (driving 20 (-1/2) true).OnUpdate 2 i = Outcome.done () s' log →
      s'.episodeFrames ≤ s'.maxEpisodeLength) ∧
    (∀ i moved s1 log1,
      (driving 20 (-1/2) true).updateJoints 2 i = Outcome.done moved s1 log1 →
      s1.episodeFrames ≤ (driving 20 (-1/2) true).maxEpisodeLength + 1) :=
  episode_frames_bounded 2 (driving 20 (-1/2) true) reachable_last_frame

theorem episodeTimeout_newReward_false (s : ArmPlugin)
    (h : s.episodeTimeout.newReward = false) : s.episodeTimeout = s := by
  by_cases ht : s.maxEpisodeLength > 0 ∧ s.episodeFrames > s.maxEpisodeLength
  · unfold ArmPlugin.episodeTimeout at h
    rw [if_pos ht] at h
    cases h
  · exact episodeTimeout_of_not s ht

theorem interimReward_ground (s : ArmPlugin) (i : UpdateInfo) (hn : s.newReward = false)
    (he : s.endEpisode = false) (hp : i.propFound = true) (hg : i.gripperFound = true)
    (hz : i.gripMinZ ≤ groundContact) :
    ArmPlugin.interimReward true s i =
      some { s with rewardHistory := REWARD_LOSS, newReward := true, endEpisode := true } := by
  simp [ArmPlugin.interimReward, hn, he, hp, hg, hz]

/-- C19: in every reachable state `endEpisode` implies `newReward`, and after
each completed tick both are false; consequently, whenever a tick enters the
block of the intermediary reward (a frame was consumed and no reward is pending
after the timeout check), `endEpisode` is false there, so the guard
`if (!endEpisode)` passes and a ground contact (`gripBBox.min.z <= groundContact`,
the binary32 value of `0.05f`) assigns `rewardHistory = REWARD_LOSS`. -/
theorem flags_invariant (DOF : Nat) (s : ArmPlugin) (hr : Reachable DOF s) :
    (s.endEpisode = true → s.newReward = true) ∧
    (∀ i s' log, s.OnUpdate DOF i = Outcome.done () s' log →
      s'.newReward = false ∧ s'.endEpisode = false) ∧
    (∀ i moved s1 log1, s.newState = true → s.testAnimation = false →
      s.updateJoints DOF i = Outcome.done moved s1 log1 →
      s1.episodeTimeout.newReward = false →
      s1.episodeTimeout.endEpisode = false ∧
      (i.propFound = true → i.gripperFound = true → i.gripMinZ ≤ groundContact →
        ∃ s3, ArmPlugin.interimReward true s1.episodeTimeout i = some s3 ∧
          s3.rewardHistory = REWARD_LOSS)) := by
  have hi := Reachable_inv DOF s hr
  refine ⟨?_, ?_, ?_⟩
  · intro he
    rw [← hi.flags, he]
  · intro i s' log h
    exact (Reachable_tick_end DOF s s' i log hr (Reachable_frames_le DOF s hr) h).2
  · intro i moved s1 log1 _ ht hu hn
    have ha := Reachable_agent DOF s hr ht
    obtain ⟨hi1, -⟩ := updateJoints_inv DOF s s1 i moved log1 hi ha hu
    have he := episodeTimeout_newReward_false s1 hn
    rw [he] at hn ⊢
    have hee : s1.endEpisode = false := by rw [hi1.flags, hn]
    refine ⟨hee, ?_⟩
    intro hp hg hz
    exact ⟨_, interimReward_ground s1 i hn hee hp hg hz, rfl⟩

/-- Witness for C19: the state of the run with two joints in which the first
frame of an episode is ready. -/
theorem flags_invariant_witness :
    ((driving 0 0 true).endEpisode = true → (driving 0 0 true).newReward = true) ∧
    (∀ i s' log, (driving 0 0 true).OnUpdate 2 i = Outcome.done () s' log →
      s'.newReward = false ∧ s'.endEpisode = false) ∧
    (∀ i moved s1 log1, (driving 0 0 true).newState = true →
      (driving 0 0 true).testAnimation = false →
      (driving 0 0 true).updateJoints 2 i = Outcome.done moved s1 log1 →
      s1.episodeTimeout.newReward = false →
      s1.episodeTimeout.endEpisode = false ∧
      (i.propFound = true → i.gripperFound = true → i.gripMinZ ≤ groundContact →
        ∃ s3, ArmPlugin.interimReward true s1.episodeTimeout i = some s3 ∧
          s3.rewardHistory = REWARD_LOSS)) :=
  flags_invariant 2 (driving 0 0 true) reachable_frame_ready

/-! ### Successful grabs -/

theorem onCollisionMsg_ite (s : ArmPlugin) (contacts : List Contact) :
    s.onCollisionMsg contacts =
      if s.testAnimation = false ∧ ∃ c ∈ contacts, c.isGoal then
        { s with rewardHistory := REWARD_WIN, newReward := true, endEpisode := true }
      else s := by
  unfold ArmPlugin.onCollisionMsg
  by_cases ht : s.testAnimation = true
  · rw [if_pos ht, if_neg]
    rintro ⟨hf, -⟩
    rw [ht] at hf
    cases hf
  · rw [if_neg ht, collisionLoop_eq s contacts]
    have hf : s.testAnimation = false := by simpa using ht
    by_cases hg : ∃ c ∈ contacts, c.isGoal
    · rw [if_pos hg, if_pos ⟨hf, hg⟩]
    · rw [if_neg hg, if_neg (fun h => hg h.2)]

theorem ReachableSinceTick_reachable (DOF : Nat) (s : ArmPlugin) (g : Bool)
    (h : ReachableSinceTick DOF s g) : Reachable DOF s ∧ s.newReward = g := by
  induction h with
  | init => exact ⟨Reachable.init, rfl⟩
  | tick s s' i log g _ hstep ih =>
    exact ⟨Reachable.tick s s' i log ih.1 hstep,
      (Reachable_tick_end DOF s s' i log ih.1 (Reachable_frames_le DOF s ih.1) hstep).2.1⟩
  | camera s s' msg g _ hstep ih =>
    refine ⟨Reachable.camera s s' msg ih.1 hstep, ?_⟩
    obtain ⟨a, b, c, d, e, hs'⟩ := onCameraMsg_frame s s' msg hstep
    rw [hs']
    exact ih.2
  | collision s contacts g _ ih =>
    refine ⟨Reachable.collision s contacts ih.1, ?_⟩
    rw [onCollisionMsg_ite]
    by_cases hc : s.testAnimation = false ∧ ∃ c ∈ contacts, c.isGoal
    · rw [if_pos hc]
      simp [hc]
    · rw [if_neg hc, ih.2]
      simp [hc]

theorem Reachable_sinceTick (DOF : Nat) (s : ArmPlugin) (h : Reachable DOF s) :
    ReachableSinceTick DOF s s.newReward := by
  induction h with
  | init => exact ReachableSinceTick.init
  | tick s s' i log hr hstep ih =>
    have h1 := (Reachable_tick_end DOF s s' i log hr (Reachable_frames_le DOF s hr) hstep).2.1
    rw [h1]
    exact ReachableSinceTick.tick s s' i log _ ih hstep
  | camera s s' msg _ hstep ih =>
    obtain ⟨a, b, c, d, e, hs'⟩ := onCameraMsg_frame s s' msg hstep
    have h1 : s'.newReward = s.newReward := by rw [hs']
    rw [h1]
    exact ReachableSinceTick.camera s s' msg _ ih hstep
  | collision s contacts _ ih =>
    have h1 := (ReachableSinceTick_reachable DOF _ _
      (ReachableSinceTick.collision s contacts _ ih)).2
    rw [h1]
    exact ReachableSinceTick.collision s contacts _ ih

theorem Reachable_tick_grabs (DOF : Nat) (s s' : ArmPlugin) (i : UpdateInfo)
    (log : List Event) (hr : Reachable DOF s)
    (h : s.OnUpdate DOF i = Outcome.done () s' log) :
    (s.newReward = false → s'.successfulGrabs = s.successfulGrabs) ∧
    (s.newReward = true → s'.successfulGrabs = s.successfulGrabs + 1) := by
  have hi := Reachable_inv DOF s hr
  rcases OnUpdate_done_stage DOF s s' i log h with
    ⟨a, b, ha, -, hs'⟩ | ⟨b, log0, moved, s1, log1, -, -, hu, hs', -⟩
  · rw [hs']
    refine ⟨fun _ => rfl, ?_⟩
    intro hn
    have h1 := (hi.pending hn).2
    rw [hi.mode ha] at h1
    cases h1
  · obtain ⟨hi1, ha1⟩ := updateJoints_inv DOF _ s1 i moved log1 (RewardInv_with_agent s hi b)
      rfl hu
    obtain ⟨h1, -, h3, -, -, -, -, h8, -, -⟩ := updateJoints_frame DOF _ s1 i moved log1 hu
    have h1' : s1.newReward = s.newReward := h1
    have h3' : s1.rewardHistory = s.rewardHistory := h3
    have h8' : s1.successfulGrabs = s.successfulGrabs := h8
    have hloss : ¬ REWARD_LOSS ≥ REWARD_WIN := by norm_num [REWARD_LOSS, REWARD_WIN]
    rw [hs']
    rcases rewardStage_cases DOF (s.newState && !s.testAnimation) s1 i ha1 hi1.flags with
      ⟨hc, -⟩ | ⟨hc, hn, -⟩ | ⟨hc, hn, -⟩ | ⟨hc, hn, -⟩
    · rw [hc]
      constructor
      · intro hn
        have hle := hi.idle hn
        show (if s1.rewardHistory ≥ REWARD_WIN then s1.successfulGrabs + 1
          else s1.successfulGrabs) = s.successfulGrabs
        rw [if_neg (by rw [h3']; unfold REWARD_WIN; intro hh; linarith), h8']
      · intro hn
        show (if s1.rewardHistory ≥ REWARD_WIN then s1.successfulGrabs + 1
          else s1.successfulGrabs) = s.successfulGrabs + 1
        rw [if_pos (by rw [h3', (hi.pending hn).1]), h8']
    · rw [hc]
      refine ⟨fun _ => h8', ?_⟩
      intro hn'
      rw [h1', hn'] at hn
      cases hn
    · rw [hc]
      constructor
      · intro _
        show (if REWARD_LOSS ≥ REWARD_WIN then s1.successfulGrabs + 1
          else s1.successfulGrabs) = s.successfulGrabs
        rw [if_neg hloss, h8']
      · intro hn'
        rw [h1', hn'] at hn
        cases hn
    · rw [hc]
      refine ⟨fun _ => h8', ?_⟩
      intro hn'
      rw [h1', hn'] at hn
      cases hn

/-- C17: in every state reachable by complete ticks and complete camera and
collision callbacks, a tick changes `successfulGrabs` only if `onCollisionMsg`
has raised goal-reached since the previous tick, hence during that episode, and
then by one; when it has not, whatever ends the episode (ground contact or
timeout), `successfulGrabs` is unchanged. -/
theorem success_needs_goal (DOF : Nat) (s s' : ArmPlugin) (g : Bool) (i : UpdateInfo)
    (log : List Event) (hr : ReachableSinceTick DOF s g)
    (h : s.OnUpdate DOF i = Outcome.done () s' log) :
    (s'.successfulGrabs ≠ s.successfulGrabs →
      g = true ∧ s'.successfulGrabs = s.successfulGrabs + 1) ∧
    (g = false → s'.successfulGrabs = s.successfulGrabs) := by
  obtain ⟨hr', hg⟩ := ReachableSinceTick_reachable DOF s g hr
  obtain ⟨h1, h2⟩ := Reachable_tick_grabs DOF s s' i log hr' h
  rw [hg] at h1 h2
  refine ⟨?_, h1⟩
  intro hne
  cases g with
  | false => exact absurd (h1 rfl) hne
  | true => exact ⟨rfl, h2 rfl⟩

theorem OnUpdate_last_frame :
    (driving 20 (-1/2) true).OnUpdate 2 frameInput =
      Outcome.done ()
        (ArmPlugin.resetEpisode 2 { driving 21 (-1/2) false with newReward := false })
        [Event.NextAction, Event.NextReward (-1/2) true] := by
  rw [OnUpdate_of_agent 2 _ _ rfl,
    OnUpdateLoaded_eq 2 _ _ _ _ _ (updateJoints_driving 20 (-1/2)),
    rewardStage_timeout 2 _ (driving 21 (-1/2) false) frameInput rfl (by decide)]
  rfl

/-- Witness for C17: the twenty-first frame of an episode of the run with two
joints ends the episode by timeout, no goal contact having arrived, and leaves
`successfulGrabs` as it was. -/
theorem success_needs_goal_witness :
    (ArmPlugin.resetEpisode 2
        { driving 21 (-1/2) false with newReward := false }).successfulGrabs =
      (driving 20 (-1/2) true).successfulGrabs :=
  (success_needs_goal 2 (driving 20 (-1/2) true) _ false frameInput _
    (Reachable_sinceTick 2 _ reachable_last_frame) OnUpdate_last_frame).2 rfl

/-! ### Frames on which no action is applied, and the shaping reward -/

theorem updateAgent_fails (DOF : Nat) (s : ArmPlugin) (i : UpdateInfo)
    (hs : s.inputState = true) (ha : s.agent = true)
    (hfail : i.cudaOk = false ∨ i.nextAction = none ∨
      ∃ a, i.nextAction = some a ∧ (a < 0 ∨ a ≥ (DOF : Int) * 2)) :
    ∃ log1, log1 ⊆ [Event.NextAction] ∧ s.updateAgent DOF i = Outcome.done false s log1 := by
  unfold ArmPlugin.updateAgent
  simp only [hs, ha, Bool.not_true, Bool.false_eq_true, if_false]
  cases hc : i.cudaOk with
  | false => exact ⟨[], by simp, by simp⟩
  | true =>
    simp only [Bool.not_true, Bool.false_eq_true, if_false]
    rcases hfail with h | h | ⟨a, h, hr⟩
    · rw [hc] at h
      cases h
    · rw [h]
      exact ⟨[Event.NextAction], by simp, rfl⟩
    · rw [h]
      dsimp only
      rw [if_pos hr]
      exact ⟨[Event.NextAction], by simp, rfl⟩

theorem rewardStage_untouched (DOF : Nat) (hadNewState : Bool) (s : ArmPlugin)
    (i : UpdateInfo) :
    (s.rewardStage DOF hadNewState i).1.ref = s.ref ∧
      (s.rewardStage DOF hadNewState i).1.newState = s.newState ∧
      ∀ j v, Event.SetJointPosition j v ∉ (s.rewardStage DOF hadNewState i).2 := by
  obtain ⟨nr, ee, rh, he⟩ := episodeTimeout_frame s
  unfold ArmPlugin.rewardStage
  cases hr : ArmPlugin.interimReward hadNewState s.episodeTimeout i with
  | none =>
    dsimp only
    rw [he]
    exact ⟨rfl, rfl, fun j v hm => by cases hm⟩
  | some s3 =>
    obtain ⟨nr', ee', rh', h3⟩ := interimReward_frame _ _ _ _ hr
    dsimp only
    have hr3 : s3.ref = s.ref := by rw [h3, he]
    have hn3 : s3.newState = s.newState := by rw [h3, he]
    simp only [ArmPlugin.issueRewards, ArmPlugin.resetEpisode]
    split_ifs <;> refine ⟨hr3, hn3, fun j v hm => ?_⟩ <;> simp at hm

/-- A failed action where the input tensor is allocated: in every such reachable
state, on an AgentDriven tick with a frame ready in which the frame conversion
fails, the action selection fails, or the selected action lies outside
`[0, 2*DOF)`:
`updateJoints` returns false with only `episodeFrames` increased by 1 and
`newState` cleared; the tick returns, the joint references are unchanged and no
joint target is written to the simulator; `newState` is false after the tick;
`episodeFrames` is one more than before unless the tick ends the episode; and
the timeout check is evaluated on the incremented count: if
`episodeFrames + 1` exceeds the episode length the tick submits the terminal
reward `rewardHistory`, and if it does not (and no reward was pending) the only
terminal reward the tick can submit is the ground-contact loss. -/
theorem failed_action_tick (DOF : Nat) (s : ArmPlugin) (i : UpdateInfo)
    (hr : Reachable DOF s) (hs : s.inputState = true) (ht : s.testAnimation = false)
    (hn : s.newState = true)
    (hfail : i.cudaOk = false ∨ i.nextAction = none ∨
      ∃ a, i.nextAction = some a ∧ (a < 0 ∨ a ≥ (DOF : Int) * 2)) :
    ∃ log1 s' log,
      s.updateJoints DOF i =
        Outcome.done false { s with episodeFrames := s.episodeFrames + 1, newState := false }
          log1 ∧
      s.OnUpdate DOF i = Outcome.done () s' log ∧
      s'.ref = s.ref ∧ (∀ j v, Event.SetJointPosition j v ∉ log) ∧
      s'.newState = false ∧
      ((∀ r, (r, true) ∉ submitted log) → s'.episodeFrames = s.episodeFrames + 1) ∧
      (s.episodeFrames + 1 > s.maxEpisodeLength →
        submitted log = [(s.rewardHistory, true)]) ∧
      (s.newReward = false → s.episodeFrames + 1 ≤ s.maxEpisodeLength →
        ∀ r, (r, true) ∈ submitted log → r = REWARD_LOSS ∧ i.gripMinZ ≤ groundContact) := by
  have hi := Reachable_inv DOF s hr
  have ha : s.agent = true := Reachable_agent DOF s hr ht
  obtain ⟨s1, hs1⟩ : ∃ s1 : ArmPlugin,
      s1 = { s with episodeFrames := s.episodeFrames + 1, newState := false } := ⟨_, rfl⟩
  have e1 : s1.ref = s.ref := by rw [hs1]
  have e2 : s1.newState = false := by rw [hs1]
  have e3 : s1.episodeFrames = s.episodeFrames + 1 := by rw [hs1]
  have e4 : s1.maxEpisodeLength = s.maxEpisodeLength := by rw [hs1]
  have e5 : s1.rewardHistory = s.rewardHistory := by rw [hs1]
  have e6 : s1.newReward = s.newReward := by rw [hs1]
  have e7 : s1.agent = true := by rw [hs1]; exact ha
  have e8 : s1.inputState = true := by rw [hs1]; exact hs
  have e9 : s1.endEpisode = s1.newReward := by rw [hs1]; exact hi.flags
  obtain ⟨log1, hl1, hua⟩ := updateAgent_fails DOF s1 i e8 e7 hfail
  have hu : s.updateJoints DOF i = Outcome.done false s1 log1 := by
    unfold ArmPlugin.updateJoints
    rw [if_neg (by rw [ht]; exact Bool.false_ne_true), if_pos (by rw [hn, ha]; rfl)]
    dsimp only
    rw [← hs1]
    exact hua
  have htick := OnUpdateLoaded_eq DOF s s1 i false log1 hu
  rw [← OnUpdate_of_agent DOF s i ha] at htick
  have hsub := submitted_tick_log DOF s s1 i false log1
    (s1.rewardStage DOF (s.newState && !s.testAnimation) i).2 hu
  obtain ⟨u1, u2, u3⟩ := rewardStage_untouched DOF (s.newState && !s.testAnimation) s1 i
  have hcases := rewardStage_cases DOF (s.newState && !s.testAnimation) s1 i e7 e9
  refine ⟨log1, _, _, hs1 ▸ hu, htick, by rw [u1, e1], ?_, by rw [u2, e2], ?_, ?_, ?_⟩
  · intro j v hm
    rcases List.mem_append.1 hm with hm | hm
    · rcases List.mem_append.1 hm with hm | hm
      · have := hl1 hm
        simp at this
      · simp at hm
    · exact u3 j v hm
  · intro hno
    rw [hsub] at hno
    rcases hcases with ⟨hc, -⟩ | ⟨hc, -⟩ | ⟨hc, -⟩ | ⟨hc, -⟩
    · rw [hc] at hno
      exact absurd (List.mem_singleton.2 rfl) (hno s1.rewardHistory)
    · rw [hc, e3]
    · rw [hc] at hno
      exact absurd (List.mem_singleton.2 rfl) (hno REWARD_LOSS)
    · rw [hc]
      exact e3
  · intro hgt
    rw [hsub, rewardStage_timeout DOF _ s1 i e7
      ⟨by rw [e4, hi.limit]; decide, by rw [e3, e4]; exact hgt⟩, ← e5]
    rfl
  · intro hnr hle r hm
    rw [hsub] at hm
    rcases hcases with ⟨hc, hor⟩ | ⟨hc, -⟩ | ⟨hc, -, -, -, -, -, hz⟩ | ⟨hc, -⟩
    · rcases hor with h | h
      · rw [e6, hnr] at h
        exact absurd h Bool.false_ne_true
      · rw [e3, e4] at h
        omega
    · rw [hc] at hm
      simp [submitted] at hm
    · rw [hc] at hm
      simp only [submitted, List.mem_singleton, Prod.mk.injEq, and_true] at hm
      exact ⟨hm, hz⟩
    · rw [hc] at hm
      simp [submitted] at hm

/-- An instance of `failed_action_tick`: the first frame of an episode of the
run with two joints, on which the agent selects action 4, outside `[0, 4)`. -/
theorem failed_action_tick_example :
    ∃ log1 s' log,
      (driving 0 0 true).updateJoints 2 frameInput =
        Outcome.done false
          { driving 0 0 true with episodeFrames := (driving 0 0 true).episodeFrames + 1,
                                  newState := false } log1 ∧
      (driving 0 0 true).OnUpdate 2 frameInput = Outcome.done () s' log ∧
      s'.ref = (driving 0 0 true).ref ∧ (∀ j v, Event.SetJointPosition j v ∉ log) ∧
      s'.newState = false ∧
      ((∀ r, (r, true) ∉ submitted log) →
        s'.episodeFrames = (driving 0 0 true).episodeFrames + 1) ∧
      ((driving 0 0 true).episodeFrames + 1 > (driving 0 0 true).maxEpisodeLength →
        submitted log = [((driving 0 0 true).rewardHistory, true)]) ∧
      ((driving 0 0 true).newReward = false →
        (driving 0 0 true).episodeFrames + 1 ≤ (driving 0 0 true).maxEpisodeLength →
        ∀ r, (r, true) ∈ submitted log →
          r = REWARD_LOSS ∧ frameInput.gripMinZ ≤ groundContact) :=
  failed_action_tick 2 (driving 0 0 true) frameInput reachable_frame_ready rfl rfl rfl
    (Or.inr (Or.inr ⟨4, rfl, Or.inr (by decide)⟩))

theorem rewardStage_resetPos (DOF : Nat) (hadNewState : Bool) (s : ArmPlugin)
    (i : UpdateInfo) : (s.rewardStage DOF hadNewState i).1.resetPos = s.resetPos := by
  obtain ⟨nr, ee, rh, he⟩ := episodeTimeout_frame s
  unfold ArmPlugin.rewardStage
  cases hr : ArmPlugin.interimReward hadNewState s.episodeTimeout i with
  | none =>
    dsimp only
    rw [he]
  | some s3 =>
    obtain ⟨nr', ee', rh', h3⟩ := interimReward_frame _ _ _ _ hr
    dsimp only
    have hr3 : s3.resetPos = s.resetPos := by rw [h3, he]
    simp only [ArmPlugin.issueRewards, ArmPlugin.resetEpisode]
    split_ifs <;> exact hr3

theorem Reachable_resetPos (DOF : Nat) (s : ArmPlugin) (h : Reachable DOF s) :
    s.resetPos = ArmPlugin.new.resetPos := by
  induction h with
  | init => rfl
  | tick s s' i log _ ht ih =>
    rcases OnUpdate_done_stage DOF s s' i log ht with
      ⟨a, b, -, -, hs'⟩ | ⟨b, log0, moved, s1, log1, -, -, hu, hs', -⟩
    · rw [hs']
      exact ih
    · obtain ⟨-, -, -, -, -, -, -, -, h9, -⟩ := updateJoints_frame DOF _ s1 i moved log1 hu
      rw [hs', rewardStage_resetPos, h9]
      exact ih
  | camera s s' msg _ hc ih =>
    obtain ⟨a, b, c, d, e, hs'⟩ := onCameraMsg_frame s s' msg hc
    rw [hs']
    exact ih
  | collision s contacts _ ih =>
    rcases onCollisionMsg_eq s contacts with hc | hc
    · rw [hc]
      exact ih
    · rw [hc]
      exact ih

theorem Reachable_home_inRange (DOF : Nat) (s : ArmPlugin) (h : Reachable DOF s) (n : Nat) :
    JOINT_MIN ≤ s.resetPos n ∧ s.resetPos n ≤ JOINT_MAX := by
  rw [Reachable_resetPos DOF s h]
  show JOINT_MIN ≤ Function.update (fun _ => (0 : ℚ)) 1 (1/4) n ∧
    Function.update (fun _ => (0 : ℚ)) 1 (1/4) n ≤ JOINT_MAX
  by_cases hn : n = 1
  · subst hn
    norm_num [JOINT_MIN, JOINT_MAX]
  · rw [Function.update_noteq hn]
    norm_num [JOINT_MIN, JOINT_MAX]

end gazebo
